import Mathlib

/-!
# Request construction and dispatch layer of the WAPI client

A shallow embedding of `connector.go`: the request builder, the request sender, the transport
configuration and the connector's CRUD orchestration with its forced-proxy retry; and of the
helpers of `object_manager.go` for cloud attributes, fixed addresses and networks.

Conventions of the embedding.

* Go `string` values and the contents of `[]byte` values are lists of characters (`Str`); all
  wire data is taken to be text, so UTF-8 coding is only visible where the code percent-escapes.
* A `[]byte` value that may be `nil` is `Bytes = Option Str` (`none` is the nil slice).
* A Go result pair `(T, error)` is a pair `T × Option Error`.
* The world outside the connector (builder and sender state, the network) is a state `σ` that
  is passed explicitly; every build and every send is also recorded in a trace, which is what
  statements about "how many sends" are about.
* `encoding/json`, `net/url`, `net/http`, `strings` and `regexp` are library code; the parts
  the client relies on are modelled below, each next to the place that uses it.
* The object manager talks to the connector through the `IBConnector` interface; its calls are
  recorded in the same way as the builds and sends of the connector.
-/

namespace Ibclient

/-! ## Basic data -/

/-- Go strings and byte contents. -/
abbrev Str := List Char

/-- A byte slice that may be nil. -/
abbrev Bytes := Option Str

/-- Contents of a possibly nil byte slice. -/
def Bytes.toStr : Bytes → Str
  | none => []
  | some s => s

/-- Go `len` of a possibly nil byte slice. -/
def Bytes.len (b : Bytes) : Nat := b.toStr.length

/-- Go error values: the errors of `encoding/json` by kind, every other error by its message. -/
inductive Error where
  | other (msg : Str)
  | jsonSyntax
  | jsonUnmarshalType
  deriving DecidableEq, Repr

/-! ## A model of `encoding/json` decoding -/

/-- JSON values, which are also the Go values `json.Unmarshal` stores in an `interface{}`:
`nil`, `bool`, number (kept as its literal), `string`, `[]interface{}`,
`map[string]interface{}` (kept as the member list in source order). -/
inductive JVal where
  | null
  | bool (b : Bool)
  | num (lit : Str)
  | str (s : Str)
  | arr (xs : List JVal)
  | obj (kvs : List (Str × JVal))

/-- Go `reflect.TypeOf(v) == reflect.TypeOf([]interface{}{}) && len(v.([]interface{})) == 0`. -/
def JVal.isEmptyArray : JVal → Bool
  | JVal.arr [] => true
  | _ => false

/-- JSON insignificant whitespace. -/
def isSpace (c : Char) : Bool :=
  c == ' ' || c == '\t' || c == '\r' || c == '\n'

/-- Drop leading whitespace. -/
def skipWS : Str → Str
  | [] => []
  | c :: cs => if isSpace c then skipWS cs else c :: cs

/-- Value of a hexadecimal digit. -/
def hexVal (c : Char) : Option Nat :=
  if '0' ≤ c ∧ c ≤ '9' then some (c.toNat - '0'.toNat)
  else if 'a' ≤ c ∧ c ≤ 'f' then some (c.toNat - 'a'.toNat + 10)
  else if 'A' ≤ c ∧ c ≤ 'F' then some (c.toNat - 'A'.toNat + 10)
  else none

/-- Four hexadecimal digits as a number (`getu4`). -/
def getu4 (a b c d : Char) : Option Nat :=
  match hexVal a, hexVal b, hexVal c, hexVal d with
  | some x, some y, some z, some w => some (((x * 16 + y) * 16 + z) * 16 + w)
  | _, _, _, _ => none

/-- UTF-16 surrogate code units. -/
def isSurrogate (n : Nat) : Bool := 0xD800 ≤ n && n < 0xE000

/-- Combine a surrogate pair (`utf16.DecodeRune`); `none` when it is not a valid pair. -/
def decodeSurrogates (r1 r2 : Nat) : Option Nat :=
  if 0xD800 ≤ r1 ∧ r1 < 0xDC00 ∧ 0xDC00 ≤ r2 ∧ r2 < 0xE000 then
    some ((r1 - 0xD800) * 0x400 + (r2 - 0xDC00) + 0x10000)
  else none

/-- The Unicode replacement character. -/
def replacementChar : Char := Char.ofNat 0xFFFD

/-- Character of a single-letter escape. -/
def simpleEscape (c : Char) : Option Char :=
  if c == '"' then some '"'
  else if c == '\\' then some '\\'
  else if c == '/' then some '/'
  else if c == 'b' then some (Char.ofNat 8)
  else if c == 'f' then some (Char.ofNat 12)
  else if c == 'n' then some '\n'
  else if c == 'r' then some '\r'
  else if c == 't' then some '\t'
  else none

/-- Output owed for a pending unpaired surrogate escape: the replacement character. -/
def flushPending : Option Nat → Str
  | none => []
  | some _ => [replacementChar]

/-- Put already decoded characters in front of the result of the remaining scan. -/
def prependDecoded (pre : Str) (r : Option (Str × Str)) : Option (Str × Str) :=
  r.map (fun p => (pre ++ p.1, p.2))

/-- Scan and unquote a string literal after its opening quote: the decoded string and the
input after the closing quote. Control characters must be escaped. `pend` is a surrogate
escape just read and not yet paired: it combines with a directly following low surrogate
escape and otherwise decodes to the replacement character. -/
def parseStringBody (pend : Option Nat) : Str → Option (Str × Str)
  | [] => none
  | c :: rest =>
    if c == '"' then some (flushPending pend, rest)
    else if c == '\\' then
      match rest with
      | [] => none
      | e :: rest1 =>
        if e == 'u' then
          match rest1 with
          | h1 :: h2 :: h3 :: h4 :: rest2 =>
            match getu4 h1 h2 h3 h4 with
            | none => none
            | some r =>
              match pend.bind (fun r1 => decodeSurrogates r1 r) with
              | some x => prependDecoded [Char.ofNat x] (parseStringBody none rest2)
              | none =>
                if isSurrogate r then
                  prependDecoded (flushPending pend) (parseStringBody (some r) rest2)
                else
                  prependDecoded (flushPending pend ++ [Char.ofNat r])
                    (parseStringBody none rest2)
          | _ => none
        else
          match simpleEscape e with
          | none => none
          | some ch => prependDecoded (flushPending pend ++ [ch]) (parseStringBody none rest1)
    else if c.toNat < 0x20 then none
    else prependDecoded (flushPending pend ++ [c]) (parseStringBody none rest)

/-- Leading decimal digits and the rest. -/
def spanDigits : Str → Str × Str
  | [] => ([], [])
  | c :: cs =>
    if c.isDigit then ((c :: (spanDigits cs).1), (spanDigits cs).2) else ([], c :: cs)

/-- Scan the integer part of a number: `0` or a non-zero digit followed by digits. -/
def parseInt : Str → Option (Str × Str)
  | '0' :: rest => some (['0'], rest)
  | c :: rest =>
    if c.isDigit then some (c :: (spanDigits rest).1, (spanDigits rest).2) else none
  | [] => none

/-- Scan an optional fraction. -/
def parseFrac : Str → Option (Str × Str)
  | '.' :: rest =>
    match spanDigits rest with
    | ([], _) => none
    | (ds, rest2) => some ('.' :: ds, rest2)
  | s => some ([], s)

/-- Scan the digits of an exponent. -/
def parseExpDigits (pre : Str) (s : Str) : Option (Str × Str) :=
  match spanDigits s with
  | ([], _) => none
  | (ds, rest) => some (pre ++ ds, rest)

/-- Scan an optional exponent. -/
def parseExp : Str → Option (Str × Str)
  | 'e' :: '+' :: rest => parseExpDigits ['e', '+'] rest
  | 'e' :: '-' :: rest => parseExpDigits ['e', '-'] rest
  | 'e' :: rest => parseExpDigits ['e'] rest
  | 'E' :: '+' :: rest => parseExpDigits ['E', '+'] rest
  | 'E' :: '-' :: rest => parseExpDigits ['E', '-'] rest
  | 'E' :: rest => parseExpDigits ['E'] rest
  | s => some ([], s)

/-- Scan a number without its sign. -/
def parseUnsigned (s : Str) : Option (Str × Str) :=
  match parseInt s with
  | none => none
  | some (i, r1) =>
    match parseFrac r1 with
    | none => none
    | some (f, r2) =>
      match parseExp r2 with
      | none => none
      | some (e, r3) => some (i ++ f ++ e, r3)

/-- Scan a number literal. -/
def parseNumber : Str → Option (Str × Str)
  | '-' :: rest => (parseUnsigned rest).map (fun p => ('-' :: p.1, p.2))
  | s => parseUnsigned s

/-- Drop a literal prefix. -/
def dropPrefix : Str → Str → Option Str
  | [], s => some s
  | _ :: _, [] => none
  | p :: ps, c :: cs => if p == c then dropPrefix ps cs else none

mutual

/-- Scan one JSON value, with leading whitespace: the value and the input after it. The fuel
bounds the number of nested scans; `parseJSON` supplies more than any input can use. -/
def parseValue : Nat → Str → Option (JVal × Str)
  | 0, _ => none
  | fuel + 1, s =>
    match skipWS s with
    | [] => none
    | c :: rest =>
      if c == '"' then (parseStringBody none rest).map (fun p => (JVal.str p.1, p.2))
      else if c == '[' then
        match skipWS rest with
        | [] => none
        | d :: rest2 =>
          if d == ']' then some (JVal.arr [], rest2)
          else (parseElems fuel rest).map (fun p => (JVal.arr p.1, p.2))
      else if c == '{' then
        match skipWS rest with
        | [] => none
        | d :: rest2 =>
          if d == '}' then some (JVal.obj [], rest2)
          else (parseMembers fuel rest).map (fun p => (JVal.obj p.1, p.2))
      else if c == 't' then (dropPrefix ['r', 'u', 'e'] rest).map (fun r => (JVal.bool true, r))
      else if c == 'f' then
        (dropPrefix ['a', 'l', 's', 'e'] rest).map (fun r => (JVal.bool false, r))
      else if c == 'n' then (dropPrefix ['u', 'l', 'l'] rest).map (fun r => (JVal.null, r))
      else (parseNumber (c :: rest)).map (fun p => (JVal.num p.1, p.2))

/-- Scan the elements of a non-empty array up to and including the closing bracket. -/
def parseElems : Nat → Str → Option (List JVal × Str)
  | 0, _ => none
  | fuel + 1, s =>
    match parseValue fuel s with
    | none => none
    | some (v, rest) =>
      match skipWS rest with
      | [] => none
      | d :: rest2 =>
        if d == ',' then (parseElems fuel rest2).map (fun p => (v :: p.1, p.2))
        else if d == ']' then some ([v], rest2)
        else none

/-- Scan the members of a non-empty object up to and including the closing brace. -/
def parseMembers : Nat → Str → Option (List (Str × JVal) × Str)
  | 0, _ => none
  | fuel + 1, s =>
    match skipWS s with
    | [] => none
    | q :: rest =>
      if q == '"' then
        match parseStringBody none rest with
        | none => none
        | some (k, rest1) =>
          match skipWS rest1 with
          | [] => none
          | col :: rest2 =>
            if col == ':' then
              match parseValue fuel rest2 with
              | none => none
              | some (v, rest3) =>
                match skipWS rest3 with
                | [] => none
                | d :: rest4 =>
                  if d == ',' then (parseMembers fuel rest4).map (fun p => ((k, v) :: p.1, p.2))
                  else if d == '}' then some ([(k, v)], rest4)
                  else none
            else none
      else none

end

/-- Parse a complete JSON text: one value, then only whitespace. `none` is a syntax error,
in particular on empty input. -/
def parseJSON (s : Str) : Option JVal :=
  match parseValue (2 * s.length + 2) s with
  | none => none
  | some (v, rest) =>
    match skipWS rest with
    | [] => some v
    | _ :: _ => none

/-- What `json.Unmarshal` does with a syntactically valid value and a target of some Go type:
the target's new contents and the error, if any. -/
abbrev Decoder (ρ : Type) := JVal → ρ → ρ × Option Error

/-- Decoding into a `*string`: a JSON string is stored, `null` has no effect, every other
value is a type error that leaves the target as it was. -/
def decodeString : Decoder Str
  | JVal.str s, _ => (s, none)
  | JVal.null, cur => (cur, none)
  | _, cur => (cur, some Error.jsonUnmarshalType)

/-- Decoding into a `*interface{}` holding nil: the value itself is stored. -/
def decodeAny : Decoder JVal :=
  fun j _ => (j, none)

/-- The first error among the per-element results. -/
def firstError : List (Option Error) → Option Error
  | [] => none
  | some e :: _ => some e
  | none :: es => firstError es

/-- Decoding the elements of an array into the elements of a slice, index by index: an
element at an index that the slice has is decoded into the value held there, an element past
the length of the slice into a zero `T` (the slice is a list of its elements, so it has no
spare capacity, as a nil slice and a slice literal have none). -/
def decodeElems {α : Type} (zero : α) (dec : Decoder α) :
    List JVal → List α → List (α × Option Error)
  | [], _ => []
  | x :: xs, [] => dec x zero :: decodeElems zero dec xs []
  | x :: xs, c :: cs => dec x c :: decodeElems zero dec xs cs

/-- Decoding into a `*[]T`: an array decodes element by element into the slice, which ends
with one element per array element, and the first element error is reported (a type error of
an element does not stop the decoding); `null` empties the slice; every other value is a type
error that leaves the slice as it was. -/
def decodeSlice {α : Type} (zero : α) (dec : Decoder α) : Decoder (List α)
  | JVal.arr xs, cur =>
    ((decodeElems zero dec xs cur).map Prod.fst,
      firstError ((decodeElems zero dec xs cur).map Prod.snd))
  | JVal.null, _ => ([], none)
  | _, cur => (cur, some Error.jsonUnmarshalType)

/-- Go `json.Unmarshal(data, &v)`: the whole input is syntax-checked first, then decoded. -/
def Unmarshal {ρ : Type} (dec : Decoder ρ) (data : Bytes) (v : ρ) : ρ × Option Error :=
  match parseJSON data.toStr with
  | none => (v, some Error.jsonSyntax)
  | some j => dec j v

/-! ## Configuration, request kinds and domain objects -/

/-- The InfoBlox host. -/
structure HostConfig where
  Host : Str
  Version : Str
  Port : Str
  Username : Str
  Password : Str
  deriving DecidableEq

/-- A Go `int` tagging the CRUD operation; any integer is a value of the type. -/
structure RequestType where
  val : Int
  deriving DecidableEq

/-- The object should be created via HTTP POST. -/
def CREATE : RequestType := ⟨0⟩

/-- The object should be retrieved via HTTP GET. -/
def GET : RequestType := ⟨1⟩

/-- The object should be removed via HTTP DELETE. -/
def DELETE : RequestType := ⟨2⟩

/-- The object should be modified via HTTP PUT. -/
def UPDATE : RequestType := ⟨3⟩

/-- Conversion from CRUD operation to HTTP method. -/
def RequestType.toMethod (r : RequestType) : Str :=
  if r = CREATE then "POST".toList
  else if r = GET then "GET".toList
  else if r = DELETE then "DELETE".toList
  else if r = UPDATE then "PUT".toList
  else []

/-- Query options of one request. -/
structure QueryParams where
  forceProxy : Bool
  deriving DecidableEq

deriving instance DecidableEq for Except

/-- An extensible-attribute search filter, as the builder sees it: the number of entries of the
map and the result of `json.Marshal` on it. -/
structure EASearch where
  len : Nat
  MarshalJSON : Except Error Str
  deriving DecidableEq

/-- A domain object, as the builder sees it through the `IBObject` interface: its resource
type name, the fields it wants returned, its search filter, and the result of `json.Marshal`
on it. -/
structure IBObject where
  ObjectType : Str
  ReturnFields : List Str
  EaSearch : EASearch
  MarshalJSON : Except Error Str
  deriving DecidableEq

/-! ## A model of `net/url` -/

/-- The escaping modes of `net/url` that the builder reaches. -/
inductive Encoding where
  | encodePath
  | encodeHost
  | encodeQueryComponent
  deriving DecidableEq

/-- Go `shouldEscape`, for an ASCII character. -/
def shouldEscape (c : Char) (mode : Encoding) : Bool :=
  if c.isAlphanum then false
  else if mode = Encoding.encodeHost ∧
      (c == '!' || c == '$' || c == '&' || c == '\'' || c == '(' || c == ')' || c == '*' ||
        c == '+' || c == ',' || c == ';' || c == '=' || c == ':' || c == '[' || c == ']' ||
        c == '<' || c == '>' || c == '"') then false
  else if c == '-' || c == '_' || c == '.' || c == '~' then false
  else if (c == '$' || c == '&' || c == '+' || c == ',' || c == '/' || c == ':' || c == ';' ||
      c == '=' || c == '?' || c == '@') ∧ mode = Encoding.encodePath then c == '?'
  else true

/-- The UTF-8 bytes of a character. -/
def utf8Bytes (c : Char) : List Nat :=
  let n := c.toNat
  if n < 0x80 then [n]
  else if n < 0x800 then [0xC0 + n / 64, 0x80 + n % 64]
  else if n < 0x10000 then [0xE0 + n / 4096, 0x80 + n / 64 % 64, 0x80 + n % 64]
  else [0xF0 + n / 262144, 0x80 + n / 4096 % 64, 0x80 + n / 64 % 64, 0x80 + n % 64]

/-- An upper-case hexadecimal digit. -/
def upperHexDigit (n : Nat) : Char :=
  if n < 10 then Char.ofNat (48 + n) else Char.ofNat (55 + n)

/-- Percent-encoding of one byte. -/
def percentByte (b : Nat) : Str :=
  ['%', upperHexDigit (b / 16), upperHexDigit (b % 16)]

/-- Escaping of one character: ASCII by `shouldEscape` (a space in a query component becomes
`+`), every byte of a non-ASCII character percent-encoded. -/
def escapeChar (mode : Encoding) (c : Char) : Str :=
  if c.toNat < 0x80 then
    if shouldEscape c mode then
      if c == ' ' ∧ mode = Encoding.encodeQueryComponent then ['+'] else percentByte c.toNat
    else [c]
  else (utf8Bytes c).flatMap percentByte

/-- Go `escape`. -/
def escape (s : Str) (mode : Encoding) : Str :=
  s.flatMap (escapeChar mode)

/-- Go `url.QueryEscape`. -/
def QueryEscape (s : Str) : Str :=
  escape s Encoding.encodeQueryComponent

/-- Go `strings.Join`. -/
def Join : List Str → Str → Str
  | [], _ => []
  | [a], _ => a
  | a :: b :: rest, sep => a ++ sep ++ Join (b :: rest) sep

/-- Bytewise order of Go strings. -/
def strLt : Str → Str → Bool
  | _, [] => false
  | [], _ :: _ => true
  | a :: as, b :: bs => a.toNat < b.toNat || (a == b && strLt as bs)

/-- Go `url.Values`: a map from key to values, kept as a list with distinct keys. -/
abbrev Values := List (Str × List Str)

/-- Go `Values.Set`: the key's values are replaced by the one value. -/
def Values.Set : Values → Str → Str → Values
  | [], k, v => [(k, [v])]
  | (k0, vs) :: rest, k, v =>
    if k0 = k then (k, [v]) :: rest else (k0, vs) :: Values.Set rest k v

/-- Insert an entry into a list sorted by key. -/
def insertByKey (e : Str × List Str) : Values → Values
  | [] => [e]
  | x :: xs => if strLt e.1 x.1 then e :: x :: xs else x :: insertByKey e xs

/-- The entries sorted by key. -/
def sortByKey : Values → Values
  | [] => []
  | x :: xs => insertByKey x (sortByKey xs)

/-- Go `Values.Encode`: `key=value` pairs, both query-escaped, sorted by key, joined by `&`. -/
def Values.Encode (v : Values) : Str :=
  Join ((sortByKey v).flatMap
    (fun e => e.2.map (fun x => QueryEscape e.1 ++ ['='] ++ QueryEscape x))) ['&']

/-- The fields of `url.URL` that the builder sets; the others are zero. -/
structure URL where
  Scheme : Str
  Host : Str
  Path : Str
  RawQuery : Str
  deriving DecidableEq

/-- Go `URL.EscapedPath`, for an empty `RawPath`. -/
def URL.EscapedPath (u : URL) : Str :=
  if u.Path = ['*'] then ['*'] else escape u.Path Encoding.encodePath

/-- Go `URL.String`, for a URL without opaque part, user information, forced query or
fragment. -/
def URL.String (u : URL) : Str :=
  let buf := if u.Scheme ≠ [] then u.Scheme ++ [':'] else []
  let buf :=
    if u.Scheme ≠ [] ∨ u.Host ≠ [] then
      (if u.Host ≠ [] ∨ u.Path ≠ [] then buf ++ ['/', '/'] else buf) ++
        (if u.Host ≠ [] then escape u.Host Encoding.encodeHost else [])
    else buf
  let path := u.EscapedPath
  let buf := if path ≠ [] ∧ path.head? ≠ some '/' ∧ u.Host ≠ [] then buf ++ ['/'] else buf
  let buf :=
    if buf = [] ∧ ':' ∈ path.takeWhile (fun c => c != '/') then buf ++ ['.', '/'] else buf
  let buf := buf ++ path
  if u.RawQuery ≠ [] then buf ++ ['?'] ++ u.RawQuery else buf

/-- Go `strings.Cut` at a character: the text before the first occurrence and the text after
it (all of the text and nothing when there is none). -/
def cutAt (sep : Char) : Str → Str × Str
  | [] => ([], [])
  | c :: cs => if c == sep then ([], cs) else (c :: (cutAt sep cs).1, (cutAt sep cs).2)

/-- An ASCII control character. -/
def isCTL (c : Char) : Bool :=
  decide (c.toNat < 0x20) || c.toNat == 0x7f

/-- Go `stringContainsCTLByte`. -/
def containsCTL (s : Str) : Bool :=
  s.any isCTL

/-- The checks of `net/url` that are not modelled in detail: the error, if any, of parsing the
scheme, authority and path of a URL, and of parsing its fragment. -/
structure NetURL where
  hierError : Str → Option Error
  fragmentError : Str → Option Error

/-- Error of Go `url.Parse`, if any: the fragment is cut off, control characters are refused,
the query is cut off and kept raw, scheme, authority and path are checked, and last a
non-empty fragment. -/
def urlParseError (lib : NetURL) (rawURL : Str) : Option Error :=
  let u := (cutAt '#' rawURL).1
  let frag := (cutAt '#' rawURL).2
  if containsCTL u then some (Error.other "net/url: invalid control character in URL".toList)
  else
    match lib.hierError (cutAt '?' u).1 with
    | some e => some e
    | none => if frag = [] then none else lib.fragmentError frag

/-! ## A model of `net/http` requests and responses -/

/-- Go `http.Header`, for keys that are already in canonical form. -/
abbrev Header := Values

/-- An HTTP request: method, the URL it was created from, headers and body. -/
structure Request where
  Method : Str
  URL : Str
  Header : Header
  Body : Str
  deriving DecidableEq

/-- Characters allowed in an HTTP method (`httpguts.IsTokenRune`). -/
def isTokenChar (c : Char) : Bool :=
  c.isAlphanum || c == '!' || c == '#' || c == '$' || c == '%' || c == '&' || c == '\'' ||
    c == '*' || c == '+' || c == '-' || c == '.' || c == '^' || c == '_' ||
    c == Char.ofNat 96 || c == '|' || c == '~'

/-- Go `validMethod`. -/
def validMethod (method : Str) : Bool :=
  decide (method.length > 0) && method.all isTokenChar

/-- Go `http.NewRequest`: an empty method means GET, the method must be a token and the URL
must parse; the request starts without headers. -/
def NewRequest (lib : NetURL) (method url body : Str) : Except Error Request :=
  let method := if method = [] then "GET".toList else method
  if ¬ validMethod method then
    Except.error (Error.other ("net/http: invalid method ".toList ++ method))
  else
    match urlParseError lib url with
    | some e => Except.error e
    | none => Except.ok { Method := method, URL := url, Header := [], Body := body }

/-- A character of the standard base64 alphabet. -/
def base64Char (n : Nat) : Char :=
  if n < 26 then Char.ofNat (65 + n)
  else if n < 52 then Char.ofNat (71 + n)
  else if n < 62 then Char.ofNat (n - 4)
  else if n = 62 then '+' else '/'

/-- Standard base64 with padding. -/
def base64 : List Nat → Str
  | [] => []
  | [a] => [base64Char (a / 4), base64Char (a % 4 * 16), '=', '=']
  | [a, b] => [base64Char (a / 4), base64Char (a % 4 * 16 + b / 16), base64Char (b % 16 * 4), '=']
  | a :: b :: c :: rest =>
    [base64Char (a / 4), base64Char (a % 4 * 16 + b / 16), base64Char (b % 16 * 4 + c / 64),
      base64Char (c % 64)] ++ base64 rest

/-- Go `Request.SetBasicAuth`. -/
def Request.SetBasicAuth (req : Request) (username password : Str) : Request :=
  { req with
    Header := Values.Set req.Header "Authorization".toList
      ("Basic ".toList ++ base64 ((username ++ [':'] ++ password).flatMap utf8Bytes)) }

/-- A response body: the bytes a full read yields and the error it ends with, if any. -/
structure Body where
  data : Str
  readErr : Option Error
  deriving DecidableEq

/-- Go `ioutil.ReadAll`: what was read, never nil, and the read error. -/
def ReadAll (b : Body) : Bytes × Option Error :=
  (some b.data, b.readErr)

/-- An HTTP response. -/
structure Response where
  StatusCode : Int
  Status : Str
  Body : Body
  deriving DecidableEq

/-- Go `%d` of an integer. -/
def formatInt : Int → Str
  | Int.ofNat n => Nat.toDigits 10 n
  | Int.negSucc n => '-' :: Nat.toDigits 10 (n + 1)

/-! ## The request builder -/

/-- The WAPI request builder. -/
structure WapiRequestBuilder where
  HostConfig : HostConfig
  deriving DecidableEq

/-- Init copies the provided HostConfig into the WapiRequestBuilder. -/
def WapiRequestBuilder.Init (_wrb : WapiRequestBuilder) (cfg : Ibclient.HostConfig) :
    WapiRequestBuilder :=
  { HostConfig := cfg }

/-- BuildURL implements the construction of a InfoBlox WAPI URL. -/
def WapiRequestBuilder.BuildURL (wrb : WapiRequestBuilder) (t : RequestType) (objType ref : Str)
    (returnFields : List Str) (queryParams : QueryParams) : Str :=
  let path := ["wapi".toList, 'v' :: wrb.HostConfig.Version]
  let path := if ref.length > 0 then path ++ [ref] else path ++ [objType]
  let vals : Values := []
  let qry :=
    if t = GET then
      let vals :=
        if returnFields.length > 0 then
          Values.Set vals "_return_fields".toList (Join returnFields [','])
        else vals
      let vals :=
        if queryParams.forceProxy then Values.Set vals "_proxy_search".toList "GM".toList
        else vals
      Values.Encode vals
    else []
  URL.String
    { Scheme := "https".toList
      Host := wrb.HostConfig.Host ++ [':'] ++ wrb.HostConfig.Port
      Path := Join path ['/']
      RawQuery := qry }

/-- BuildBody implements the construction of a JSON object for use as the body of an HTTP
request; nil when marshalling fails. (`json.Marshal` never yields an empty encoding, on which
the Go slice expressions would panic.) -/
def WapiRequestBuilder.BuildBody (_wrb : WapiRequestBuilder) (t : RequestType) (obj : IBObject) :
    Bytes :=
  match obj.MarshalJSON with
  | Except.error _ => none
  | Except.ok objJSON =>
    let eaSearch := obj.EaSearch
    if t = GET ∧ eaSearch.len > 0 then
      match eaSearch.MarshalJSON with
      | Except.error _ => none
      | Except.ok eaSearchJSON => some (objJSON.dropLast ++ [','] ++ eaSearchJSON.tail)
    else some objJSON

/-- BuildRequest implements the construction of an HTTP request. -/
def WapiRequestBuilder.BuildRequest (lib : NetURL) (wrb : WapiRequestBuilder) (t : RequestType)
    (obj : Option IBObject) (ref : Str) (queryParams : QueryParams) : Except Error Request :=
  let objType : Str := match obj with
    | some o => o.ObjectType
    | none => []
  let returnFields : List Str := match obj with
    | some o => o.ReturnFields
    | none => []
  let urlStr := wrb.BuildURL t objType ref returnFields queryParams
  let bodyStr : Bytes := match obj with
    | some o => wrb.BuildBody t o
    | none => none
  match NewRequest lib t.toMethod urlStr bodyStr.toStr with
  | Except.error e => Except.error e
  | Except.ok req =>
    Except.ok
      ({ req with
          Header := Values.Set req.Header "Content-Type".toList "application/json".toList
        }.SetBasicAuth wrb.HostConfig.Username wrb.HostConfig.Password)

/-! ## The request sender -/

/-- HTTP transport configuration; the timeout is a `time.Duration` holding the configured
number (of seconds). -/
structure TransportConfig where
  SslVerify : Bool
  certPool : Option (List Str)
  HTTPRequestTimeout : Int
  HTTPPoolConnections : Int
  deriving DecidableEq

/-- The settings of the `http.Client` that the sender owns (its cookie jar and connection pool
are part of the network state). -/
structure HTTPClient where
  InsecureSkipVerify : Bool
  RootCAs : Option (List Str)
  MaxIdleConnsPerHost : Int
  Timeout : Int
  deriving DecidableEq

/-- The WAPI request sender. -/
structure WapiHTTPRequestor where
  client : HTTPClient
  deriving DecidableEq

/-- The transport: what `http.Client.Do` yields for a client, a request and a network state,
either a transport error or a response. -/
structure Network (ν : Type) where
  Do : HTTPClient → Request → ν → Except Error Response × ν

/-- Go multiplication of `int64` values. -/
def mulInt64 (a b : Int) : Int :=
  (a * b + 2 ^ 63) % 2 ^ 64 - 2 ^ 63

/-- Init sets up a connector client. -/
def WapiHTTPRequestor.Init (_whr : WapiHTTPRequestor) (cfg : TransportConfig) :
    WapiHTTPRequestor :=
  { client :=
      { InsecureSkipVerify := !cfg.SslVerify
        RootCAs := cfg.certPool
        MaxIdleConnsPerHost := cfg.HTTPPoolConnections
        Timeout := mulInt64 cfg.HTTPRequestTimeout 1000000000 } }

/-- The error made from a response with an unaccepted status: code, status text and whatever
of the body could be read. -/
def getHTTPResponseError (resp : Response) : Error :=
  let content := (ReadAll resp.Body).1.toStr
  Error.other ("WAPI request error: ".toList ++ formatInt resp.StatusCode ++ "('".toList ++
    resp.Status ++ "')\nContents:\n".toList ++ content ++ "\n".toList)

/-- SendRequest makes an HTTP request and returns the response body. -/
def WapiHTTPRequestor.SendRequest {ν : Type} (net : Network ν) (whr : WapiHTTPRequestor)
    (req : Request) (n : ν) : (Bytes × Option Error) × ν :=
  match (net.Do whr.client req n).1 with
  | Except.error err => ((none, some err), (net.Do whr.client req n).2)
  | Except.ok resp =>
    if ¬ (resp.StatusCode = 200 ∨ (resp.StatusCode = 201 ∧ req.Method = CREATE.toMethod)) then
      ((none, some (getHTTPResponseError resp)), (net.Do whr.client req n).2)
    else (ReadAll resp.Body, (net.Do whr.client req n).2)

/-! ## The connector -/

/-- What the connector does to the outside world, with what came back: it asks the builder
for a request, or hands a request to the sender. -/
inductive Event (Req : Type) where
  | build (t : RequestType) (obj : Option IBObject) (ref : Str) (queryParams : QueryParams)
      (result : Except Error Req)
  | send (req : Req) (result : Bytes × Option Error)

/-- The state of builder, sender and network, with the record of the connector's builds and
sends so far. -/
structure World (σ Req : Type) where
  state : σ
  trace : List (Event Req)

/-- The requests sent, in order. -/
def sends {Req : Type} : List (Event Req) → List Req
  | [] => []
  | Event.send req _ :: es => req :: sends es
  | Event.build _ _ _ _ _ :: es => sends es

/-- The number of builds. -/
def numBuilds {Req : Type} : List (Event Req) → Nat
  | [] => 0
  | Event.send _ _ :: es => numBuilds es
  | Event.build _ _ _ _ _ :: es => numBuilds es + 1

/-- The part of the `HTTPRequestBuilder` interface that the connector calls. A request is any
value the builder hands out; a result with an error carries no request. -/
structure HTTPRequestBuilder (σ Req : Type) where
  Init : HostConfig → σ → σ
  BuildRequest :
    RequestType → Option IBObject → Str → QueryParams → σ → Except Error Req × σ

/-- The `HTTPRequestor` interface. -/
structure HTTPRequestor (σ Req : Type) where
  Init : TransportConfig → σ → σ
  SendRequest : Req → σ → (Bytes × Option Error) × σ

/-- The connector. -/
structure Connector (σ Req : Type) where
  HostConfig : HostConfig
  TransportConfig : TransportConfig
  RequestBuilder : HTTPRequestBuilder σ Req
  Requestor : HTTPRequestor σ Req

/-- A call of `c.RequestBuilder.BuildRequest`, recorded. -/
def Connector.build {σ Req : Type} (c : Connector σ Req) (t : RequestType)
    (obj : Option IBObject) (ref : Str) (queryParams : QueryParams) (w : World σ Req) :
    Except Error Req × World σ Req :=
  ((c.RequestBuilder.BuildRequest t obj ref queryParams w.state).1,
    { state := (c.RequestBuilder.BuildRequest t obj ref queryParams w.state).2
      trace := w.trace ++ [Event.build t obj ref queryParams
        (c.RequestBuilder.BuildRequest t obj ref queryParams w.state).1] })

/-- A call of `c.Requestor.SendRequest`, recorded. -/
def Connector.send {σ Req : Type} (c : Connector σ Req) (req : Req) (w : World σ Req) :
    (Bytes × Option Error) × World σ Req :=
  ((c.Requestor.SendRequest req w.state).1,
    { state := (c.Requestor.SendRequest req w.state).2
      trace := w.trace ++ [Event.send req (c.Requestor.SendRequest req w.state).1] })

/-- One round of build and send, with the forced-proxy retry after a failed send. -/
def Connector.makeRequest {σ Req : Type} (c : Connector σ Req) (t : RequestType)
    (obj : Option IBObject) (ref : Str) (queryParams : QueryParams) (w : World σ Req) :
    (Bytes × Option Error) × World σ Req :=
  match c.build t obj ref queryParams w with
  | (Except.error err, w1) => ((none, some err), w1)
  | (Except.ok req, w1) =>
    match c.send req w1 with
    | ((res, none), w2) => ((res, none), w2)
    | ((res, some _), w2) =>
      /- Forcing the request to redirect to Grid Master by making forcedProxy=true -/
      match c.build t obj ref { queryParams with forceProxy := true } w2 with
      | (Except.error err, w3) => ((res, some err), w3)
      | (Except.ok req2, w3) => c.send req2 w3

/-- CreateObject makes a WAPI request to create the specified object. -/
def Connector.CreateObject {σ Req : Type} (c : Connector σ Req) (obj : Option IBObject)
    (w : World σ Req) : (Str × Option Error) × World σ Req :=
  let ref : Str := []
  let queryParams : QueryParams := { forceProxy := false }
  match c.makeRequest CREATE obj [] queryParams w with
  | ((resp, err), w1) =>
    if err ≠ none ∨ resp.len = 0 then ((ref, err), w1)
    else (Unmarshal decodeString resp ref, w1)

/-- GetObject makes a WAPI request to get the specified object. The caller's `res` is a value
of some type `ρ` together with the way `json.Unmarshal` decodes into it; the call yields the
new contents of `res` and the error. -/
def Connector.GetObject {σ Req ρ : Type} (c : Connector σ Req) (obj : Option IBObject)
    (ref : Str) (dec : Decoder ρ) (res : ρ) (w : World σ Req) :
    (ρ × Option Error) × World σ Req :=
  let queryParams : QueryParams := { forceProxy := false }
  match c.makeRequest GET obj ref queryParams w with
  | ((_, some err), w1) => ((res, some err), w1)
  | ((resp, none), w1) =>
    -- to check empty underlying value of interface
    match Unmarshal decodeAny resp JVal.null with
    | (_, some err) => ((res, some err), w1)
    | (result, none) =>
      match (if resp.isNone ∨ result.isEmptyArray then
          c.makeRequest GET obj ref { queryParams with forceProxy := true } w1
        else ((resp, none), w1)) with
      | ((_, some err), w2) => ((res, some err), w2)
      | ((resp2, none), w2) =>
        if resp2.len = 0 then ((res, none), w2)
        else (Unmarshal dec resp2 res, w2)

/-- DeleteObject makes a WAPI request to delete the specified object. -/
def Connector.DeleteObject {σ Req : Type} (c : Connector σ Req) (ref : Str)
    (w : World σ Req) : (Str × Option Error) × World σ Req :=
  let refRes : Str := []
  let queryParams : QueryParams := { forceProxy := false }
  match c.makeRequest DELETE none ref queryParams w with
  | ((_, some err), w1) => ((refRes, some err), w1)
  | ((resp, none), w1) => (Unmarshal decodeString resp refRes, w1)

/-- UpdateObject makes a WAPI request to update the specified object. -/
def Connector.UpdateObject {σ Req : Type} (c : Connector σ Req) (obj : Option IBObject)
    (ref : Str) (w : World σ Req) : (Str × Option Error) × World σ Req :=
  let queryParams : QueryParams := { forceProxy := false }
  let refRes : Str := []
  match c.makeRequest UPDATE obj ref queryParams w with
  | ((_, some err), w1) => ((refRes, some err), w1)
  | ((resp, none), w1) => (Unmarshal decodeString resp refRes, w1)

/-- Logout sends a request to invalidate the ibapauth cookie. -/
def Connector.Logout {σ Req : Type} (c : Connector σ Req) (w : World σ Req) :
    Option Error × World σ Req :=
  let queryParams : QueryParams := { forceProxy := false }
  ((c.makeRequest CREATE none "logout".toList queryParams w).1.2,
    (c.makeRequest CREATE none "logout".toList queryParams w).2)

/-! ## Test doubles and sample data -/

/-- The builder double of the tests: it hands out one fixed request, whatever is asked. -/
def FakeRequestBuilder {σ Req : Type} (req : Req) : HTTPRequestBuilder σ Req :=
  { Init := fun _ s => s
    BuildRequest := fun _ _ _ _ s => (Except.ok req, s) }

/-- The sender double of the tests: it answers every request with one fixed body. -/
def FakeHTTPRequestor {σ Req : Type} (res : Bytes) : HTTPRequestor σ Req :=
  { Init := fun _ s => s
    SendRequest := fun _ s => ((res, none), s) }

/-- A sender double that plays a script: each send consumes the next scripted result, and
fails once the script is used up. -/
def ScriptedRequestor {Req : Type} : HTTPRequestor (List (Bytes × Option Error)) Req :=
  { Init := fun _ s => s
    SendRequest := fun _ s =>
      match s with
      | [] => ((none, some (Error.other "script exhausted".toList)), [])
      | r :: rest => (r, rest) }

/-- A network that answers every request in the same way. -/
def fixedNetwork (r : Except Error Response) : Network Unit :=
  { Do := fun _ _ n => (r, n) }

/-- Sample host configuration, as in the tests. -/
def sampleHostConfig : HostConfig :=
  { Host := "172.22.18.66".toList
    Version := "2.2".toList
    Port := "443".toList
    Username := "myname".toList
    Password := "mysecrete!".toList }

/-- Sample transport configuration. -/
def sampleTransportConfig : TransportConfig :=
  { SslVerify := false, certPool := none, HTTPRequestTimeout := 120, HTTPPoolConnections := 100 }

/-- Sample sender. -/
def sampleRequestor : WapiHTTPRequestor :=
  WapiHTTPRequestor.Init { client := ⟨false, none, 0, 0⟩ } sampleTransportConfig

/-- A connector over a fixed-request builder and the scripted sender; requests are names. -/
def scriptedConnector : Connector (List (Bytes × Option Error)) Str :=
  { HostConfig := sampleHostConfig
    TransportConfig := sampleTransportConfig
    RequestBuilder := FakeRequestBuilder "req".toList
    Requestor := ScriptedRequestor }

/-- A world in which the scripted sender will play the given script. -/
def scriptedWorld (script : List (Bytes × Option Error)) :
    World (List (Bytes × Option Error)) Str :=
  { state := script, trace := [] }

/-- A sample GET request. -/
def sampleGetRequest : Request :=
  { Method := "GET".toList
    URL := "https://172.22.18.66:443/wapi/v2.2/network".toList
    Header := []
    Body := [] }

/-- A response with status 200 whose body breaks off with a read error. -/
def brokenBodyResponse : Response :=
  { StatusCode := 200
    Status := "200 OK".toList
    Body := { data := "[\x7b".toList, readErr := some (Error.other "unexpected EOF".toList) } }

/-- A response with status 200 and a body that reads in full. -/
def okResponse : Response :=
  { StatusCode := 200
    Status := "200 OK".toList
    Body := { data := "[]".toList, readErr := none } }

/-! ## Notions used in the statements -/

/-- The status test of `SendRequest`: 200, or 201 for the method of a create. -/
def statusAccepted (resp : Response) (req : Request) : Prop :=
  resp.StatusCode = 200 ∨ (resp.StatusCode = 201 ∧ req.Method = "POST".toList)

/-- A sender double that fails every send with the same error. -/
def FailingRequestor {σ Req : Type} (err : Error) : HTTPRequestor σ Req :=
  { Init := fun _ s => s
    SendRequest := fun _ s => ((none, some err), s) }

/-- A connector over a fixed-request builder and the always failing sender. -/
def failingConnector : Connector Unit Str :=
  { HostConfig := sampleHostConfig
    TransportConfig := sampleTransportConfig
    RequestBuilder := FakeRequestBuilder "req".toList
    Requestor := FailingRequestor (Error.other "connection refused".toList) }

/-- The trace `tr` extends `tr0` by exactly one round in which both sends failed: a build
with forceProxy=false, a failed send, a build with forceProxy=true, a failed send; and `err`
is the error of the second send. -/
def failedTwice {Req : Type} (tr0 tr : List (Event Req)) (t : RequestType)
    (obj : Option IBObject) (ref : Str) (err : Option Error) : Prop :=
  ∃ (req1 req2 : Req) (res1 res2 : Bytes) (e1 e2 : Error),
    tr = tr0 ++
      [Event.build t obj ref { forceProxy := false } (Except.ok req1),
        Event.send req1 (res1, some e1),
        Event.build t obj ref { forceProxy := true } (Except.ok req2),
        Event.send req2 (res2, some e2)] ∧
    err = some e2

/-- A script for the scripted sender: the first send fails, the second (forced-proxy) send
succeeds with an empty array, the third succeeds with the given body. -/
def failEmptyThen (third : Str) : List (Bytes × Option Error) :=
  [(none, some (Error.other "connection refused".toList)), (some "[]".toList, none),
    (some third, none)]

/-! ## A model of `encoding/json` encoding of strings -/

/-- A lower-case hexadecimal digit. -/
def lowerHexDigit (n : Nat) : Char :=
  if n < 10 then Char.ofNat (48 + n) else Char.ofNat (87 + n)

/-- Go `htmlSafeSet`: the ASCII characters that `json.Marshal` writes as they are. -/
def htmlSafe (c : Char) : Bool :=
  decide (0x20 ≤ c.toNat) && decide (c.toNat < 0x80) && c != '"' && c != '&' && c != '<' &&
    c != '>' && c != '\\'

/-- What `json.Marshal` writes for one character of a string. -/
def encodeChar (c : Char) : Str :=
  if c.toNat < 0x80 then
    if htmlSafe c then [c]
    else if c == '\\' || c == '"' then ['\\', c]
    else if c == '\n' then ['\\', 'n']
    else if c == '\r' then ['\\', 'r']
    else if c == '\t' then ['\\', 't']
    else ['\\', 'u', '0', '0', lowerHexDigit (c.toNat / 16), lowerHexDigit (c.toNat % 16)]
  else if c.toNat = 0x2028 ∨ c.toNat = 0x2029 then
    ['\\', 'u', '2', '0', '2', lowerHexDigit (c.toNat % 16)]
  else [c]

/-- Go `json.Marshal` of a string: the JSON string encoding. -/
def encodeString (s : Str) : Str :=
  '"' :: (s.flatMap encodeChar ++ ['"'])

/-- The URL the builder makes for an operation other than GET: the URL without a query. -/
def WapiRequestBuilder.urlWithoutQuery (wrb : WapiRequestBuilder) (objType ref : Str) : Str :=
  wrb.BuildURL CREATE objType ref [] { forceProxy := false }

/-- The `_return_fields` parameter as it stands in a query string. -/
def returnFieldsParam (returnFields : List Str) : Str :=
  "_return_fields=".toList ++ QueryEscape (Join returnFields [','])

/-- A character that neither delimits a part of a URL (`#`, `?`) nor is a control
character. -/
def isPlainURLChar (c : Char) : Bool :=
  c != '#' && c != '?' && !isCTL c

/-- The resource type name the builder takes from the object; empty without object. -/
def objTypeOf : Option IBObject → Str
  | some o => o.ObjectType
  | none => []

/-- The return fields the builder takes from the object; none without object. -/
def returnFieldsOf : Option IBObject → List Str
  | some o => o.ReturnFields
  | none => []

/-- The WAPI builder as the connector's builder: the state holds the builder, `Init` replaces
its configuration, `BuildRequest` leaves the state alone. -/
def wapiBuilder {τ : Type} (lib : NetURL) :
    HTTPRequestBuilder (WapiRequestBuilder × τ) Request :=
  { Init := fun cfg s => (s.1.Init cfg, s.2)
    BuildRequest := fun t obj ref queryParams s =>
      (s.1.BuildRequest lib t obj ref queryParams, s) }

/-- The scripted sender next to a WAPI builder. -/
def scriptedRequestorBeside {β Req : Type} :
    HTTPRequestor (β × List (Bytes × Option Error)) Req :=
  { Init := fun _ s => s
    SendRequest := fun req s =>
      ((ScriptedRequestor.SendRequest req s.2).1,
        (s.1, (ScriptedRequestor.SendRequest req s.2).2)) }

/-- A `net/url` that accepts every scheme, authority, path and fragment. -/
def lenientNetURL : NetURL :=
  { hierError := fun _ => none, fragmentError := fun _ => none }

/-- A connector over the WAPI builder and the scripted sender. -/
def wapiScriptedConnector :
    Connector (WapiRequestBuilder × List (Bytes × Option Error)) Request :=
  { HostConfig := sampleHostConfig
    TransportConfig := sampleTransportConfig
    RequestBuilder := wapiBuilder lenientNetURL
    Requestor := scriptedRequestorBeside }

/-- A sample object: a network with three return fields and no search filter. -/
def sampleNetwork : IBObject :=
  { ObjectType := "network".toList
    ReturnFields := ["extattrs".toList, "network".toList, "network_view".toList]
    EaSearch := { len := 0, MarshalJSON := Except.ok "\x7b\x7d".toList }
    MarshalJSON := Except.ok "\x7b\"network_view\":\"private-view\"\x7d".toList }

/-- A world for the connector over the WAPI builder and the scripted sender. -/
def wapiScriptedWorld (script : List (Bytes × Option Error)) :
    World (WapiRequestBuilder × List (Bytes × Option Error)) Request :=
  { state := ({ HostConfig := sampleHostConfig }, script), trace := [] }

/-- A script of one failed send followed by one successful send of the given body. -/
def failThen (body : Str) : List (Bytes × Option Error) :=
  [(none, some (Error.other "connection refused".toList)), (some body, none)]

/-- A sample search: a network with two fields and a search filter of one entry. -/
def sampleNetworkSearch : IBObject :=
  { ObjectType := "network".toList
    ReturnFields := ["extattrs".toList, "network".toList, "network_view".toList]
    EaSearch := { len := 1, MarshalJSON := Except.ok "\x7b\"*k\":\"x\"\x7d".toList }
    MarshalJSON := Except.ok "\x7b\"network_view\":\"v\",\"network\":\"c\"\x7d".toList }

/-- A sample search by filter alone: an object none of whose fields is set, so that its JSON
is the empty object, with a search filter of one entry. -/
def sampleFilterOnlySearch : IBObject :=
  { ObjectType := "network".toList
    ReturnFields := ["extattrs".toList, "network".toList, "network_view".toList]
    EaSearch := { len := 1, MarshalJSON := Except.ok "\x7b\"*k\":\"x\"\x7d".toList }
    MarshalJSON := Except.ok "\x7b\x7d".toList }

/-- A sample object that cannot be serialized. -/
def sampleUnserializable : IBObject :=
  { ObjectType := "network".toList
    ReturnFields := []
    EaSearch := { len := 0, MarshalJSON := Except.ok "\x7b\x7d".toList }
    MarshalJSON := Except.error (Error.other "json: unsupported value".toList) }

/-- A character that needs no URL escaping in the given part of a URL: an ASCII character
that `shouldEscape` lets pass. -/
def needsNoEscape (mode : Encoding) (c : Char) : Bool :=
  decide (c.toNat < 0x80) && !shouldEscape c mode

/-- The query string of a Get as the specification has it: `_proxy_search=GM` when forceProxy
is set, then the `_return_fields` parameter when there are return fields, joined by `&`. -/
def getQuery (forceProxy : Bool) (returnFields : List Str) : Str :=
  Join ((if forceProxy then ["_proxy_search=GM".toList] else []) ++
    (if returnFields.length > 0 then [returnFieldsParam returnFields] else [])) ['&']

/-- The part of a URL after its first question mark. -/
def queryOf (url : Str) : Str :=
  (cutAt '?' url).2

/-- The body the builder gives a request: what BuildBody makes of the object, nil without
object. -/
def WapiRequestBuilder.bodyOf (wrb : WapiRequestBuilder) (t : RequestType) :
    Option IBObject → Bytes
  | some o => wrb.BuildBody t o
  | none => none

/-- The headers of a built request: the content type and the basic-auth credentials of the
host configuration in the form `Request.SetBasicAuth` gives them. -/
def WapiRequestBuilder.headers (wrb : WapiRequestBuilder) : Header :=
  [("Content-Type".toList, ["application/json".toList]),
    ("Authorization".toList,
      ["Basic ".toList ++
        base64 ((wrb.HostConfig.Username ++ [':'] ++ wrb.HostConfig.Password).flatMap
          utf8Bytes)])]

/-- A response with a status that is not accepted, and a body that says why. -/
def unauthorizedResponse : Response :=
  { StatusCode := 401
    Status := "401 Authorization Required".toList
    Body := { data := "\x7b\"Error\":\"AdmConProtoError: bad credentials\"\x7d".toList
              readErr := none } }

/-! ## The transport configuration -/

/-- Go `unicode.ToLower`, as far as a comparison with a word of ASCII letters can tell: the
capital ASCII letters go to their small letters, the dotted capital I (U+0130) goes to `i`
and the Kelvin sign (U+212A) to `k`. Every other character outside ASCII goes to a character
outside ASCII and is left as it is here. -/
def toLowerRune (c : Char) : Char :=
  if 'A' ≤ c ∧ c ≤ 'Z' then Char.ofNat (c.toNat + 32)
  else if c = Char.ofNat 0x130 then 'i'
  else if c = Char.ofNat 0x212A then 'k'
  else c

/-- Go `strings.ToLower`. -/
def ToLower (s : Str) : Str :=
  s.map toLowerRune

/-- The surroundings of `NewTransportConfig`: what `ioutil.ReadFile` yields for a file name,
and the certificates that `x509` finds in PEM data. -/
structure CertEnv where
  ReadFile : Str → Except Error Str
  certsFromPEM : Str → List Str

/-- Go `CertPool.AppendCertsFromPEM`: the pool with the certificates found, and whether any
was found. -/
def AppendCertsFromPEM (env : CertEnv) (pool : List Str) (pemCerts : Str) : List Str × Bool :=
  (pool ++ env.certsFromPEM pemCerts, !(env.certsFromPEM pemCerts).isEmpty)

/-- NewTransportConfig a newly created TransportConfig. -/
def NewTransportConfig (env : CertEnv) (sslVerify : Str)
    (httpRequestTimeout httpPoolConnections : Int) : TransportConfig :=
  let cfg : TransportConfig :=
    { SslVerify := false, certPool := none, HTTPRequestTimeout := 0, HTTPPoolConnections := 0 }
  let finish (cfg : TransportConfig) : TransportConfig :=
    { cfg with
      HTTPPoolConnections := httpPoolConnections
      HTTPRequestTimeout := httpRequestTimeout }
  if "false".toList = ToLower sslVerify then finish { cfg with SslVerify := false }
  else if "true".toList = ToLower sslVerify then finish { cfg with SslVerify := true }
  else
    let caPool : List Str := []
    match env.ReadFile sslVerify with
    | Except.error _ =>
      -- Cannot load certificate file
      cfg
    | Except.ok cert =>
      match AppendCertsFromPEM env caPool cert with
      | (_, false) => cfg
      | (caPool, true) => finish { cfg with certPool := some caPool, SslVerify := true }

/-- Whether the named CA file can be read and holds at least one PEM certificate. -/
def bundleLoads (env : CertEnv) (sslVerify : Str) : Bool :=
  match env.ReadFile sslVerify with
  | Except.error _ => false
  | Except.ok cert => !(env.certsFromPEM cert).isEmpty

/-- Sample surroundings: one CA file that holds one certificate, one file without any, and no
other file. -/
def sampleCertEnv : CertEnv :=
  { ReadFile := fun name =>
      if name = "/etc/ssl/ca.pem".toList then Except.ok "PEM(ca)".toList
      else if name = "/etc/ssl/empty.pem".toList then Except.ok []
      else Except.error (Error.other ("open ".toList ++ name ++
        ": no such file or directory".toList))
    certsFromPEM := fun data => if data = "PEM(ca)".toList then ["ca".toList] else [] }

/-! ## Construction of the connector -/

/-- The check run by `ValidateConnector` unless it is replaced: a GET UserProfile request is
used to validate the connector's basic auth and reachability. The object that
`NewUserProfile` makes and the decoding of a `[]UserProfile` belong to the object catalog and
are parameters. -/
def validateConnector {σ Req ρ : Type} (userprofile : IBObject) (dec : Decoder ρ)
    (response : ρ) (c : Connector σ Req) (w : World σ Req) : Option Error × World σ Req :=
  ((c.GetObject (some userprofile) [] dec response w).1.2,
    (c.GetObject (some userprofile) [] dec response w).2)

/-- NewConnector instantiates a new Connector; `ValidateConnector` is the package variable
that holds the check. -/
def NewConnector {σ Req : Type}
    (ValidateConnector : Connector σ Req → World σ Req → Option Error × World σ Req)
    (hostConfig : HostConfig) (transportConfig : TransportConfig)
    (requestBuilder : HTTPRequestBuilder σ Req) (requestor : HTTPRequestor σ Req)
    (w : World σ Req) : (Option (Connector σ Req) × Option Error) × World σ Req :=
  let connector : Connector σ Req :=
    { HostConfig := hostConfig
      TransportConfig := transportConfig
      RequestBuilder := requestBuilder
      Requestor := requestor }
  let w1 : World σ Req :=
    { w with state := connector.RequestBuilder.Init connector.HostConfig w.state }
  let w2 : World σ Req :=
    { w1 with state := connector.Requestor.Init connector.TransportConfig w1.state }
  let res := some connector
  ((res, (ValidateConnector connector w2).1), (ValidateConnector connector w2).2)

/-- The WAPI sender as the connector's sender: the state holds the sender and the state of the
network, `Init` replaces the sender's client. -/
def wapiRequestor {β ν : Type} (net : Network ν) :
    HTTPRequestor (β × WapiHTTPRequestor × ν) Request :=
  { Init := fun cfg s => (s.1, s.2.1.Init cfg, s.2.2)
    SendRequest := fun req s =>
      ((s.2.1.SendRequest net req s.2.2).1, (s.1, s.2.1, (s.2.1.SendRequest net req s.2.2).2)) }

/-- A sample user-profile object. -/
def sampleUserProfile : IBObject :=
  { ObjectType := "userprofile".toList
    ReturnFields := ["name".toList]
    EaSearch := { len := 0, MarshalJSON := Except.ok "\x7b\x7d".toList }
    MarshalJSON := Except.ok "\x7b\x7d".toList }

/-- A script for the scripted sender: two failed sends, then one successful send of the given
body. -/
def failTwiceThen (body : Str) : List (Bytes × Option Error) :=
  [(none, some (Error.other "connection refused".toList)),
    (none, some (Error.other "connection refused".toList)), (some body, none)]

/-! ## The sends of a call -/

/-- The sends of a record in order, each with the forceProxy of the build that precedes it
(the build of the request sent) and with its result; `fp` stands for the build before the
record. -/
def sendsWithProxy {Req : Type} : Bool → List (Event Req) → List (Bool × (Bytes × Option Error))
  | _, [] => []
  | _, Event.build _ _ _ queryParams _ :: es => sendsWithProxy queryParams.forceProxy es
  | fp, Event.send _ result :: es => (fp, result) :: sendsWithProxy fp es

/-- A send that failed. -/
def sendFailed (r : Bytes × Option Error) : Bool :=
  r.2.isSome

/-- A body that is an empty JSON array. -/
def emptyArrayBody (b : Bytes) : Bool :=
  match parseJSON b.toStr with
  | some j => j.isEmptyArray
  | none => false

/-- A send that failed or returned an empty JSON array. -/
def sendFailedOrEmpty (r : Bytes × Option Error) : Bool :=
  r.2.isSome || emptyArrayBody r.1

/-- Whether every send with forceProxy=true in a list of sends comes after a send that
`trigger` holds of; `seen` says whether such a send came before the list. -/
def forcedJustified (trigger : Bytes × Option Error → Bool) :
    Bool → List (Bool × (Bytes × Option Error)) → Bool
  | _, [] => true
  | seen, (fp, r) :: rest =>
    (!fp || seen) && forcedJustified trigger (seen || trigger r) rest

/-! ## The object manager

The domain objects and the `EA` type belong to the object catalog; they are given here with
the fields that the code of the object manager reads and writes. -/

/-- Modelled from the spec: the values of extensible attributes, custom metadata attached to
resources. Their Go type is `interface{}`; the values met are the `Bool` of the package,
strings and integers. -/
inductive EAValue where
  | flag (b : Bool)
  | str (s : Str)
  | int (n : Int)
  deriving DecidableEq

/-- Modelled from the spec: the `EA` type of the object catalog, extensible attributes as a
key/value mapping. It is a Go map from strings to values, so a finite map with one entry per
key; a nil map is the empty map, and the order of the entries carries no meaning. -/
abbrev EA := AList (fun _ : Str => EAValue)

/-- Modelled from the spec: the `IBBase` embedded in every domain object of the catalog, which
holds what the object declares: its wire resource-type name, the fields returned by default
and its search filter. -/
structure IBBase where
  objectType : Str := []
  returnFields : List Str := []
  eaSearch : EA := ∅
  deriving DecidableEq

/-- Modelled from the spec: the `FixedAddress` struct of the object catalog, with the fields that
the object manager reads and writes. A field that is not given is zero, as in a Go composite
literal. -/
structure FixedAddress where
  base : IBBase := {}
  Ref : Str := []
  NetviewName : Str := []
  Cidr : Str := []
  IPAddress : Str := []
  Mac : Str := []
  Name : Str := []
  MatchClient : Str := []
  Ea : EA := ∅
  deriving DecidableEq

/-- Modelled from the spec: the `Network` struct of the object catalog, with the fields that
the object manager reads and writes (`Network` alone names the transport in this
development). -/
structure NetworkObject where
  base : IBBase := {}
  Ref : Str := []
  NetviewName : Str := []
  Cidr : Str := []
  Ea : EA := ∅
  deriving DecidableEq

/-- The domain objects that the calls modelled here hand to the connector as `IBObject`. -/
inductive Object where
  | fixedAddress (o : FixedAddress)
  | network (o : NetworkObject)
  deriving DecidableEq

/-- The `IBConnector` interface. As with `Connector.GetObject`, the `res` of a get is a value
of some type together with the way `json.Unmarshal` decodes into it. -/
structure IBConnector (τ : Type) where
  CreateObject : Object → τ → (Str × Option Error) × τ
  GetObject : {ρ : Type} → Object → Str → Decoder ρ → ρ → τ → (ρ × Option Error) × τ
  DeleteObject : Str → τ → (Str × Option Error) × τ
  UpdateObject : Object → Str → τ → (Str × Option Error) × τ

/-- A call of the connector by the object manager. -/
inductive Call where
  | create (obj : Object)
  | get (obj : Object) (ref : Str)
  | delete (ref : Str)
  | update (obj : Object) (ref : Str)
  deriving DecidableEq

/-- The state behind the connector, with the record of the calls that the object manager made
so far. -/
structure Calls (τ : Type) where
  state : τ
  calls : List Call

/-- The object manager. -/
structure ObjectManager (τ : Type) where
  connector : IBConnector τ
  cmpType : Str
  tenantID : Str
  /-- If OmitCloudAttrs is true no extra attributes for cloud are set. -/
  OmitCloudAttrs : Bool

/-- NewObjectManager returns an ObjectManager configured with the connector, the CMP type and
the tenant. -/
def NewObjectManager {τ : Type} (connector : IBConnector τ) (cmpType tenantID : Str) :
    ObjectManager τ :=
  { connector := connector, cmpType := cmpType, tenantID := tenantID, OmitCloudAttrs := false }

/-- A call of `objMgr.connector.GetObject`, recorded. -/
def ObjectManager.callGet {τ ρ : Type} (objMgr : ObjectManager τ) (obj : Object) (ref : Str)
    (dec : Decoder ρ) (res : ρ) (w : Calls τ) : (ρ × Option Error) × Calls τ :=
  ((objMgr.connector.GetObject obj ref dec res w.state).1,
    { state := (objMgr.connector.GetObject obj ref dec res w.state).2
      calls := w.calls ++ [Call.get obj ref] })

/-- A call of `objMgr.connector.DeleteObject`, recorded. -/
def ObjectManager.callDelete {τ : Type} (objMgr : ObjectManager τ) (ref : Str) (w : Calls τ) :
    (Str × Option Error) × Calls τ :=
  ((objMgr.connector.DeleteObject ref w.state).1,
    { state := (objMgr.connector.DeleteObject ref w.state).2
      calls := w.calls ++ [Call.delete ref] })

/-- A call of `objMgr.connector.UpdateObject`, recorded. -/
def ObjectManager.callUpdate {τ : Type} (objMgr : ObjectManager τ) (obj : Object) (ref : Str)
    (w : Calls τ) : (Str × Option Error) × Calls τ :=
  ((objMgr.connector.UpdateObject obj ref w.state).1,
    { state := (objMgr.connector.UpdateObject obj ref w.state).2
      calls := w.calls ++ [Call.update obj ref] })

/-- The attributes that mark an object as made for a cloud platform. -/
def ObjectManager.getBasicEA {τ : Type} (objMgr : ObjectManager τ) (cloudAPIOwned : Bool) :
    EA :=
  let ea : EA := ∅
  if !objMgr.OmitCloudAttrs then
    let ea := ea.insert "Cloud API Owned".toList (EAValue.flag cloudAPIOwned)
    let ea := ea.insert "CMP Type".toList (EAValue.str objMgr.cmpType)
    let ea := ea.insert "Tenant ID".toList (EAValue.str objMgr.tenantID)
    ea
  else ea

/-- The basic attributes with every entry of `ea` written over them. -/
def ObjectManager.extendEA {τ : Type} (objMgr : ObjectManager τ) (ea : EA) : EA :=
  let eas := objMgr.getBasicEA true
  ea.foldl (fun eas k v => eas.insert k v) eas

/-- A connector double for the object manager: it answers every get with the next body of its
script, decoded into the result, and every create, update and delete with the ref. -/
def scriptedIBConnector : IBConnector (List Str) :=
  { CreateObject := fun _ s => (("created".toList, none), s)
    GetObject := fun _ _ dec res s =>
      match s with
      | [] => ((res, some (Error.other "script exhausted".toList)), [])
      | body :: rest => (Unmarshal dec (some body) res, rest)
    DeleteObject := fun ref s => ((ref, none), s)
    UpdateObject := fun _ ref s => ((ref, none), s) }

/-- A sample object manager over the connector double. -/
def sampleObjectManager : ObjectManager (List Str) :=
  NewObjectManager scriptedIBConnector "Docker".toList "tenant-1".toList

/-! ## The object manager: fixed addresses -/

/-- The values that `match_client` may take. -/
def matchClientValues : List Str :=
  ["MAC_ADDRESS".toList, "CLIENT_ID".toList, "RESERVED".toList, "CIRCUIT_ID".toList,
    "REMOTE_ID".toList]

/-- Validation for match_client. -/
def validateMatchClient (value : Str) : Bool :=
  matchClientValues.any (fun val => decide (val = value))

/-- UpdateFixedAddress updates mac, VM attributes and match_client of a fixed address.
`NewFixedAddress` is the constructor of the object catalog. -/
def ObjectManager.UpdateFixedAddress {τ : Type} (NewFixedAddress : FixedAddress → FixedAddress)
    (objMgr : ObjectManager τ) (fixedAddrRef matchClient macAddress vmID vmName : Str)
    (w : Calls τ) : (Option FixedAddress × Option Error) × Calls τ :=
  let updateFixedAddr := NewFixedAddress { Ref := fixedAddrRef }
  let updateFixedAddr :=
    if macAddress.length ≠ 0 then { updateFixedAddr with Mac := macAddress }
    else updateFixedAddr
  let ea := objMgr.getBasicEA true
  let ea := if vmID ≠ [] then ea.insert "VM ID".toList (EAValue.str vmID) else ea
  let updateFixedAddr :=
    if vmID ≠ [] then { updateFixedAddr with Ea := ea } else updateFixedAddr
  let ea := if vmName ≠ [] then ea.insert "VM Name".toList (EAValue.str vmName) else ea
  let updateFixedAddr :=
    if vmName ≠ [] then { updateFixedAddr with Ea := ea } else updateFixedAddr
  let update (updateFixedAddr : FixedAddress) :
      (Option FixedAddress × Option Error) × Calls τ :=
    ((some { updateFixedAddr with
        Ref := (objMgr.callUpdate (Object.fixedAddress updateFixedAddr) fixedAddrRef w).1.1 },
      (objMgr.callUpdate (Object.fixedAddress updateFixedAddr) fixedAddrRef w).1.2),
      (objMgr.callUpdate (Object.fixedAddress updateFixedAddr) fixedAddrRef w).2)
  if matchClient ≠ [] then
    if validateMatchClient matchClient then
      update { updateFixedAddr with MatchClient := matchClient }
    else
      ((none, some (Error.other ("wrong value for match_client passed ".toList ++
        matchClient ++ " \n ".toList))), w)
  else update updateFixedAddr

/-- GetFixedAddress looks a fixed address up by view, network, address and, if given, mac.
`decFixedAddress` is the JSON decoding of one `FixedAddress`, which its declaration fixes. -/
def ObjectManager.GetFixedAddress {τ : Type} (NewFixedAddress : FixedAddress → FixedAddress)
    (decFixedAddress : Decoder FixedAddress) (objMgr : ObjectManager τ)
    (netview cidr ipAddr macAddr : Str) (w : Calls τ) :
    (Option FixedAddress × Option Error) × Calls τ :=
  let res : List FixedAddress := []
  let fixedAddr := NewFixedAddress { NetviewName := netview, Cidr := cidr, IPAddress := ipAddr }
  let fixedAddr := if macAddr ≠ [] then { fixedAddr with Mac := macAddr } else fixedAddr
  match objMgr.callGet (Object.fixedAddress fixedAddr) [] (decodeSlice {} decFixedAddress) res w
    with
  | ((res, err), w1) =>
    if err ≠ none ∨ res.length = 0 then ((none, err), w1)
    else ((res.head?, none), w1)

/-- ReleaseIP deletes the fixed address found for view, network, address and mac. -/
def ObjectManager.ReleaseIP {τ : Type} (NewFixedAddress : FixedAddress → FixedAddress)
    (decFixedAddress : Decoder FixedAddress) (objMgr : ObjectManager τ)
    (netview cidr ipAddr macAddr : Str) (w : Calls τ) : (Str × Option Error) × Calls τ :=
  match objMgr.GetFixedAddress NewFixedAddress decFixedAddress netview cidr ipAddr macAddr w
    with
  | ((none, _), w1) => (([], none), w1)
  | ((some fixAddress, _), w1) => objMgr.callDelete fixAddress.Ref w1

/-- A sample of the constructor of fixed addresses: it sets the resource type and the fields
to return. -/
def sampleNewFixedAddress (fixedAddr : FixedAddress) : FixedAddress :=
  { fixedAddr with
    base :=
      { fixedAddr.base with
        objectType := "fixedaddress".toList
        returnFields := ["extattrs".toList, "ipv4addr".toList, "mac".toList, "name".toList,
          "network".toList, "network_view".toList] } }

/-- A sample decoding of a fixed address: the `_ref` member of a JSON object. -/
def sampleDecodeFixedAddress : Decoder FixedAddress
  | JVal.obj members, v =>
    match members.lookup "_ref".toList with
    | some (JVal.str s) => ({ v with Ref := s }, none)
    | some _ => (v, some Error.jsonUnmarshalType)
    | none => (v, none)
  | JVal.null, v => (v, none)
  | _, v => (v, some Error.jsonUnmarshalType)

/-! ## A model of `regexp`

Go's `regexp` finds the leftmost match and, among the matches that start there, the one
that a backtracking search finds first; the search below is that backtracking search. -/

/-- Regular expressions, as far as the patterns of the object manager need them: the empty
expression, one character, a class of characters, concatenation, one or more repetitions
(greedy) and a numbered capturing group. -/
inductive Regexp where
  | empty
  | char (c : Char)
  | cls (p : Char → Bool)
  | cat (a b : Regexp)
  | plus (a : Regexp)
  | capture (i : Nat) (a : Regexp)

/-- The text captured so far, by group number. -/
abbrev Captures := List (Nat × Str)

/-- One or more repetitions of a step: after each repetition that consumed input, more
repetitions are tried first, then the rest of the expression. -/
def plusLoop {R : Type} (step : Str → Captures → (Str → Captures → Option R) → Option R) :
    Nat → Str → Captures → (Str → Captures → Option R) → Option R
  | 0, _, _, _ => none
  | n + 1, s, caps, k =>
    step s caps (fun s1 caps1 =>
      match (if s1.length < s.length then plusLoop step n s1 caps1 k else none) with
      | some r => some r
      | none => k s1 caps1)

/-- The backtracking search: match the expression at the start of the input and hand the rest
of the input and the captures to the continuation; `none` when every way fails. -/
def Regexp.run {R : Type} :
    Regexp → Str → Captures → (Str → Captures → Option R) → Option R
  | Regexp.empty, s, caps, k => k s caps
  | Regexp.char c, s, caps, k =>
    match s with
    | x :: xs => if x = c then k xs caps else none
    | [] => none
  | Regexp.cls p, s, caps, k =>
    match s with
    | x :: xs => if p x then k xs caps else none
    | [] => none
  | Regexp.cat a b, s, caps, k => a.run s caps (fun s1 caps1 => b.run s1 caps1 k)
  | Regexp.plus a, s, caps, k => plusLoop a.run (s.length + 1) s caps k
  | Regexp.capture i a, s, caps, k =>
    a.run s caps (fun s1 caps1 => k s1 ((i, s.take (s.length - s1.length)) :: caps1))

/-- The leftmost match: the text matched and the captures. -/
def Regexp.find (re : Regexp) : Str → Option (Str × Captures)
  | [] => re.run [] [] (fun _ caps => some ([], caps))
  | x :: xs =>
    match re.run (x :: xs) []
        (fun rest caps => some ((x :: xs).take ((x :: xs).length - rest.length), caps)) with
    | some m => some m
    | none => Regexp.find re xs

/-- Go `Regexp.FindStringSubmatch` for an expression with `numSubexp` groups: the text of the
leftmost match followed by the text of each group (empty for a group that took no part), nil
without a match. -/
def Regexp.FindStringSubmatch (re : Regexp) (numSubexp : Nat) (s : Str) : Option (List Str) :=
  match re.find s with
  | none => none
  | some (m0, caps) =>
    some (m0 :: (List.range numSubexp).map (fun i => (caps.lookup (i + 1)).getD []))

/-- The expression of a word. -/
def Regexp.lits : Str → Regexp
  | [] => Regexp.empty
  | c :: cs => Regexp.cat (Regexp.char c) (Regexp.lits cs)

/-- The class `\w`. -/
def isWordChar (c : Char) : Bool :=
  ('0' ≤ c && c ≤ '9') || ('A' ≤ c && c ≤ 'Z') || ('a' ≤ c && c ≤ 'z') || c == '_'

/-- The class `\d`. -/
def isDigitChar (c : Char) : Bool :=
  '0' ≤ c && c ≤ '9'

/-- The class `.`: every character but the newline. -/
def isNotNewline (c : Char) : Bool :=
  c != '\n'

/-- The pattern `network/\w+:(\d+\.\d+\.\d+\.\d+/\d+)/(.+)` of BuildNetworkFromRef. -/
def networkRefPattern : Regexp :=
  let d := Regexp.plus (Regexp.cls isDigitChar)
  let dot := Regexp.char '.'
  Regexp.cat (Regexp.lits "network/".toList)
    (Regexp.cat (Regexp.plus (Regexp.cls isWordChar))
      (Regexp.cat (Regexp.char ':')
        (Regexp.cat
          (Regexp.capture 1
            (Regexp.cat d (Regexp.cat dot (Regexp.cat d (Regexp.cat dot
              (Regexp.cat d (Regexp.cat dot (Regexp.cat d
                (Regexp.cat (Regexp.char '/') d)))))))))
          (Regexp.cat (Regexp.char '/')
            (Regexp.capture 2 (Regexp.plus (Regexp.cls isNotNewline)))))))

/-- BuildNetworkFromRef makes a network from a ref like
`network/ZG5zLm5ldHdvcmskODkuMC4wLjAvMjQvMjU:89.0.0.0/24/global_view`. -/
def BuildNetworkFromRef (ref : Str) : Option NetworkObject :=
  let m := networkRefPattern.FindStringSubmatch 2 ref
  match m with
  | none => none
  | some m => some { Ref := ref, NetviewName := m.getD 2 [], Cidr := m.getD 1 [] }

/-- DeleteNetwork deletes the network of the ref if the ref names a network of the view. -/
def ObjectManager.DeleteNetwork {τ : Type} (objMgr : ObjectManager τ) (ref netview : Str)
    (w : Calls τ) : (Str × Option Error) × Calls τ :=
  match BuildNetworkFromRef ref with
  | some network =>
    if network.NetviewName = netview then objMgr.callDelete ref w else (([], none), w)
  | none => (([], none), w)

/-- A builder double that hands out one fixed request as long as forceProxy is not set, and
fails every build with forceProxy=true. -/
def ProxyRefusingBuilder {σ Req : Type} (req : Req) (err : Error) : HTTPRequestBuilder σ Req :=
  { Init := fun _ s => s
    BuildRequest := fun _ _ _ queryParams s =>
      if queryParams.forceProxy then (Except.error err, s) else (Except.ok req, s) }

/-- A connector over the builder that refuses the forced proxy and the always failing
sender. -/
def proxyRefusingConnector : Connector Unit Str :=
  { HostConfig := sampleHostConfig
    TransportConfig := sampleTransportConfig
    RequestBuilder :=
      ProxyRefusingBuilder "req".toList (Error.other "cannot build request".toList)
    Requestor := FailingRequestor (Error.other "connection refused".toList) }

/-! # Theorems -/

/-! ## The JSON parser: enough fuel -/


/-- Skipping whitespace does not lengthen the input. -/
theorem skipWS_length_le (s : Str) : (skipWS s).length ≤ s.length := by
  induction s with
  | nil => simp [skipWS]
  | cons c cs ih =>
    unfold skipWS
    split
    · exact Nat.le_succ_of_le ih
    · exact Nat.le_refl _

/-- What is left after skipping whitespace and one character is shorter than the input. -/
theorem skipWS_cons_length {s rest : Str} {c : Char} (h : skipWS s = c :: rest) :
    rest.length + 1 ≤ s.length := by
  have := skipWS_length_le s
  rw [h] at this
  simpa using this

/-- A successful scan with decoded characters put in front is a successful scan. -/
theorem prependDecoded_eq_some {pre x rest : Str} {r : Option (Str × Str)}
    (h : prependDecoded pre r = some (x, rest)) : ∃ y, r = some (y, rest) := by
  cases r with
  | none => simp [prependDecoded] at h
  | some p =>
    obtain ⟨y, z⟩ := p
    simp only [prependDecoded, Option.map_some', Option.some.injEq, Prod.mk.injEq] at h
    exact ⟨y, by rw [h.2]⟩

/-- The string scan leaves no more than it was given. -/
theorem parseStringBody_length : ∀ (n : Nat) (pend : Option Nat) (s x rest : Str),
    s.length ≤ n → parseStringBody pend s = some (x, rest) → rest.length ≤ s.length := by
  intro n
  induction n with
  | zero =>
    intro pend s x rest hn h
    have : s = [] := List.length_eq_zero.mp (Nat.le_zero.mp hn)
    subst this
    rw [parseStringBody.eq_def] at h
    simp at h
  | succ n ih =>
    intro pend s x rest hn h
    rw [parseStringBody.eq_def] at h
    cases s with
    | nil => simp at h
    | cons c cs =>
      simp only [List.length_cons] at hn ⊢
      simp only at h
      split at h
      · simp only [Option.some.injEq, Prod.mk.injEq] at h
        rw [← h.2]
        omega
      · split at h
        · cases cs with
          | nil => simp at h
          | cons e rest1 =>
            simp only [List.length_cons] at hn ⊢
            simp only at h
            split at h
            · split at h
              · rename_i h1 h2 h3 h4 rest2
                simp only [List.length_cons] at hn ⊢
                split at h
                · simp at h
                · split at h
                  · obtain ⟨y, hy⟩ := prependDecoded_eq_some h
                    have := ih _ _ _ _ (by omega) hy
                    omega
                  · split at h
                    · obtain ⟨y, hy⟩ := prependDecoded_eq_some h
                      have := ih _ _ _ _ (by omega) hy
                      omega
                    · obtain ⟨y, hy⟩ := prependDecoded_eq_some h
                      have := ih _ _ _ _ (by omega) hy
                      omega
              · simp at h
            · split at h
              · simp at h
              · obtain ⟨y, hy⟩ := prependDecoded_eq_some h
                have := ih _ _ _ _ (by omega) hy
                omega
        · split at h
          · simp at h
          · obtain ⟨y, hy⟩ := prependDecoded_eq_some h
            have := ih _ _ _ _ (by omega) hy
            omega

/-- The digit scan leaves no more than it was given. -/
theorem spanDigits_length (s : Str) : (spanDigits s).2.length ≤ s.length := by
  induction s with
  | nil => simp [spanDigits]
  | cons c cs ih =>
    unfold spanDigits
    split
    · exact Nat.le_succ_of_le ih
    · exact Nat.le_refl _

/-- The integer scan leaves no more than it was given. -/
theorem parseInt_length {s i r : Str} (h : parseInt s = some (i, r)) : r.length ≤ s.length := by
  unfold parseInt at h
  split at h
  · simp only [Option.some.injEq, Prod.mk.injEq] at h
    rw [← h.2]; simp
  · split at h
    · simp only [Option.some.injEq, Prod.mk.injEq] at h
      rw [← h.2]
      exact Nat.le_succ_of_le (spanDigits_length _)
    · simp at h
  · simp at h

/-- The fraction scan leaves no more than it was given. -/
theorem parseFrac_length {s i r : Str} (h : parseFrac s = some (i, r)) :
    r.length ≤ s.length := by
  unfold parseFrac at h
  split at h
  · rename_i rest
    split at h
    · simp at h
    · rename_i ds rest2 _ heq
      simp only [Option.some.injEq, Prod.mk.injEq] at h
      have := spanDigits_length rest
      rw [heq] at this
      rw [← h.2]
      exact Nat.le_succ_of_le this
  · simp only [Option.some.injEq, Prod.mk.injEq] at h
    rw [← h.2]

/-- The exponent digit scan leaves no more than it was given. -/
theorem parseExpDigits_length {pre s i r : Str} (h : parseExpDigits pre s = some (i, r)) :
    r.length ≤ s.length := by
  unfold parseExpDigits at h
  split at h
  · simp at h
  · rename_i ds rest _ heq
    simp only [Option.some.injEq, Prod.mk.injEq] at h
    have := spanDigits_length s
    rw [heq] at this
    rw [← h.2]
    exact this

/-- The exponent scan leaves no more than it was given. -/
theorem parseExp_length {s i r : Str} (h : parseExp s = some (i, r)) :
    r.length ≤ s.length := by
  unfold parseExp at h
  split at h
  all_goals first
    | exact Nat.le_trans (parseExpDigits_length h) (by simp only [List.length_cons]; omega)
    | (simp only [Option.some.injEq, Prod.mk.injEq] at h; rw [← h.2])

/-- The unsigned number scan leaves no more than it was given. -/
theorem parseUnsigned_length {s i r : Str} (h : parseUnsigned s = some (i, r)) :
    r.length ≤ s.length := by
  unfold parseUnsigned at h
  split at h
  · simp at h
  · rename_i i1 r1 h1
    split at h
    · simp at h
    · rename_i f r2 h2
      split at h
      · simp at h
      · rename_i e r3 h3
        simp only [Option.some.injEq, Prod.mk.injEq] at h
        have a1 := parseInt_length h1
        have a2 := parseFrac_length h2
        have a3 := parseExp_length h3
        rw [← h.2]
        omega

/-- The number scan leaves no more than it was given. -/
theorem parseNumber_length {s i r : Str} (h : parseNumber s = some (i, r)) :
    r.length ≤ s.length := by
  unfold parseNumber at h
  split at h
  · rename_i rest
    cases hu : parseUnsigned rest with
    | none => simp [hu] at h
    | some p =>
      obtain ⟨a, b⟩ := p
      simp only [hu, Option.map_some', Option.some.injEq, Prod.mk.injEq] at h
      have := parseUnsigned_length hu
      rw [← h.2]
      exact Nat.le_succ_of_le this
  · exact parseUnsigned_length h

/-- Dropping a literal leaves no more than it was given. -/
theorem dropPrefix_length : ∀ (p s r : Str), dropPrefix p s = some r → r.length ≤ s.length
  | [], s, r, h => by
    simp only [dropPrefix, Option.some.injEq] at h
    rw [h]
  | _ :: _, [], r, h => by simp [dropPrefix] at h
  | p :: ps, c :: cs, r, h => by
    unfold dropPrefix at h
    split at h
    · exact Nat.le_succ_of_le (dropPrefix_length ps cs r h)
    · simp at h

/-- A mapped scan result that keeps the rest comes from a scan result with that rest. -/
theorem map_snd_eq_some {α β γ : Type} {g : α → β} {o : Option (α × γ)} {v : β} {rest : γ}
    (h : o.map (fun p => (g p.1, p.2)) = some (v, rest)) : ∃ a, o = some (a, rest) := by
  cases o with
  | none => simp at h
  | some p =>
    obtain ⟨a, b⟩ := p
    simp only [Option.map_some', Option.some.injEq, Prod.mk.injEq] at h
    exact ⟨a, by rw [h.2]⟩

/-- A scan result paired with a constant comes from that scan result. -/
theorem map_const_eq_some {β γ : Type} {o : Option γ} {b v : β} {rest : γ}
    (h : o.map (fun r => (b, r)) = some (v, rest)) : o = some rest := by
  cases o with
  | none => simp at h
  | some p =>
    simp only [Option.map_some', Option.some.injEq, Prod.mk.injEq] at h
    rw [h.2]

/-- The value, element and member scans leave no more than they were given. -/
theorem parse_length : ∀ f : Nat,
    (∀ s v rest, parseValue f s = some (v, rest) → rest.length ≤ s.length) ∧
    (∀ s vs rest, parseElems f s = some (vs, rest) → rest.length ≤ s.length) ∧
    (∀ s ms rest, parseMembers f s = some (ms, rest) → rest.length ≤ s.length) := by
  intro f
  induction f with
  | zero =>
    refine ⟨?_, ?_, ?_⟩ <;> intro s v rest h
    · simp [parseValue] at h
    · simp [parseElems] at h
    · simp [parseMembers] at h
  | succ f ih =>
    obtain ⟨ihv, ihe, ihm⟩ := ih
    refine ⟨?_, ?_, ?_⟩
    · intro s v rest h
      rw [parseValue] at h
      split at h
      · simp at h
      · rename_i c r0 hws
        have hlen := skipWS_cons_length hws
        split at h
        · obtain ⟨a, ha⟩ := map_snd_eq_some h
          have := parseStringBody_length _ _ _ _ _ (Nat.le_refl _) ha
          omega
        · split at h
          · split at h
            · simp at h
            · rename_i d r2 hws2
              have hlen2 := skipWS_cons_length hws2
              split at h
              · simp only [Option.some.injEq, Prod.mk.injEq] at h
                rw [← h.2]; omega
              · obtain ⟨a, ha⟩ := map_snd_eq_some h
                have := ihe _ _ _ ha
                omega
          · split at h
            · split at h
              · simp at h
              · rename_i d r2 hws2
                have hlen2 := skipWS_cons_length hws2
                split at h
                · simp only [Option.some.injEq, Prod.mk.injEq] at h
                  rw [← h.2]; omega
                · obtain ⟨a, ha⟩ := map_snd_eq_some h
                  have := ihm _ _ _ ha
                  omega
            · split at h
              · have := dropPrefix_length _ _ _ (map_const_eq_some h)
                omega
              · split at h
                · have := dropPrefix_length _ _ _ (map_const_eq_some h)
                  omega
                · split at h
                  · have := dropPrefix_length _ _ _ (map_const_eq_some h)
                    omega
                  · obtain ⟨a, ha⟩ := map_snd_eq_some h
                    have := parseNumber_length ha
                    simp only [List.length_cons] at this
                    omega
    · intro s vs rest h
      rw [parseElems] at h
      split at h
      · simp at h
      · rename_i v r1 hv
        have h1 := ihv _ _ _ hv
        split at h
        · simp at h
        · rename_i d r2 hws
          have hlen := skipWS_cons_length hws
          split at h
          · obtain ⟨a, ha⟩ := map_snd_eq_some h
            have := ihe _ _ _ ha
            omega
          · split at h
            · simp only [Option.some.injEq, Prod.mk.injEq] at h
              rw [← h.2]; omega
            · simp at h
    · intro s ms rest h
      rw [parseMembers] at h
      split at h
      · simp at h
      · rename_i q r0 hws
        have hlen := skipWS_cons_length hws
        split at h
        · split at h
          · simp at h
          · rename_i k r1 hk
            have h1 := parseStringBody_length _ _ _ _ _ (Nat.le_refl _) hk
            split at h
            · simp at h
            · rename_i col r2 hws2
              have hlen2 := skipWS_cons_length hws2
              split at h
              · split at h
                · simp at h
                · rename_i v r3 hv
                  have h3 := ihv _ _ _ hv
                  split at h
                  · simp at h
                  · rename_i d r4 hws4
                    have hlen4 := skipWS_cons_length hws4
                    split at h
                    · obtain ⟨a, ha⟩ := map_snd_eq_some h
                      have := ihm _ _ _ ha
                      omega
                    · split at h
                      · simp only [Option.some.injEq, Prod.mk.injEq] at h
                        rw [← h.2]; omega
                      · simp at h
              · simp at h
        · simp at h

/-- Fuel adequacy: what the value, element and member scans yield with some fuel, they yield
with any fuel above twice the length of the input. -/
theorem parse_fuel : ∀ f : Nat,
    (∀ s r, parseValue f s = some r → ∀ g, 2 * s.length + 1 ≤ g → parseValue g s = some r) ∧
    (∀ s r, parseElems f s = some r → ∀ g, 2 * s.length + 2 ≤ g → parseElems g s = some r) ∧
    (∀ s r, parseMembers f s = some r → ∀ g, 2 * s.length + 2 ≤ g →
      parseMembers g s = some r) := by
  intro f
  induction f with
  | zero =>
    refine ⟨?_, ?_, ?_⟩ <;> intro s r h
    · simp [parseValue] at h
    · simp [parseElems] at h
    · simp [parseMembers] at h
  | succ f ih =>
    obtain ⟨ihv, ihe, ihm⟩ := ih
    refine ⟨?_, ?_, ?_⟩
    · intro s r h g hg
      obtain ⟨g', rfl⟩ : ∃ g', g = g' + 1 := ⟨g - 1, by omega⟩
      rw [parseValue] at h ⊢
      cases hws : skipWS s with
      | nil => simp [hws] at h
      | cons c r0 =>
        have hlen := skipWS_cons_length hws
        simp only [hws] at h ⊢
        by_cases h1 : (c == '"') = true
        · rw [if_pos h1] at h ⊢
          exact h
        · rw [if_neg h1] at h ⊢
          by_cases h2 : (c == '[') = true
          · rw [if_pos h2] at h ⊢
            cases hws2 : skipWS r0 with
            | nil => simp [hws2] at h
            | cons d r2 =>
              simp only [hws2] at h ⊢
              by_cases h3 : (d == ']') = true
              · rw [if_pos h3] at h ⊢
                exact h
              · rw [if_neg h3] at h ⊢
                cases hp : parseElems f r0 with
                | none => simp [hp] at h
                | some p =>
                  rw [ihe r0 p hp g' (by omega)]
                  rw [hp] at h
                  exact h
          · rw [if_neg h2] at h ⊢
            by_cases h4 : (c == '{') = true
            · rw [if_pos h4] at h ⊢
              cases hws2 : skipWS r0 with
              | nil => simp [hws2] at h
              | cons d r2 =>
                simp only [hws2] at h ⊢
                by_cases h3 : (d == '}') = true
                · rw [if_pos h3] at h ⊢
                  exact h
                · rw [if_neg h3] at h ⊢
                  cases hp : parseMembers f r0 with
                  | none => simp [hp] at h
                  | some p =>
                    rw [ihm r0 p hp g' (by omega)]
                    rw [hp] at h
                    exact h
            · rw [if_neg h4] at h ⊢
              exact h
    · intro s r h g hg
      obtain ⟨g', rfl⟩ : ∃ g', g = g' + 1 := ⟨g - 1, by omega⟩
      rw [parseElems] at h ⊢
      cases hv : parseValue f s with
      | none => simp [hv] at h
      | some p =>
        obtain ⟨v, r1⟩ := p
        have hl1 := (parse_length f).1 s v r1 hv
        rw [ihv s (v, r1) hv g' (by omega)]
        simp only [hv] at h ⊢
        cases hws : skipWS r1 with
        | nil => simp [hws] at h
        | cons d r2 =>
          have hlen := skipWS_cons_length hws
          simp only [hws] at h ⊢
          by_cases h3 : (d == ',') = true
          · rw [if_pos h3] at h ⊢
            cases hp : parseElems f r2 with
            | none => simp [hp] at h
            | some p =>
              rw [ihe r2 p hp g' (by omega)]
              rw [hp] at h
              exact h
          · rw [if_neg h3] at h ⊢
            exact h
    · intro s r h g hg
      obtain ⟨g', rfl⟩ : ∃ g', g = g' + 1 := ⟨g - 1, by omega⟩
      rw [parseMembers] at h ⊢
      cases hws : skipWS s with
      | nil => simp [hws] at h
      | cons q r0 =>
        have hlen := skipWS_cons_length hws
        simp only [hws] at h ⊢
        by_cases h1 : (q == '"') = true
        · rw [if_pos h1] at h ⊢
          cases hk : parseStringBody none r0 with
          | none => simp [hk] at h
          | some p =>
            obtain ⟨k, r1⟩ := p
            have hl1 := parseStringBody_length _ _ _ _ _ (Nat.le_refl _) hk
            simp only [hk] at h ⊢
            cases hws2 : skipWS r1 with
            | nil => simp [hws2] at h
            | cons col r2 =>
              have hlen2 := skipWS_cons_length hws2
              simp only [hws2] at h ⊢
              by_cases h2 : (col == ':') = true
              · rw [if_pos h2] at h ⊢
                cases hv : parseValue f r2 with
                | none => simp [hv] at h
                | some p =>
                  obtain ⟨v, r3⟩ := p
                  have hl3 := (parse_length f).1 r2 v r3 hv
                  rw [ihv r2 (v, r3) hv g' (by omega)]
                  simp only [hv] at h ⊢
                  cases hws4 : skipWS r3 with
                  | nil => simp [hws4] at h
                  | cons d r4 =>
                    have hlen4 := skipWS_cons_length hws4
                    simp only [hws4] at h ⊢
                    by_cases h3 : (d == ',') = true
                    · rw [if_pos h3] at h ⊢
                      cases hp : parseMembers f r4 with
                      | none => simp [hp] at h
                      | some p =>
                        rw [ihm r4 p hp g' (by omega)]
                        rw [hp] at h
                        exact h
                    · rw [if_neg h3] at h ⊢
                      exact h
              · rw [if_neg h2] at h
                simp at h
        · rw [if_neg h1] at h
          simp at h

/-- The fuel that `parseJSON` supplies is enough: whatever some amount of fuel parses, it
parses. -/
theorem parseJSON_of_parseValue (f : Nat) (s rest : Str) (v : JVal)
    (h : parseValue f s = some (v, rest)) (hr : skipWS rest = []) :
    parseJSON s = some v := by
  unfold parseJSON
  rw [(parse_fuel f).1 s (v, rest) h (2 * s.length + 2) (by omega)]
  simp [hr]

/-! ## The request sender: classification of responses -/

/-- The result of `SendRequest` on a response with an accepted status is the result of reading
its body. -/
theorem SendRequest_of_accepted {ν : Type} (net : Network ν) (whr : WapiHTTPRequestor)
    (req : Request) (n : ν) (resp : Response)
    (hdo : (net.Do whr.client req n).1 = Except.ok resp) (hst : statusAccepted resp req) :
    (whr.SendRequest net req n).1 = ReadAll resp.Body := by
  have hm : CREATE.toMethod = "POST".toList := rfl
  unfold statusAccepted at hst
  rw [← hm] at hst
  simp only [WapiHTTPRequestor.SendRequest, hdo]
  rw [if_neg (not_not_intro hst)]

/-- The result of `SendRequest` on a response with any other status is the error made from the
response, with a nil body. -/
theorem SendRequest_of_refused {ν : Type} (net : Network ν) (whr : WapiHTTPRequestor)
    (req : Request) (n : ν) (resp : Response)
    (hdo : (net.Do whr.client req n).1 = Except.ok resp) (hst : ¬ statusAccepted resp req) :
    (whr.SendRequest net req n).1 = (none, some (getHTTPResponseError resp)) := by
  have hm : CREATE.toMethod = "POST".toList := rfl
  unfold statusAccepted at hst
  rw [← hm] at hst
  simp only [WapiHTTPRequestor.SendRequest, hdo]
  rw [if_pos hst]

/-- C1, as the code has it: when the transport returns a response, `SendRequest` succeeds if
and only if the status code is 200, or 201 with request method POST, and moreover the response
body is read without error; it then returns the body. So a 201 response to a GET, PUT or
DELETE request is an error, and every other status code is an error for every method. -/
theorem SendRequest_succeeds_iff {ν : Type} (net : Network ν) (whr : WapiHTTPRequestor)
    (req : Request) (n : ν) (resp : Response)
    (hdo : (net.Do whr.client req n).1 = Except.ok resp) :
    ((whr.SendRequest net req n).1.2 = none ↔
        (statusAccepted resp req ∧ resp.Body.readErr = none)) ∧
      ((whr.SendRequest net req n).1.2 = none →
        (whr.SendRequest net req n).1.1 = some resp.Body.data) ∧
      (resp.StatusCode = 201 → req.Method ≠ "POST".toList →
        (whr.SendRequest net req n).1.2 ≠ none) ∧
      (resp.StatusCode ≠ 200 → resp.StatusCode ≠ 201 →
        (whr.SendRequest net req n).1.2 ≠ none) := by
  by_cases hst : statusAccepted resp req
  · rw [SendRequest_of_accepted net whr req n resp hdo hst]
    refine ⟨⟨fun h => ⟨hst, h⟩, fun h => h.2⟩, fun _ => rfl, ?_, ?_⟩
    · intro h201 hm
      rcases hst with h | h
      · rw [h201] at h; exact absurd h (by decide)
      · exact absurd h.2 hm
    · intro h200 h201
      rcases hst with h | h
      · exact absurd h h200
      · exact absurd h.1 h201
  · rw [SendRequest_of_refused net whr req n resp hdo hst]
    refine ⟨⟨fun h => ?_, fun h => absurd h.1 hst⟩, fun h => ?_, fun _ _ => ?_,
      fun _ _ => ?_⟩
    · exact absurd h (by simp)
    · exact absurd h (by simp)
    · simp
    · simp

/-- Witness for C1: a 200 response with a readable body, sent a GET request. -/
theorem SendRequest_succeeds_iff_witness :
    ((fixedNetwork (Except.ok okResponse)).Do sampleRequestor.client sampleGetRequest ()).1 =
        Except.ok okResponse ∧
      ((sampleRequestor.SendRequest (fixedNetwork (Except.ok okResponse))
          sampleGetRequest ()).1.2 = none ↔
        (statusAccepted okResponse sampleGetRequest ∧ okResponse.Body.readErr = none)) :=
  ⟨rfl, (SendRequest_succeeds_iff (fixedNetwork (Except.ok okResponse)) sampleRequestor
    sampleGetRequest () okResponse rfl).1⟩

/-- C1, as stated, fails: the transport returns a response with status 200, yet `SendRequest`
does not succeed, because reading the body ends with an error. -/
theorem SendRequest_status_200_read_error :
    ((fixedNetwork (Except.ok brokenBodyResponse)).Do sampleRequestor.client
        sampleGetRequest ()).1 = Except.ok brokenBodyResponse ∧
      brokenBodyResponse.StatusCode = 200 ∧
      (sampleRequestor.SendRequest (fixedNetwork (Except.ok brokenBodyResponse))
          sampleGetRequest ()).1 =
        (some "[\x7b".toList, some (Error.other "unexpected EOF".toList)) := by
  refine ⟨rfl, rfl, ?_⟩
  decide

/-! ## One round of build and send -/

/-- A failed build ends the round: no send, the build error is returned with a nil body. -/
theorem makeRequest_build_error {σ Req : Type} (c : Connector σ Req) (t : RequestType)
    (obj : Option IBObject) (ref : Str) (qp : QueryParams) (w : World σ Req)
    (e : Error) (s1 : σ)
    (hb : c.RequestBuilder.BuildRequest t obj ref qp w.state = (Except.error e, s1)) :
    c.makeRequest t obj ref qp w =
      ((none, some e),
        { state := s1, trace := w.trace ++ [Event.build t obj ref qp (Except.error e)] }) := by
  simp [Connector.makeRequest, Connector.build, hb]

/-- A successful first send ends the round: one build, one send. -/
theorem makeRequest_send_ok {σ Req : Type} (c : Connector σ Req) (t : RequestType)
    (obj : Option IBObject) (ref : Str) (qp : QueryParams) (w : World σ Req)
    (req : Req) (s1 s2 : σ) (res : Bytes)
    (hb : c.RequestBuilder.BuildRequest t obj ref qp w.state = (Except.ok req, s1))
    (hs : c.Requestor.SendRequest req s1 = ((res, none), s2)) :
    c.makeRequest t obj ref qp w =
      ((res, none),
        { state := s2
          trace := w.trace ++
            [Event.build t obj ref qp (Except.ok req), Event.send req (res, none)] }) := by
  simp [Connector.makeRequest, Connector.build, Connector.send, hb, hs]

/-- After a failed first send the request is rebuilt with forceProxy=true; when that build
fails the round ends with the build error and the body of the failed send. -/
theorem makeRequest_rebuild_error {σ Req : Type} (c : Connector σ Req) (t : RequestType)
    (obj : Option IBObject) (ref : Str) (qp : QueryParams) (w : World σ Req)
    (req : Req) (s1 s2 s3 : σ) (res : Bytes) (err e : Error)
    (hb : c.RequestBuilder.BuildRequest t obj ref qp w.state = (Except.ok req, s1))
    (hs : c.Requestor.SendRequest req s1 = ((res, some err), s2))
    (hb2 : c.RequestBuilder.BuildRequest t obj ref { qp with forceProxy := true } s2 =
      (Except.error e, s3)) :
    c.makeRequest t obj ref qp w =
      ((res, some e),
        { state := s3
          trace := w.trace ++
            [Event.build t obj ref qp (Except.ok req), Event.send req (res, some err),
              Event.build t obj ref { qp with forceProxy := true } (Except.error e)] }) := by
  simp [Connector.makeRequest, Connector.build, Connector.send, hb, hs, hb2]

/-- After a failed first send the request is rebuilt with forceProxy=true and sent once more;
the result of that send is the result of the round. -/
theorem makeRequest_retry {σ Req : Type} (c : Connector σ Req) (t : RequestType)
    (obj : Option IBObject) (ref : Str) (qp : QueryParams) (w : World σ Req)
    (req req2 : Req) (s1 s2 s3 s4 : σ) (res : Bytes) (err : Error) (r2 : Bytes × Option Error)
    (hb : c.RequestBuilder.BuildRequest t obj ref qp w.state = (Except.ok req, s1))
    (hs : c.Requestor.SendRequest req s1 = ((res, some err), s2))
    (hb2 : c.RequestBuilder.BuildRequest t obj ref { qp with forceProxy := true } s2 =
      (Except.ok req2, s3))
    (hs2 : c.Requestor.SendRequest req2 s3 = (r2, s4)) :
    c.makeRequest t obj ref qp w =
      (r2,
        { state := s4
          trace := w.trace ++
            [Event.build t obj ref qp (Except.ok req), Event.send req (res, some err),
              Event.build t obj ref { qp with forceProxy := true } (Except.ok req2),
              Event.send req2 r2] }) := by
  simp [Connector.makeRequest, Connector.build, Connector.send, hb, hs, hb2, hs2]

/-! ## The CRUD calls in terms of their rounds -/

/-- CreateObject returns the error of its round. -/
theorem CreateObject_of_error {σ Req : Type} (c : Connector σ Req) (obj : Option IBObject)
    (w w1 : World σ Req) (resp : Bytes) (e : Error)
    (h : c.makeRequest CREATE obj [] { forceProxy := false } w = ((resp, some e), w1)) :
    c.CreateObject obj w = (([], some e), w1) := by
  simp [Connector.CreateObject, h]

/-- CreateObject returns the empty ref and no error on an empty body. -/
theorem CreateObject_of_empty {σ Req : Type} (c : Connector σ Req) (obj : Option IBObject)
    (w w1 : World σ Req) (resp : Bytes) (hlen : resp.len = 0)
    (h : c.makeRequest CREATE obj [] { forceProxy := false } w = ((resp, none), w1)) :
    c.CreateObject obj w = (([], none), w1) := by
  simp [Connector.CreateObject, h, hlen]

/-- CreateObject decodes a non-empty body into the ref. -/
theorem CreateObject_of_body {σ Req : Type} (c : Connector σ Req) (obj : Option IBObject)
    (w w1 : World σ Req) (resp : Bytes) (hlen : resp.len ≠ 0)
    (h : c.makeRequest CREATE obj [] { forceProxy := false } w = ((resp, none), w1)) :
    c.CreateObject obj w = (Unmarshal decodeString resp [], w1) := by
  simp [Connector.CreateObject, h, hlen]

/-- DeleteObject returns the error of its round. -/
theorem DeleteObject_of_error {σ Req : Type} (c : Connector σ Req) (ref : Str)
    (w w1 : World σ Req) (resp : Bytes) (e : Error)
    (h : c.makeRequest DELETE none ref { forceProxy := false } w = ((resp, some e), w1)) :
    c.DeleteObject ref w = (([], some e), w1) := by
  simp [Connector.DeleteObject, h]

/-- DeleteObject decodes the body of a successful round, whatever its length. -/
theorem DeleteObject_of_body {σ Req : Type} (c : Connector σ Req) (ref : Str)
    (w w1 : World σ Req) (resp : Bytes)
    (h : c.makeRequest DELETE none ref { forceProxy := false } w = ((resp, none), w1)) :
    c.DeleteObject ref w = (Unmarshal decodeString resp [], w1) := by
  simp [Connector.DeleteObject, h]

/-- UpdateObject returns the error of its round. -/
theorem UpdateObject_of_error {σ Req : Type} (c : Connector σ Req) (obj : Option IBObject)
    (ref : Str) (w w1 : World σ Req) (resp : Bytes) (e : Error)
    (h : c.makeRequest UPDATE obj ref { forceProxy := false } w = ((resp, some e), w1)) :
    c.UpdateObject obj ref w = (([], some e), w1) := by
  simp [Connector.UpdateObject, h]

/-- UpdateObject decodes the body of a successful round, whatever its length. -/
theorem UpdateObject_of_body {σ Req : Type} (c : Connector σ Req) (obj : Option IBObject)
    (ref : Str) (w w1 : World σ Req) (resp : Bytes)
    (h : c.makeRequest UPDATE obj ref { forceProxy := false } w = ((resp, none), w1)) :
    c.UpdateObject obj ref w = (Unmarshal decodeString resp [], w1) := by
  simp [Connector.UpdateObject, h]

/-- GetObject returns the error of its first round and leaves the result alone. -/
theorem GetObject_of_error {σ Req ρ : Type} (c : Connector σ Req) (obj : Option IBObject)
    (ref : Str) (dec : Decoder ρ) (res : ρ) (w w1 : World σ Req) (resp : Bytes) (e : Error)
    (h : c.makeRequest GET obj ref { forceProxy := false } w = ((resp, some e), w1)) :
    c.GetObject obj ref dec res w = ((res, some e), w1) := by
  simp [Connector.GetObject, h]

/-- GetObject returns the syntax error of a first body that is not JSON, without a second
round. -/
theorem GetObject_of_syntax_error {σ Req ρ : Type} (c : Connector σ Req)
    (obj : Option IBObject) (ref : Str) (dec : Decoder ρ) (res : ρ) (w w1 : World σ Req)
    (resp : Bytes) (hp : parseJSON resp.toStr = none)
    (h : c.makeRequest GET obj ref { forceProxy := false } w = ((resp, none), w1)) :
    c.GetObject obj ref dec res w = ((res, some Error.jsonSyntax), w1) := by
  simp [Connector.GetObject, h, Unmarshal, hp]

/-- A body that parses is not nil. -/
theorem isSome_of_parseJSON {resp : Bytes} {j : JVal} (hp : parseJSON resp.toStr = some j) :
    resp.isNone = false := by
  cases resp with
  | none =>
    have : parseJSON ([] : Str) = none := rfl
    simp [Bytes.toStr, this] at hp
  | some s => rfl

/-- A body that parses is not empty. -/
theorem len_ne_zero_of_parseJSON {resp : Bytes} {j : JVal}
    (hp : parseJSON resp.toStr = some j) : resp.len ≠ 0 := by
  intro h0
  have hnil : resp.toStr = [] := List.length_eq_zero.mp h0
  have : parseJSON ([] : Str) = none := rfl
  rw [hnil, this] at hp
  exact absurd hp (by simp)

/-- GetObject decodes a first body that is JSON other than an empty array, without a second
round. -/
theorem GetObject_of_body {σ Req ρ : Type} (c : Connector σ Req) (obj : Option IBObject)
    (ref : Str) (dec : Decoder ρ) (res : ρ) (w w1 : World σ Req) (resp : Bytes) (j : JVal)
    (hp : parseJSON resp.toStr = some j) (hj : j.isEmptyArray = false)
    (h : c.makeRequest GET obj ref { forceProxy := false } w = ((resp, none), w1)) :
    c.GetObject obj ref dec res w = (Unmarshal dec resp res, w1) := by
  have hs := isSome_of_parseJSON hp
  have hl := len_ne_zero_of_parseJSON hp
  simp [Connector.GetObject, h, Unmarshal, hp, decodeAny, hj, hs, hl]

/-- GetObject makes a second round, with forceProxy=true, after a first body that is an empty
JSON array; its outcome is then that of the second round: an error is returned, an empty body
leaves the result alone, any other body is decoded. -/
theorem GetObject_of_empty_array {σ Req ρ : Type} (c : Connector σ Req)
    (obj : Option IBObject) (ref : Str) (dec : Decoder ρ) (res : ρ) (w w1 w2 : World σ Req)
    (resp : Bytes) (j : JVal) (r2 : Bytes × Option Error)
    (hp : parseJSON resp.toStr = some j) (hj : j.isEmptyArray = true)
    (h : c.makeRequest GET obj ref { forceProxy := false } w = ((resp, none), w1))
    (h2 : c.makeRequest GET obj ref { forceProxy := true } w1 = (r2, w2)) :
    c.GetObject obj ref dec res w =
      (match r2.2 with
        | some e => (res, some e)
        | none => if r2.1.len = 0 then (res, none) else Unmarshal dec r2.1 res, w2) := by
  obtain ⟨b2, e2⟩ := r2
  cases e2 with
  | some e => simp [Connector.GetObject, h, Unmarshal, hp, decodeAny, hj, h2]
  | none =>
    by_cases hl : b2.len = 0
    · simp [Connector.GetObject, h, Unmarshal, hp, decodeAny, hj, h2, hl]
    · simp [Connector.GetObject, h, Unmarshal, hp, decodeAny, hj, h2, hl]

/-! ## Retry ceiling -/

/-- With a builder that always builds and a sender that fails every send, a round started
with forceProxy=false ends in an error after exactly two sends, and the error is that of the
second send. -/
theorem makeRequest_all_sends_fail {σ Req : Type} (c : Connector σ Req) (t : RequestType)
    (obj : Option IBObject) (ref : Str) (w : World σ Req)
    (hbuild : ∀ qp s, ∃ req, (c.RequestBuilder.BuildRequest t obj ref qp s).1 = Except.ok req)
    (hfail : ∀ req s, (c.Requestor.SendRequest req s).1.2 ≠ none) :
    ∃ (w1 : World σ Req) (resp : Bytes) (e : Error),
      c.makeRequest t obj ref { forceProxy := false } w = ((resp, some e), w1) ∧
      failedTwice w.trace w1.trace t obj ref (some e) := by
  rcases hB1 : c.RequestBuilder.BuildRequest t obj ref { forceProxy := false } w.state with
    ⟨b1, s1⟩
  obtain ⟨req1, hreq1⟩ := hbuild { forceProxy := false } w.state
  rw [hB1] at hreq1
  simp only at hreq1
  subst hreq1
  rcases hS1 : c.Requestor.SendRequest req1 s1 with ⟨⟨res1, oe1⟩, s2⟩
  have hf1 := hfail req1 s1
  rw [hS1] at hf1
  obtain ⟨e1, he1⟩ := Option.ne_none_iff_exists'.mp hf1
  simp only at he1
  subst he1
  rcases hB2 : c.RequestBuilder.BuildRequest t obj ref { forceProxy := true } s2 with
    ⟨b2, s3⟩
  obtain ⟨req2, hreq2⟩ := hbuild { forceProxy := true } s2
  rw [hB2] at hreq2
  simp only at hreq2
  subst hreq2
  rcases hS2 : c.Requestor.SendRequest req2 s3 with ⟨⟨res2, oe2⟩, s4⟩
  have hf2 := hfail req2 s3
  rw [hS2] at hf2
  obtain ⟨e2, he2⟩ := Option.ne_none_iff_exists'.mp hf2
  simp only at he2
  subst he2
  exact ⟨_, res2, e2,
    makeRequest_retry c t obj ref { forceProxy := false } w req1 req2 s1 s2 s3 s4 res1 e1
      (res2, some e2) hB1 hS1 hB2 hS2,
    ⟨req1, req2, res1, res2, e1, e2, rfl, rfl⟩⟩

/-- C3: for each of CreateObject, GetObject, UpdateObject and DeleteObject, given a builder
that always builds and a sender that fails every send, the call returns an error after
exactly two send attempts (the trace grows by build, failed send, build with forceProxy=true,
failed send, and nothing more), and the error returned is the one from the second attempt. -/
theorem crud_fails_after_exactly_two_sends {σ Req ρ : Type} (c : Connector σ Req)
    (obj : Option IBObject) (ref : Str) (dec : Decoder ρ) (res : ρ) (w : World σ Req)
    (hbuild : ∀ t o r qp s, ∃ req,
      (c.RequestBuilder.BuildRequest t o r qp s).1 = Except.ok req)
    (hfail : ∀ req s, (c.Requestor.SendRequest req s).1.2 ≠ none) :
    failedTwice w.trace (c.CreateObject obj w).2.trace CREATE obj []
        (c.CreateObject obj w).1.2 ∧
      failedTwice w.trace (c.GetObject obj ref dec res w).2.trace GET obj ref
        (c.GetObject obj ref dec res w).1.2 ∧
      failedTwice w.trace (c.UpdateObject obj ref w).2.trace UPDATE obj ref
        (c.UpdateObject obj ref w).1.2 ∧
      failedTwice w.trace (c.DeleteObject ref w).2.trace DELETE none ref
        (c.DeleteObject ref w).1.2 := by
  refine ⟨?_, ?_, ?_, ?_⟩
  · obtain ⟨w1, resp, e, h, hf⟩ :=
      makeRequest_all_sends_fail c CREATE obj [] w (hbuild CREATE obj []) hfail
    rw [CreateObject_of_error c obj w w1 resp e h]
    exact hf
  · obtain ⟨w1, resp, e, h, hf⟩ :=
      makeRequest_all_sends_fail c GET obj ref w (hbuild GET obj ref) hfail
    rw [GetObject_of_error c obj ref dec res w w1 resp e h]
    exact hf
  · obtain ⟨w1, resp, e, h, hf⟩ :=
      makeRequest_all_sends_fail c UPDATE obj ref w (hbuild UPDATE obj ref) hfail
    rw [UpdateObject_of_error c obj ref w w1 resp e h]
    exact hf
  · obtain ⟨w1, resp, e, h, hf⟩ :=
      makeRequest_all_sends_fail c DELETE none ref w (hbuild DELETE none ref) hfail
    rw [DeleteObject_of_error c ref w w1 resp e h]
    exact hf

/-- Witness for C3: the fixed-request builder with the always failing sender. -/
theorem crud_fails_after_exactly_two_sends_witness :
    failedTwice ([] : List (Event Str))
        (failingConnector.CreateObject none { state := (), trace := [] }).2.trace CREATE none []
        (failingConnector.CreateObject none { state := (), trace := [] }).1.2 ∧
      (failingConnector.CreateObject none { state := (), trace := [] }).1.2 =
        some (Error.other "connection refused".toList) ∧
      (sends (failingConnector.CreateObject none { state := (), trace := [] }).2.trace).length
        = 2 :=
  ⟨(crud_fails_after_exactly_two_sends failingConnector none [] decodeString []
      { state := (), trace := [] } (fun _ _ _ _ _ => ⟨"req".toList, rfl⟩)
      (fun _ _ => by simp [failingConnector, FailingRequestor])).1, by decide, by decide⟩

/-! ## Finality of the second attempt -/

/-- C4, as the code has it: when the first send fails and the request is rebuilt, the trace
of Create, Update and Delete is exactly build, failed send, build with forceProxy=true, send,
and their outcome is a function of the second send's result alone. The same holds for Get
unless the second send succeeds with an empty JSON array; in that case Get goes on to one
more round with forceProxy=true, whose outcome is its outcome. -/
theorem second_attempt_final_except_get_empty {σ Req : Type} (c : Connector σ Req)
    (t : RequestType) (obj : Option IBObject) (ref : Str) (w : World σ Req)
    (req1 req2 : Req) (s1 s2 s3 s4 : σ) (res1 : Bytes) (e1 : Error) (r2 : Bytes × Option Error)
    (hb1 : c.RequestBuilder.BuildRequest t obj ref { forceProxy := false } w.state =
      (Except.ok req1, s1))
    (hs1 : c.Requestor.SendRequest req1 s1 = ((res1, some e1), s2))
    (hb2 : c.RequestBuilder.BuildRequest t obj ref { forceProxy := true } s2 =
      (Except.ok req2, s3))
    (hs2 : c.Requestor.SendRequest req2 s3 = (r2, s4)) :
    (t = CREATE → ref = [] →
        c.CreateObject obj w =
          (if r2.2 ≠ none ∨ r2.1.len = 0 then ([], r2.2) else Unmarshal decodeString r2.1 [],
            { state := s4
              trace := w.trace ++
                [Event.build t obj ref { forceProxy := false } (Except.ok req1),
                  Event.send req1 (res1, some e1),
                  Event.build t obj ref { forceProxy := true } (Except.ok req2),
                  Event.send req2 r2] })) ∧
      (t = UPDATE →
        c.UpdateObject obj ref w =
          (match r2.2 with
            | some e => ([], some e)
            | none => Unmarshal decodeString r2.1 [],
            { state := s4
              trace := w.trace ++
                [Event.build t obj ref { forceProxy := false } (Except.ok req1),
                  Event.send req1 (res1, some e1),
                  Event.build t obj ref { forceProxy := true } (Except.ok req2),
                  Event.send req2 r2] })) ∧
      (t = DELETE → obj = none →
        c.DeleteObject ref w =
          (match r2.2 with
            | some e => ([], some e)
            | none => Unmarshal decodeString r2.1 [],
            { state := s4
              trace := w.trace ++
                [Event.build t obj ref { forceProxy := false } (Except.ok req1),
                  Event.send req1 (res1, some e1),
                  Event.build t obj ref { forceProxy := true } (Except.ok req2),
                  Event.send req2 r2] })) ∧
      (t = GET → ∀ (ρ : Type) (dec : Decoder ρ) (res : ρ),
        (¬ (r2.2 = none ∧ (parseJSON r2.1.toStr).map JVal.isEmptyArray = some true) →
          c.GetObject obj ref dec res w =
            (match r2.2 with
              | some e => (res, some e)
              | none => Unmarshal dec r2.1 res,
              { state := s4
                trace := w.trace ++
                  [Event.build t obj ref { forceProxy := false } (Except.ok req1),
                    Event.send req1 (res1, some e1),
                    Event.build t obj ref { forceProxy := true } (Except.ok req2),
                    Event.send req2 r2] })) ∧
        ((r2.2 = none ∧ (parseJSON r2.1.toStr).map JVal.isEmptyArray = some true) →
          c.GetObject obj ref dec res w =
            (match (c.makeRequest GET obj ref { forceProxy := true }
                { state := s4
                  trace := w.trace ++
                    [Event.build t obj ref { forceProxy := false } (Except.ok req1),
                      Event.send req1 (res1, some e1),
                      Event.build t obj ref { forceProxy := true } (Except.ok req2),
                      Event.send req2 r2] }).1.2 with
              | some e => (res, some e)
              | none =>
                if (c.makeRequest GET obj ref { forceProxy := true }
                    { state := s4
                      trace := w.trace ++
                        [Event.build t obj ref { forceProxy := false } (Except.ok req1),
                          Event.send req1 (res1, some e1),
                          Event.build t obj ref { forceProxy := true } (Except.ok req2),
                          Event.send req2 r2] }).1.1.len = 0 then (res, none)
                else Unmarshal dec (c.makeRequest GET obj ref { forceProxy := true }
                    { state := s4
                      trace := w.trace ++
                        [Event.build t obj ref { forceProxy := false } (Except.ok req1),
                          Event.send req1 (res1, some e1),
                          Event.build t obj ref { forceProxy := true } (Except.ok req2),
                          Event.send req2 r2] }).1.1 res,
              (c.makeRequest GET obj ref { forceProxy := true }
                { state := s4
                  trace := w.trace ++
                    [Event.build t obj ref { forceProxy := false } (Except.ok req1),
                      Event.send req1 (res1, some e1),
                      Event.build t obj ref { forceProxy := true } (Except.ok req2),
                      Event.send req2 r2] }).2))) := by
  have hm := makeRequest_retry c t obj ref { forceProxy := false } w req1 req2 s1 s2 s3 s4
    res1 e1 r2 hb1 hs1 hb2 hs2
  obtain ⟨b2, oe2⟩ := r2
  refine ⟨?_, ?_, ?_, ?_⟩
  · intro ht href
    subst ht href
    cases oe2 with
    | some e => rw [CreateObject_of_error c obj w _ b2 e hm]; simp
    | none =>
      by_cases hl : b2.len = 0
      · rw [CreateObject_of_empty c obj w _ b2 hl hm]; simp [hl]
      · rw [CreateObject_of_body c obj w _ b2 hl hm]; simp [hl]
  · intro ht
    subst ht
    cases oe2 with
    | some e => rw [UpdateObject_of_error c obj ref w _ b2 e hm]
    | none => rw [UpdateObject_of_body c obj ref w _ b2 hm]
  · intro ht hobj
    subst ht hobj
    cases oe2 with
    | some e => rw [DeleteObject_of_error c ref w _ b2 e hm]
    | none => rw [DeleteObject_of_body c ref w _ b2 hm]
  · intro ht ρ dec res
    subst ht
    constructor
    · intro hne
      cases oe2 with
      | some e => rw [GetObject_of_error c obj ref dec res w _ b2 e hm]
      | none =>
        cases hp : parseJSON b2.toStr with
        | none =>
          rw [GetObject_of_syntax_error c obj ref dec res w _ b2 hp hm]
          simp [Unmarshal, hp]
        | some j =>
          have hj : j.isEmptyArray = false := by
            cases hje : j.isEmptyArray with
            | false => rfl
            | true => exact absurd ⟨rfl, by simp [hp, hje]⟩ hne
          rw [GetObject_of_body c obj ref dec res w _ b2 j hp hj hm]
    · rintro ⟨hoe, hemp⟩
      simp only at hoe hemp
      subst hoe
      cases hp : parseJSON b2.toStr with
      | none => simp [hp] at hemp
      | some j =>
        have hj : j.isEmptyArray = true := by simpa [hp] using hemp
        exact GetObject_of_empty_array c obj ref dec res w _ _ b2 j _ hp hj hm Prod.mk.eta.symm

/-- Witness for C4 as amended: the scripted sender fails the first send of a create and
answers the second with a ref. -/
theorem second_attempt_final_except_get_empty_witness :
    scriptedConnector.CreateObject none
        (scriptedWorld [(none, some (Error.other "connection refused".toList)),
          (some "\"networkview/abc:private-view/false\"".toList, none)]) =
      (("networkview/abc:private-view/false".toList, none),
        { state := []
          trace :=
            [Event.build CREATE none [] { forceProxy := false } (Except.ok "req".toList),
              Event.send "req".toList (none, some (Error.other "connection refused".toList)),
              Event.build CREATE none [] { forceProxy := true } (Except.ok "req".toList),
              Event.send "req".toList
                (some "\"networkview/abc:private-view/false\"".toList, none)] }) :=
  ((second_attempt_final_except_get_empty scriptedConnector CREATE none []
    (scriptedWorld [(none, some (Error.other "connection refused".toList)),
      (some "\"networkview/abc:private-view/false\"".toList, none)])
    "req".toList "req".toList _ _ _ _ none (Error.other "connection refused".toList)
    (some "\"networkview/abc:private-view/false\"".toList, none) rfl rfl rfl rfl).1 rfl rfl).trans
    (by rfl)

/-- C4, as stated, fails for Get: the first send fails, the second send succeeds with an
empty array, and GetObject makes a third send, whose body decides the outcome: with the same
first and second send, two different third bodies give two different results. -/
theorem GetObject_third_send_after_failed_first :
    sends (scriptedConnector.GetObject none [] (decodeSlice [] decodeString) []
        (scriptedWorld (failEmptyThen "[\"a\"]".toList))).2.trace =
      ["req".toList, "req".toList, "req".toList] ∧
    (scriptedConnector.GetObject none [] (decodeSlice [] decodeString) []
        (scriptedWorld (failEmptyThen "[\"a\"]".toList))).1 = (["a".toList], none) ∧
    (scriptedConnector.GetObject none [] (decodeSlice [] decodeString) []
        (scriptedWorld (failEmptyThen "[\"b\"]".toList))).1 = (["b".toList], none) := by
  refine ⟨?_, ?_, ?_⟩ <;> decide

/-! ## Get: the retry after an empty result -/

/-- The text `[]` is the empty JSON array. -/
theorem parseJSON_empty_array : parseJSON "[]".toList = some (JVal.arr []) := rfl

/-- Decoding an empty array into a slice gives the empty slice and no error. -/
theorem Unmarshal_slice_empty_array {α : Type} (zero : α) (d : Decoder α) (cur : List α) :
    Unmarshal (decodeSlice zero d) (some "[]".toList) cur = ([], none) := by
  rfl

/-- Into a slice without elements every element of an array is decoded into a zero value. -/
theorem decodeElems_nil {α : Type} (zero : α) (d : Decoder α) (xs : List JVal) :
    decodeElems zero d xs [] = xs.map (fun x => d x zero) := by
  induction xs with
  | nil => rfl
  | cons x xs ih => simp only [decodeElems, ih, List.map_cons]

/-- Decoding an array into a nil slice gives one element per array element, each decoded into
a zero value. -/
theorem Unmarshal_slice_array {α : Type} (zero : α) (d : Decoder α)
    (resp : Bytes) (xs : List JVal) (hp : parseJSON resp.toStr = some (JVal.arr xs)) :
    Unmarshal (decodeSlice zero d) resp [] =
      (xs.map (fun x => (d x zero).1), firstError (xs.map (fun x => (d x zero).2))) := by
  simp only [Unmarshal, hp, decodeSlice, decodeElems_nil, List.map_map]
  rfl

/-- C5, as the code has it: GetObject, given a sender whose first send succeeds with the empty
JSON array and whose second send succeeds, makes exactly two sends, the first built with
forceProxy=false and the second with forceProxy=true. Its outcome is the decoding of the
second response into the caller's result when that response is not empty, and no error with
the result untouched when it is empty. Into a nil slice, as the callers pass it, an array
decodes to one element per array element, each decoded into a zero value, and into any slice
a second empty array decodes to the empty slice with no error; an element of a slice that
holds elements is decoded into the value held, so `[null]` leaves the one element of a slice
as it is. -/
theorem GetObject_retry_after_empty_array {σ Req ρ : Type} (c : Connector σ Req)
    (obj : Option IBObject) (ref : Str) (dec : Decoder ρ) (res : ρ) (w : World σ Req)
    (req1 req2 : Req) (s1 s2 s3 s4 : σ) (resp2 : Bytes)
    (hb1 : c.RequestBuilder.BuildRequest GET obj ref { forceProxy := false } w.state =
      (Except.ok req1, s1))
    (hs1 : c.Requestor.SendRequest req1 s1 = ((some "[]".toList, none), s2))
    (hb2 : c.RequestBuilder.BuildRequest GET obj ref { forceProxy := true } s2 =
      (Except.ok req2, s3))
    (hs2 : c.Requestor.SendRequest req2 s3 = ((resp2, none), s4)) :
    c.GetObject obj ref dec res w =
        (if resp2.len = 0 then (res, none) else Unmarshal dec resp2 res,
          { state := s4
            trace := w.trace ++
              [Event.build GET obj ref { forceProxy := false } (Except.ok req1),
                Event.send req1 (some "[]".toList, none),
                Event.build GET obj ref { forceProxy := true } (Except.ok req2),
                Event.send req2 (resp2, none)] }) ∧
      (∀ (α : Type) (zero : α) (d : Decoder α) (cur : List α),
        Unmarshal (decodeSlice zero d) (some "[]".toList) cur = ([], none)) ∧
      (∀ (α : Type) (zero : α) (d : Decoder α) (xs : List JVal),
        parseJSON resp2.toStr = some (JVal.arr xs) →
        Unmarshal (decodeSlice zero d) resp2 [] =
          (xs.map (fun x => (d x zero).1), firstError (xs.map (fun x => (d x zero).2)))) ∧
      Unmarshal (decodeSlice [] decodeString) (some "[null]".toList) ["old".toList] =
        (["old".toList], none) ∧
      Unmarshal (decodeSlice [] decodeString) (some "[\"a\",null,\"c\"]".toList)
          ["old".toList, "older".toList] =
        (["a".toList, "older".toList, "c".toList], none) := by
  refine ⟨?_, fun α zero d cur => Unmarshal_slice_empty_array zero d cur,
    fun α zero d xs hp => Unmarshal_slice_array zero d resp2 xs hp, by decide, by decide⟩
  have h1 := makeRequest_send_ok c GET obj ref { forceProxy := false } w req1 s1 s2
    (some "[]".toList) hb1 hs1
  have h2 := makeRequest_send_ok c GET obj ref { forceProxy := true }
    { state := s2
      trace := w.trace ++
        [Event.build GET obj ref { forceProxy := false } (Except.ok req1),
          Event.send req1 (some "[]".toList, none)] } req2 s3 s4 resp2 hb2 hs2
  rw [GetObject_of_empty_array c obj ref dec res w _ _ (some "[]".toList) (JVal.arr [])
    (resp2, none) parseJSON_empty_array rfl h1 h2]
  simp

/-- Witness for C5 as amended: the scripted sender answers `[]` and then a populated array. -/
theorem GetObject_retry_after_empty_array_witness :
    scriptedConnector.GetObject none [] (decodeSlice [] decodeString) []
        (scriptedWorld [(some "[]".toList, none), (some "[\"a\",\"b\"]".toList, none)]) =
      ((["a".toList, "b".toList], none),
        { state := []
          trace :=
            [Event.build GET none [] { forceProxy := false } (Except.ok "req".toList),
              Event.send "req".toList (some "[]".toList, none),
              Event.build GET none [] { forceProxy := true } (Except.ok "req".toList),
              Event.send "req".toList (some "[\"a\",\"b\"]".toList, none)] }) :=
  ((GetObject_retry_after_empty_array scriptedConnector none [] (decodeSlice [] decodeString)
    [] (scriptedWorld [(some "[]".toList, none), (some "[\"a\",\"b\"]".toList, none)])
    "req".toList "req".toList _ _ _ _ (some "[\"a\",\"b\"]".toList) rfl rfl rfl rfl).1).trans
    (by rfl)

/-- C5, as stated, fails when the second send succeeds with an empty body: GetObject returns
no error after two sends, while decoding that second response is a syntax error. -/
theorem GetObject_second_body_empty :
    (scriptedConnector.GetObject none [] (decodeSlice [] decodeString) ["old".toList]
        (scriptedWorld [(some "[]".toList, none), (some [], none)])).1 =
      (["old".toList], none) ∧
    sends (scriptedConnector.GetObject none [] (decodeSlice [] decodeString) ["old".toList]
        (scriptedWorld [(some "[]".toList, none), (some [], none)])).2.trace =
      ["req".toList, "req".toList] ∧
    Unmarshal (decodeSlice [] decodeString) (some []) ["old".toList] =
      (["old".toList], some Error.jsonSyntax) := by
  refine ⟨?_, ?_, ?_⟩ <;> decide

/-! ## Get: a null first response -/

/-- C6 fails on the code: when the first send of GetObject succeeds with a nil body or with an
empty body, the call returns a syntax error after that one send, with no forced-proxy retry
(the scripted second answer is never asked for); when it succeeds with the JSON value `null`,
the call returns no error after that one send, again with no retry. -/
theorem GetObject_null_response_no_retry :
    scriptedConnector.GetObject none [] (decodeSlice [] decodeString) []
        (scriptedWorld [(none, none), (some "[\"a\"]".toList, none)]) =
      (([], some Error.jsonSyntax),
        { state := [(some "[\"a\"]".toList, none)]
          trace :=
            [Event.build GET none [] { forceProxy := false } (Except.ok "req".toList),
              Event.send "req".toList (none, none)] }) ∧
    scriptedConnector.GetObject none [] (decodeSlice [] decodeString) []
        (scriptedWorld [(some [], none), (some "[\"a\"]".toList, none)]) =
      (([], some Error.jsonSyntax),
        { state := [(some "[\"a\"]".toList, none)]
          trace :=
            [Event.build GET none [] { forceProxy := false } (Except.ok "req".toList),
              Event.send "req".toList (some [], none)] }) ∧
    scriptedConnector.GetObject none [] (decodeSlice [] decodeString) []
        (scriptedWorld [(some "null".toList, none), (some "[\"a\"]".toList, none)]) =
      (([], none),
        { state := [(some "[\"a\"]".toList, none)]
          trace :=
            [Event.build GET none [] { forceProxy := false } (Except.ok "req".toList),
              Event.send "req".toList (some "null".toList, none)] }) := by
  refine ⟨?_, ?_, ?_⟩ <;> rfl

/-! ## Decoding of encoded strings -/


/-- Two lower-case hexadecimal digits after `00` read back as the number they were made from. -/
theorem getu4_low : ∀ n, n < 128 →
    getu4 '0' '0' (lowerHexDigit (n / 16)) (lowerHexDigit (n % 16)) = some n := by
  decide

/-- An unescaped character of a string literal decodes to itself. -/
theorem parseStringBody_plain (c : Char) (tail : Str) (h3 : c ≠ '"') (h7 : c ≠ '\\')
    (h : ¬ c.toNat < 32) :
    parseStringBody none (c :: tail) = prependDecoded [c] (parseStringBody none tail) := by
  rw [parseStringBody.eq_def]
  simp [h3, h7, h, flushPending]

/-- A single-letter escape decodes to its character. -/
theorem parseStringBody_simple (e ch : Char) (tail : Str) (hu : e ≠ 'u')
    (he : simpleEscape e = some ch) :
    parseStringBody none ('\\' :: e :: tail) =
      prependDecoded [ch] (parseStringBody none tail) := by
  rw [parseStringBody.eq_def]
  simp [hu, he, flushPending]

/-- A `\\u` escape of a number that is not a surrogate decodes to the character of that number. -/
theorem parseStringBody_u (h1 h2 h3 h4 : Char) (r : Nat) (tail : Str)
    (hr : getu4 h1 h2 h3 h4 = some r) (hs : isSurrogate r = false) :
    parseStringBody none ('\\' :: 'u' :: h1 :: h2 :: h3 :: h4 :: tail) =
      prependDecoded [Char.ofNat r] (parseStringBody none tail) := by
  rw [parseStringBody.eq_def]
  simp [hr, hs, flushPending]

/-- What the encoder writes for a character decodes to that character. -/
theorem encodeChar_decodes (c : Char) (tail : Str) :
    parseStringBody none (encodeChar c ++ tail) =
      prependDecoded [c] (parseStringBody none tail) := by
  unfold encodeChar
  split
  · rename_i hlt
    split
    · rename_i hs
      simp [htmlSafe] at hs
      obtain ⟨⟨⟨⟨⟨⟨h1, h2⟩, h3⟩, h4⟩, h5⟩, h6⟩, h7⟩ := hs
      exact parseStringBody_plain c tail h3 h7 (by omega)
    · split
      · rename_i hq
        simp at hq
        rcases hq with hq | hq <;> subst hq <;>
          exact parseStringBody_simple _ _ tail (by decide) (by decide)
      · split
        · rename_i hn
          simp at hn
          subst hn
          exact parseStringBody_simple 'n' '\n' tail (by decide) (by decide)
        · split
          · rename_i hn
            simp at hn
            subst hn
            exact parseStringBody_simple 'r' '\r' tail (by decide) (by decide)
          · split
            · rename_i hn
              simp at hn
              subst hn
              exact parseStringBody_simple 't' '\t' tail (by decide) (by decide)
            · have := parseStringBody_u '0' '0' (lowerHexDigit (c.toNat / 16))
                (lowerHexDigit (c.toNat % 16)) c.toNat tail (getu4_low c.toNat hlt)
                (by simp [isSurrogate]; omega)
              rw [Char.ofNat_toNat] at this
              exact this
  · rename_i hge
    split
    · rename_i h2028
      have hc : c = Char.ofNat 0x2028 ∨ c = Char.ofNat 0x2029 := by
        rcases h2028 with h | h
        · left; rw [← h, Char.ofNat_toNat]
        · right; rw [← h, Char.ofNat_toNat]
      rcases hc with hc | hc <;> subst hc <;>
        exact parseStringBody_u _ _ _ _ _ tail (by decide) (by decide)
    · rename_i hn
      refine parseStringBody_plain c tail ?_ ?_ (by omega)
      · intro h; subst h; exact hge (by decide)
      · intro h; subst h; exact hge (by decide)

/-- The body of an encoded string, with its closing quote, decodes to the string. -/
theorem parseStringBody_encode (s rest : Str) :
    parseStringBody none (s.flatMap encodeChar ++ '"' :: rest) = some (s, rest) := by
  induction s with
  | nil =>
    rw [List.flatMap_nil, List.nil_append, parseStringBody.eq_def]
    simp [flushPending]
  | cons c cs ih =>
    rw [List.flatMap_cons, List.append_assoc, encodeChar_decodes, ih]
    rfl

/-- The JSON string encoding of a string parses to that string. -/
theorem parseJSON_encodeString (s : Str) : parseJSON (encodeString s) = some (JVal.str s) := by
  have h := parseStringBody_encode s []
  simp only [parseJSON, encodeString]
  rw [parseValue]
  simp [skipWS, isSpace, h]

/-- Decoding the JSON string encoding of a string into a `*string` stores that string. -/
theorem Unmarshal_encodeString (s cur : Str) :
    Unmarshal decodeString (some (encodeString s)) cur = (s, none) := by
  simp [Unmarshal, Bytes.toStr, parseJSON_encodeString, decodeString]

/-! ## Create, Update, Delete: decoding the ref -/

/-- C7: for every reference string r, when the sender's first send succeeds with the JSON
string encoding of r as the body, CreateObject, UpdateObject and DeleteObject each return
exactly r with no error, after exactly one build and one send. -/
theorem crud_returns_encoded_ref {σ Req : Type} (c : Connector σ Req) (t : RequestType)
    (obj : Option IBObject) (ref : Str) (w : World σ Req) (req1 : Req) (s1 s2 : σ) (r : Str)
    (hb1 : c.RequestBuilder.BuildRequest t obj ref { forceProxy := false } w.state =
      (Except.ok req1, s1))
    (hs1 : c.Requestor.SendRequest req1 s1 = ((some (encodeString r), none), s2)) :
    (t = CREATE → ref = [] →
        c.CreateObject obj w =
          ((r, none),
            { state := s2
              trace := w.trace ++
                [Event.build t obj ref { forceProxy := false } (Except.ok req1),
                  Event.send req1 (some (encodeString r), none)] })) ∧
      (t = UPDATE →
        c.UpdateObject obj ref w =
          ((r, none),
            { state := s2
              trace := w.trace ++
                [Event.build t obj ref { forceProxy := false } (Except.ok req1),
                  Event.send req1 (some (encodeString r), none)] })) ∧
      (t = DELETE → obj = none →
        c.DeleteObject ref w =
          ((r, none),
            { state := s2
              trace := w.trace ++
                [Event.build t obj ref { forceProxy := false } (Except.ok req1),
                  Event.send req1 (some (encodeString r), none)] })) := by
  have hm := makeRequest_send_ok c t obj ref { forceProxy := false } w req1 s1 s2
    (some (encodeString r)) hb1 hs1
  refine ⟨?_, ?_, ?_⟩
  · intro ht href
    subst ht href
    have hl : Bytes.len (some (encodeString r)) ≠ 0 := by
      simp [Bytes.len, Bytes.toStr, encodeString]
    rw [CreateObject_of_body c obj w _ _ hl hm, Unmarshal_encodeString]
  · intro ht
    subst ht
    rw [UpdateObject_of_body c obj ref w _ _ hm, Unmarshal_encodeString]
  · intro ht hobj
    subst ht hobj
    rw [DeleteObject_of_body c ref w _ _ hm, Unmarshal_encodeString]

/-- Witness for C7: the delete scenario of the tests. -/
theorem crud_returns_encoded_ref_witness :
    scriptedConnector.DeleteObject "fixedaddress/ZG5zLmJpbmRfY25h:12.0.10.1/external".toList
        (scriptedWorld
          [(some (encodeString "fixedaddress/ZG5zLmJpbmRfY25h:12.0.10.1/external".toList),
            none)]) =
      (("fixedaddress/ZG5zLmJpbmRfY25h:12.0.10.1/external".toList, none),
        { state := []
          trace :=
            [Event.build DELETE none "fixedaddress/ZG5zLmJpbmRfY25h:12.0.10.1/external".toList
                { forceProxy := false } (Except.ok "req".toList),
              Event.send "req".toList
                (some (encodeString "fixedaddress/ZG5zLmJpbmRfY25h:12.0.10.1/external".toList),
                  none)] }) :=
  (crud_returns_encoded_ref scriptedConnector DELETE none
    "fixedaddress/ZG5zLmJpbmRfY25h:12.0.10.1/external".toList
    (scriptedWorld
      [(some (encodeString "fixedaddress/ZG5zLmJpbmRfY25h:12.0.10.1/external".toList), none)])
    "req".toList _ _ "fixedaddress/ZG5zLmJpbmRfY25h:12.0.10.1/external".toList rfl rfl).2.2
    rfl rfl

/-! ## Empty response bodies -/

/-- C8: CreateObject, when the send succeeds with an empty response body (nil or of length
zero), returns the empty ref and no error; this holds for the first send, and for any round
that ends without error and with an empty body. -/
theorem CreateObject_empty_body {σ Req : Type} (c : Connector σ Req) (obj : Option IBObject)
    (w : World σ Req) (req1 : Req) (s1 s2 : σ) (resp : Bytes)
    (hb1 : c.RequestBuilder.BuildRequest CREATE obj [] { forceProxy := false } w.state =
      (Except.ok req1, s1))
    (hs1 : c.Requestor.SendRequest req1 s1 = ((resp, none), s2))
    (hlen : resp.len = 0) :
    c.CreateObject obj w =
        (([], none),
          { state := s2
            trace := w.trace ++
              [Event.build CREATE obj [] { forceProxy := false } (Except.ok req1),
                Event.send req1 (resp, none)] }) ∧
      (∀ (w0 w1 : World σ Req) (o : Option IBObject) (body : Bytes), body.len = 0 →
        c.makeRequest CREATE o [] { forceProxy := false } w0 = ((body, none), w1) →
        c.CreateObject o w0 = (([], none), w1)) :=
  ⟨CreateObject_of_empty c obj w _ resp hlen
      (makeRequest_send_ok c CREATE obj [] { forceProxy := false } w req1 s1 s2 resp hb1 hs1),
    fun w0 w1 o body hl h => CreateObject_of_empty c o w0 w1 body hl h⟩

/-- Witness for C8: the scripted sender answers a create with an empty body. -/
theorem CreateObject_empty_body_witness :
    scriptedConnector.CreateObject none (scriptedWorld [(some [], none)]) =
      (([], none),
        { state := []
          trace :=
            [Event.build CREATE none [] { forceProxy := false } (Except.ok "req".toList),
              Event.send "req".toList (some [], none)] }) :=
  (CreateObject_empty_body scriptedConnector none (scriptedWorld [(some [], none)])
    "req".toList _ _ (some []) rfl rfl rfl).1

/-- C9 fails on the code: when the send succeeds with an empty response body (of length zero,
or nil), UpdateObject and DeleteObject return a syntax error, where CreateObject returns no
error. -/
theorem UpdateObject_DeleteObject_empty_body_error :
    (scriptedConnector.UpdateObject none "network/abc".toList
        (scriptedWorld [(some [], none)])).1 = ([], some Error.jsonSyntax) ∧
    (scriptedConnector.DeleteObject "network/abc".toList
        (scriptedWorld [(some [], none)])).1 = ([], some Error.jsonSyntax) ∧
    (scriptedConnector.UpdateObject none "network/abc".toList
        (scriptedWorld [(none, none)])).1 = ([], some Error.jsonSyntax) ∧
    (scriptedConnector.DeleteObject "network/abc".toList
        (scriptedWorld [(none, none)])).1 = ([], some Error.jsonSyntax) ∧
    (scriptedConnector.CreateObject none (scriptedWorld [(some [], none)])).1 = ([], none) := by
  refine ⟨?_, ?_, ?_, ?_, ?_⟩ <;> decide

/-! ## Decode failures -/

/-- A failed decoding into a `*string` leaves the string as it was. -/
theorem Unmarshal_decodeString_error (resp : Bytes) (cur : Str) (e : Error)
    (h : (Unmarshal decodeString resp cur).2 = some e) :
    Unmarshal decodeString resp cur = (cur, some e) := by
  unfold Unmarshal at h ⊢
  cases hp : parseJSON resp.toStr with
  | none =>
    rw [hp] at h
    simp only at h ⊢
    rw [← h]
  | some j =>
    rw [hp] at h
    cases j <;> simp_all [decodeString]

/-- C10, as the code has it: when the first send succeeds with a non-empty body whose decoding
fails, the call returns the decode error and makes no further send (the trace is one build and
one send): for Create, Update and Delete whenever decoding the body into a string fails, and
for Get whenever decoding the body into the caller's result fails and the body is not an empty
JSON array. -/
theorem decode_failure_not_retried {σ Req : Type} (c : Connector σ Req) (t : RequestType)
    (obj : Option IBObject) (ref : Str) (w : World σ Req) (req1 : Req) (s1 s2 : σ)
    (resp : Bytes)
    (hb1 : c.RequestBuilder.BuildRequest t obj ref { forceProxy := false } w.state =
      (Except.ok req1, s1))
    (hs1 : c.Requestor.SendRequest req1 s1 = ((resp, none), s2))
    (hlen : resp.len ≠ 0) :
    (t = CREATE → ref = [] → ∀ e, (Unmarshal decodeString resp []).2 = some e →
        c.CreateObject obj w =
          (([], some e),
            { state := s2
              trace := w.trace ++
                [Event.build t obj ref { forceProxy := false } (Except.ok req1),
                  Event.send req1 (resp, none)] })) ∧
      (t = UPDATE → ∀ e, (Unmarshal decodeString resp []).2 = some e →
        c.UpdateObject obj ref w =
          (([], some e),
            { state := s2
              trace := w.trace ++
                [Event.build t obj ref { forceProxy := false } (Except.ok req1),
                  Event.send req1 (resp, none)] })) ∧
      (t = DELETE → obj = none → ∀ e, (Unmarshal decodeString resp []).2 = some e →
        c.DeleteObject ref w =
          (([], some e),
            { state := s2
              trace := w.trace ++
                [Event.build t obj ref { forceProxy := false } (Except.ok req1),
                  Event.send req1 (resp, none)] })) ∧
      (t = GET → ∀ (ρ : Type) (dec : Decoder ρ) (res : ρ) (e : Error),
        (Unmarshal dec resp res).2 = some e →
        (parseJSON resp.toStr).map JVal.isEmptyArray ≠ some true →
        c.GetObject obj ref dec res w =
          (((Unmarshal dec resp res).1, some e),
            { state := s2
              trace := w.trace ++
                [Event.build t obj ref { forceProxy := false } (Except.ok req1),
                  Event.send req1 (resp, none)] })) := by
  have hm := makeRequest_send_ok c t obj ref { forceProxy := false } w req1 s1 s2 resp hb1 hs1
  refine ⟨?_, ?_, ?_, ?_⟩
  · intro ht href e he
    subst ht href
    rw [CreateObject_of_body c obj w _ resp hlen hm, Unmarshal_decodeString_error resp [] e he]
  · intro ht e he
    subst ht
    rw [UpdateObject_of_body c obj ref w _ resp hm, Unmarshal_decodeString_error resp [] e he]
  · intro ht hobj e he
    subst ht hobj
    rw [DeleteObject_of_body c ref w _ resp hm, Unmarshal_decodeString_error resp [] e he]
  · intro ht ρ dec res e he hne
    subst ht
    cases hp : parseJSON resp.toStr with
    | none =>
      rw [GetObject_of_syntax_error c obj ref dec res w _ resp hp hm]
      have hu : Unmarshal dec resp res = (res, some Error.jsonSyntax) := by
        simp [Unmarshal, hp]
      rw [hu] at he ⊢
      simp only [Option.some.injEq] at he
      rw [he]
    | some j =>
      have hj : j.isEmptyArray = false := by
        cases hje : j.isEmptyArray with
        | false => rfl
        | true => exact absurd (by simp [hp, hje]) hne
      rw [GetObject_of_body c obj ref dec res w _ resp j hp hj hm]
      exact Prod.ext (Prod.ext rfl he) rfl

/-- Witness for C10 as amended: a create answered with a JSON number. -/
theorem decode_failure_not_retried_witness :
    scriptedConnector.CreateObject none
        (scriptedWorld [(some "42".toList, none), (some "\"ref\"".toList, none)]) =
      (([], some Error.jsonUnmarshalType),
        { state := [(some "\"ref\"".toList, none)]
          trace :=
            [Event.build CREATE none [] { forceProxy := false } (Except.ok "req".toList),
              Event.send "req".toList (some "42".toList, none)] }) :=
  (decode_failure_not_retried scriptedConnector CREATE none []
    (scriptedWorld [(some "42".toList, none), (some "\"ref\"".toList, none)])
    "req".toList _ _ (some "42".toList) rfl rfl (by decide)).1 rfl rfl
    Error.jsonUnmarshalType (by decide)

/-- C10, as stated, fails for Get: the first send succeeds with the non-empty body `[]`, which
does not decode into the caller's result (here a string: a type error), yet GetObject makes a
second, forced-proxy send and returns what that one yields, not a decode error. -/
theorem GetObject_empty_array_retried_despite_shape :
    Unmarshal decodeString (some "[]".toList) [] = ([], some Error.jsonUnmarshalType) ∧
    scriptedConnector.GetObject none "network/abc".toList decodeString []
        (scriptedWorld [(some "[]".toList, none), (some "\"x\"".toList, none)]) =
      (("x".toList, none),
        { state := []
          trace :=
            [Event.build GET none "network/abc".toList { forceProxy := false }
                (Except.ok "req".toList),
              Event.send "req".toList (some "[]".toList, none),
              Event.build GET none "network/abc".toList { forceProxy := true }
                (Except.ok "req".toList),
              Event.send "req".toList (some "\"x\"".toList, none)] }) := by
  refine ⟨?_, ?_⟩ <;> rfl

/-! ## The URLs of the request builder -/


/-- For an operation other than GET the URL has no query, whatever the return fields and the
query options are. -/
theorem BuildURL_not_GET (wrb : WapiRequestBuilder) (t : RequestType) (objType ref : Str)
    (rf : List Str) (qp : QueryParams) (ht : t ≠ GET) :
    wrb.BuildURL t objType ref rf qp = wrb.urlWithoutQuery objType ref := by
  have hc : CREATE ≠ GET := by decide
  simp [WapiRequestBuilder.urlWithoutQuery, WapiRequestBuilder.BuildURL, ht, hc]

/-- A non-empty raw query is appended to the rest of the URL after a question mark. -/
theorem URL_String_query (sch host path q : Str) (hq : q ≠ []) :
    URL.String { Scheme := sch, Host := host, Path := path, RawQuery := q } =
      URL.String { Scheme := sch, Host := host, Path := path, RawQuery := [] } ++ '?' :: q := by
  simp [URL.String, URL.EscapedPath, hq]

/-- Encoding of the `_return_fields` parameter alone. -/
theorem encode_return_fields (v : Str) :
    Values.Encode [("_return_fields".toList, [v])] = "_return_fields=".toList ++ QueryEscape v := by
  rfl

/-- Encoding of the `_proxy_search` parameter alone. -/
theorem encode_proxy :
    Values.Encode [("_proxy_search".toList, ["GM".toList])] = "_proxy_search=GM".toList := by
  rfl

/-- Encoding of both parameters: `_proxy_search` sorts first. -/
theorem encode_both (v : Str) :
    Values.Encode [("_return_fields".toList, [v]), ("_proxy_search".toList, ["GM".toList])] =
      "_proxy_search=GM&_return_fields=".toList ++ QueryEscape v := by
  rfl

/-- The URL of a GET: the URL without query, followed by the query, in which forceProxy adds
`_proxy_search=GM` in front. -/
theorem BuildURL_GET (wrb : WapiRequestBuilder) (objType ref : Str) (rf : List Str) :
    wrb.BuildURL GET objType ref rf { forceProxy := false } =
        wrb.urlWithoutQuery objType ref ++
          (if rf.length > 0 then '?' :: returnFieldsParam rf else []) ∧
      wrb.BuildURL GET objType ref rf { forceProxy := true } =
        wrb.urlWithoutQuery objType ref ++ "?_proxy_search=GM".toList ++
          (if rf.length > 0 then '&' :: returnFieldsParam rf else []) := by
  have hq1 : returnFieldsParam rf ≠ [] := by simp [returnFieldsParam]
  have hq2 : "_proxy_search=GM".toList ≠ [] := by decide
  have hq3 : "_proxy_search=GM&".toList ++ returnFieldsParam rf ≠ [] := by simp
  by_cases hrf : rf.length > 0
  · rw [if_pos hrf, if_pos hrf]
    constructor
    · simp only [WapiRequestBuilder.BuildURL, if_pos hrf]
      exact URL_String_query _ _ _ _ hq1
    · simp only [WapiRequestBuilder.BuildURL, if_pos hrf]
      exact (URL_String_query _ _ _ _ hq3).trans
        (by simp [WapiRequestBuilder.urlWithoutQuery, WapiRequestBuilder.BuildURL]; rfl)
  · rw [if_neg hrf, if_neg hrf]
    constructor
    · simp only [WapiRequestBuilder.BuildURL, if_neg hrf]
      simp [WapiRequestBuilder.urlWithoutQuery, WapiRequestBuilder.BuildURL]; rfl
    · simp only [WapiRequestBuilder.BuildURL, if_neg hrf]
      exact (URL_String_query _ _ _ _ hq2).trans
        (by simp [WapiRequestBuilder.urlWithoutQuery, WapiRequestBuilder.BuildURL]; rfl)

/-- An ASCII character that is left unescaped is a plain URL character. -/
theorem shouldEscape_false_plain : ∀ n, n < 128 → ∀ mode : Encoding,
    shouldEscape (Char.ofNat n) mode = false → isPlainURLChar (Char.ofNat n) = true := by
  intro n hn mode
  cases mode <;> revert n <;> decide

/-- Hexadecimal digits are plain URL characters. -/
theorem upperHexDigit_plain : ∀ n, n < 16 → isPlainURLChar (upperHexDigit n) = true := by
  decide

/-- A percent-encoded byte consists of plain URL characters. -/
theorem percentByte_plain (b : Nat) (hb : b < 256) :
    ∀ x ∈ percentByte b, isPlainURLChar x = true := by
  intro x hx
  simp only [percentByte, List.mem_cons, List.mem_singleton, List.not_mem_nil, or_false] at hx
  rcases hx with h | h | h
  · subst h; decide
  · subst h; exact upperHexDigit_plain _ (by omega)
  · subst h; exact upperHexDigit_plain _ (by omega)

/-- Code points are below 0x110000. -/
theorem Char_toNat_lt (c : Char) : c.toNat < 0x110000 := by
  have h := c.valid
  simp only [UInt32.isValidChar, Nat.isValidChar] at h
  have : c.toNat = c.val.toNat := rfl
  omega

/-- UTF-8 bytes are bytes. -/
theorem utf8Bytes_lt (c : Char) : ∀ b ∈ utf8Bytes c, b < 256 := by
  have hc := Char_toNat_lt c
  intro b hb
  unfold utf8Bytes at hb
  simp only at hb
  split at hb
  · simp at hb; omega
  · split at hb
    · simp at hb; omega
    · split at hb
      · simp at hb; omega
      · simp at hb; omega

/-- The escaping of a character consists of plain URL characters. -/
theorem escapeChar_plain (mode : Encoding) (c : Char) :
    ∀ x ∈ escapeChar mode c, isPlainURLChar x = true := by
  intro x hx
  unfold escapeChar at hx
  split at hx
  · rename_i hlt
    split at hx
    · split at hx
      · simp at hx; subst hx; decide
      · exact percentByte_plain _ (by omega) x hx
    · rename_i hse
      simp at hx
      subst hx
      have := shouldEscape_false_plain x.toNat hlt mode
      rw [Char.ofNat_toNat] at this
      exact this (by simpa using hse)
  · simp only [List.mem_flatMap] at hx
    obtain ⟨b, hb, hxb⟩ := hx
    exact percentByte_plain b (utf8Bytes_lt c b hb) x hxb

/-- Escaped text consists of plain URL characters. -/
theorem escape_plain (s : Str) (mode : Encoding) :
    ∀ x ∈ escape s mode, isPlainURLChar x = true := by
  intro x hx
  simp only [escape, List.mem_flatMap] at hx
  obtain ⟨c, _, hxc⟩ := hx
  exact escapeChar_plain mode c x hxc

/-- Escaped text consists of plain URL characters, as a Boolean test. -/
theorem all_plain_escape (s : Str) (mode : Encoding) :
    (escape s mode).all isPlainURLChar = true :=
  List.all_eq_true.mpr (escape_plain s mode)

/-- A test that holds of both branches holds of the conditional. -/
theorem all_ite {p : Prop} [Decidable p] (a b : Str) (f : Char → Bool)
    (ha : a.all f = true) (hb : b.all f = true) : (if p then a else b).all f = true := by
  split <;> assumption

/-- A test that holds of both parts holds of the concatenation. -/
theorem all_append_of {a b : Str} {f : Char → Bool}
    (ha : a.all f = true) (hb : b.all f = true) : (a ++ b).all f = true := by
  simp [List.all_append, ha, hb]

/-- A URL without query, with a plain scheme, consists of plain URL characters. -/
theorem URL_String_plain (sch host path : Str) (hs : sch.all isPlainURLChar = true) :
    List.all (URL.String { Scheme := sch, Host := host, Path := path, RawQuery := [] })
      isPlainURLChar = true := by
  have hh := all_plain_escape host Encoding.encodeHost
  have hp := all_plain_escape path Encoding.encodePath
  have hpath : (URL.EscapedPath { Scheme := sch, Host := host, Path := path, RawQuery := [] }).all
      isPlainURLChar = true := by
    unfold URL.EscapedPath
    exact all_ite _ _ _ (by decide) hp
  unfold URL.String
  generalize URL.EscapedPath { Scheme := sch, Host := host, Path := path, RawQuery := [] } = ep
    at hpath ⊢
  dsimp only
  rw [if_neg (by simp)]
  repeat' (first | exact hs | exact hh | exact hpath | apply all_ite | apply all_append_of |
    decide)

/-- The URL the builder makes without query consists of plain URL characters. -/
theorem urlWithoutQuery_plain (wrb : WapiRequestBuilder) (objType ref : Str) :
    (wrb.urlWithoutQuery objType ref).all isPlainURLChar = true := by
  have hc : CREATE ≠ GET := by decide
  simp only [WapiRequestBuilder.urlWithoutQuery, WapiRequestBuilder.BuildURL, if_neg hc]
  exact URL_String_plain _ _ _ (by decide)

/-- Cutting at a character that does not occur leaves the text whole. -/
theorem cutAt_of_absent (sep : Char) (s : Str) (h : ∀ x ∈ s, x ≠ sep) :
    cutAt sep s = (s, []) := by
  induction s with
  | nil => rfl
  | cons c cs ih =>
    have hc : c ≠ sep := h c (List.mem_cons_self _ _)
    have ih' := ih (fun x hx => h x (List.mem_cons_of_mem _ hx))
    simp [cutAt, hc, ih']

/-- Cutting at the first occurrence of a character. -/
theorem cutAt_append (sep : Char) (s r : Str) (h : ∀ x ∈ s, x ≠ sep) :
    cutAt sep (s ++ sep :: r) = (s, r) := by
  induction s with
  | nil => simp [cutAt]
  | cons c cs ih =>
    have hc : c ≠ sep := h c (List.mem_cons_self _ _)
    have ih' := ih (fun x hx => h x (List.mem_cons_of_mem _ hx))
    simp [cutAt, hc, ih']

/-- Plain URL characters are not `#`. -/
theorem plain_ne_hash {s : Str} (h : s.all isPlainURLChar = true) : ∀ x ∈ s, x ≠ '#' := by
  intro x hx hxe
  have := List.all_eq_true.mp h x hx
  subst hxe
  exact absurd this (by decide)

/-- Plain URL characters are not `?`. -/
theorem plain_ne_question {s : Str} (h : s.all isPlainURLChar = true) : ∀ x ∈ s, x ≠ '?' := by
  intro x hx hxe
  have := List.all_eq_true.mp h x hx
  subst hxe
  exact absurd this (by decide)

/-- Plain URL characters are not control characters. -/
theorem plain_no_CTL {s : Str} (h : s.all isPlainURLChar = true) : containsCTL s = false := by
  rw [containsCTL, Bool.eq_false_iff]
  intro hany
  obtain ⟨x, hx, hctl⟩ := List.any_eq_true.mp hany
  have := List.all_eq_true.mp h x hx
  simp [isPlainURLChar, hctl] at this

/-- Parsing a URL of plain characters is the check of scheme, authority and path. -/
theorem urlParseError_plain (lib : NetURL) (u : Str) (hu : u.all isPlainURLChar = true) :
    urlParseError lib u = lib.hierError u := by
  simp only [urlParseError, cutAt_of_absent '#' u (plain_ne_hash hu), plain_no_CTL hu,
    cutAt_of_absent '?' u (plain_ne_question hu)]
  cases lib.hierError u <;> simp

/-- Parsing a URL of plain characters with a plain query is the check of scheme, authority and
path of the part before the query. -/
theorem urlParseError_plain_query (lib : NetURL) (u q : Str)
    (hu : u.all isPlainURLChar = true) (hq : q.all isPlainURLChar = true) :
    urlParseError lib (u ++ '?' :: q) = lib.hierError u := by
  have hno : ∀ x ∈ u ++ '?' :: q, x ≠ '#' := by
    intro x hx
    rcases List.mem_append.mp hx with h | h
    · exact plain_ne_hash hu x h
    · rcases List.mem_cons.mp h with h | h
      · subst h; decide
      · exact plain_ne_hash hq x h
  have hctl : containsCTL (u ++ '?' :: q) = false := by
    have h1 := plain_no_CTL hu
    have h2 := plain_no_CTL hq
    simp only [containsCTL] at h1 h2 ⊢
    simp [List.any_append, h1, h2, isCTL]
  simp only [urlParseError, cutAt_of_absent '#' _ hno, hctl,
    cutAt_append '?' u q (plain_ne_question hu)]
  cases lib.hierError u <;> simp

/-- The `_return_fields` parameter consists of plain URL characters. -/
theorem returnFieldsParam_plain (rf : List Str) :
    (returnFieldsParam rf).all isPlainURLChar = true := by
  unfold returnFieldsParam
  exact all_append_of (by decide) (all_plain_escape _ _)

/-- Whether the URL of a GET parses does not depend on its query: it is the check of scheme,
authority and path of the URL without query. -/
theorem BuildURL_GET_parse (lib : NetURL) (wrb : WapiRequestBuilder) (objType ref : Str)
    (rf : List Str) (qp : QueryParams) :
    urlParseError lib (wrb.BuildURL GET objType ref rf qp) =
      lib.hierError (wrb.urlWithoutQuery objType ref) := by
  have hu := urlWithoutQuery_plain wrb objType ref
  have hr := returnFieldsParam_plain rf
  obtain ⟨h1, h2⟩ := BuildURL_GET wrb objType ref rf
  cases qp with
  | mk fp =>
    cases fp with
    | false =>
      rw [h1]
      by_cases hrf : rf.length > 0
      · rw [if_pos hrf]
        exact urlParseError_plain_query lib _ _ hu hr
      · rw [if_neg hrf, List.append_nil]
        exact urlParseError_plain lib _ hu
    | true =>
      rw [h2]
      by_cases hrf : rf.length > 0
      · rw [if_pos hrf]
        have := urlParseError_plain_query lib (wrb.urlWithoutQuery objType ref)
          ("_proxy_search=GM&".toList ++ returnFieldsParam rf) hu
          (all_append_of (by decide) hr)
        simpa using this
      · rw [if_neg hrf, List.append_nil]
        have := urlParseError_plain_query lib (wrb.urlWithoutQuery objType ref)
          "_proxy_search=GM".toList hu (by decide)
        simpa using this

/-- For an operation other than GET the built request does not depend on the query options. -/
theorem BuildRequest_not_GET (lib : NetURL) (wrb : WapiRequestBuilder) (t : RequestType)
    (obj : Option IBObject) (ref : Str) (qp qp2 : QueryParams) (ht : t ≠ GET) :
    wrb.BuildRequest lib t obj ref qp = wrb.BuildRequest lib t obj ref qp2 := by
  simp only [WapiRequestBuilder.BuildRequest, BuildURL_not_GET wrb t _ ref _ _ ht]

/-- For a GET, when the request builds with forceProxy=false it also builds with
forceProxy=true, and the two requests differ in the URL only. -/
theorem BuildRequest_GET_forced (lib : NetURL) (wrb : WapiRequestBuilder)
    (obj : Option IBObject) (ref : Str) (req1 : Request)
    (h : wrb.BuildRequest lib GET obj ref { forceProxy := false } = Except.ok req1) :
    wrb.BuildRequest lib GET obj ref { forceProxy := true } =
      Except.ok { req1 with
        URL := wrb.BuildURL GET (objTypeOf obj) ref (returnFieldsOf obj)
          { forceProxy := true } } ∧
    req1.URL =
      wrb.BuildURL GET (objTypeOf obj) ref (returnFieldsOf obj) { forceProxy := false } := by
  have hm : GET.toMethod = "GET".toList := rfl
  have hne : "GET".toList ≠ [] := by decide
  have hv : validMethod "GET".toList = true := by decide
  cases obj with
  | none =>
    simp only [WapiRequestBuilder.BuildRequest, NewRequest, hm, if_neg hne, hv,
      BuildURL_GET_parse, objTypeOf, returnFieldsOf] at h ⊢
    cases hh : lib.hierError (wrb.urlWithoutQuery [] ref) with
    | some e => simp [hh] at h
    | none =>
      simp only [hh, not_true_eq_false, if_false, Except.ok.injEq] at h ⊢
      subst h
      simp [Request.SetBasicAuth]
  | some o =>
    simp only [WapiRequestBuilder.BuildRequest, NewRequest, hm, if_neg hne, hv,
      BuildURL_GET_parse, objTypeOf, returnFieldsOf] at h ⊢
    cases hh : lib.hierError (wrb.urlWithoutQuery o.ObjectType ref) with
    | some e => simp [hh] at h
    | none =>
      simp only [hh, not_true_eq_false, if_false, Except.ok.injEq] at h ⊢
      subst h
      simp [Request.SetBasicAuth]

/-! ## The forced-proxy retry -/

/-- C2, as the code has it: in `makeRequest`, whenever the first send returns an error, the
request is rebuilt with the same operation, object and ref and with forceProxy=true; when that
build fails its error is returned without a second send, and otherwise the rebuilt request is
sent exactly once more and the result of that send is the result of the round. With
WapiRequestBuilder the rebuild always succeeds, and the second request is identical to the
first (method, URL, headers, body) for every operation other than Get, and differs from the
first only in the URL for Get, where `_proxy_search=GM` is added in front of the query. -/
theorem makeRequest_retry_rebuilds_with_forced_proxy {σ Req τ : Type}
    (c : Connector σ Req) (t : RequestType) (obj : Option IBObject) (ref : Str)
    (qp : QueryParams) (w : World σ Req) (req : Req) (s1 s2 : σ) (res : Bytes) (err : Error)
    (hb : c.RequestBuilder.BuildRequest t obj ref qp w.state = (Except.ok req, s1))
    (hs : c.Requestor.SendRequest req s1 = ((res, some err), s2))
    (cw : Connector τ Request) (lib : NetURL) (wrb : WapiRequestBuilder) (tw : RequestType)
    (objw : Option IBObject) (refw : Str) (ww : World τ Request) (reqw : Request)
    (t1 t2 t3 : τ) (resw : Bytes) (errw : Error)
    (hbw1 : cw.RequestBuilder.BuildRequest tw objw refw { forceProxy := false } ww.state =
      (wrb.BuildRequest lib tw objw refw { forceProxy := false }, t1))
    (hreqw : wrb.BuildRequest lib tw objw refw { forceProxy := false } = Except.ok reqw)
    (hsw : cw.Requestor.SendRequest reqw t1 = ((resw, some errw), t2))
    (hbw2 : cw.RequestBuilder.BuildRequest tw objw refw { forceProxy := true } t2 =
      (wrb.BuildRequest lib tw objw refw { forceProxy := true }, t3)) :
    (∀ (e : Error) (s3 : σ),
        c.RequestBuilder.BuildRequest t obj ref { qp with forceProxy := true } s2 =
          (Except.error e, s3) →
        c.makeRequest t obj ref qp w =
          ((res, some e),
            { state := s3
              trace := w.trace ++
                [Event.build t obj ref qp (Except.ok req), Event.send req (res, some err),
                  Event.build t obj ref { qp with forceProxy := true } (Except.error e)] })) ∧
      (∀ (req2 : Req) (s3 s4 : σ) (r2 : Bytes × Option Error),
        c.RequestBuilder.BuildRequest t obj ref { qp with forceProxy := true } s2 =
          (Except.ok req2, s3) →
        c.Requestor.SendRequest req2 s3 = (r2, s4) →
        c.makeRequest t obj ref qp w =
          (r2,
            { state := s4
              trace := w.trace ++
                [Event.build t obj ref qp (Except.ok req), Event.send req (res, some err),
                  Event.build t obj ref { qp with forceProxy := true } (Except.ok req2),
                  Event.send req2 r2] })) ∧
      (∃ req2 : Request,
        wrb.BuildRequest lib tw objw refw { forceProxy := true } = Except.ok req2 ∧
        cw.makeRequest tw objw refw { forceProxy := false } ww =
          ((cw.Requestor.SendRequest req2 t3).1,
            { state := (cw.Requestor.SendRequest req2 t3).2
              trace := ww.trace ++
                [Event.build tw objw refw { forceProxy := false } (Except.ok reqw),
                  Event.send reqw (resw, some errw),
                  Event.build tw objw refw { forceProxy := true } (Except.ok req2),
                  Event.send req2 (cw.Requestor.SendRequest req2 t3).1] }) ∧
        (tw ≠ GET → req2 = reqw) ∧
        (tw = GET →
          req2.Method = reqw.Method ∧ req2.Header = reqw.Header ∧ req2.Body = reqw.Body ∧
          reqw.URL =
            wrb.urlWithoutQuery (objTypeOf objw) refw ++
              (if (returnFieldsOf objw).length > 0 then
                '?' :: returnFieldsParam (returnFieldsOf objw) else []) ∧
          req2.URL =
            wrb.urlWithoutQuery (objTypeOf objw) refw ++ "?_proxy_search=GM".toList ++
              (if (returnFieldsOf objw).length > 0 then
                '&' :: returnFieldsParam (returnFieldsOf objw) else []))) := by
  refine ⟨fun e s3 hb2 => makeRequest_rebuild_error c t obj ref qp w req s1 s2 s3 res err e
      hb hs hb2,
    fun req2 s3 s4 r2 hb2 hs2 => makeRequest_retry c t obj ref qp w req req2 s1 s2 s3 s4 res
      err r2 hb hs hb2 hs2, ?_⟩
  have hround : ∀ req2 : Request,
      wrb.BuildRequest lib tw objw refw { forceProxy := true } = Except.ok req2 →
      cw.makeRequest tw objw refw { forceProxy := false } ww =
        ((cw.Requestor.SendRequest req2 t3).1,
          { state := (cw.Requestor.SendRequest req2 t3).2
            trace := ww.trace ++
              [Event.build tw objw refw { forceProxy := false } (Except.ok reqw),
                Event.send reqw (resw, some errw),
                Event.build tw objw refw { forceProxy := true } (Except.ok req2),
                Event.send req2 (cw.Requestor.SendRequest req2 t3).1] }) := by
    intro req2 h2
    rw [hreqw] at hbw1
    rw [h2] at hbw2
    exact makeRequest_retry cw tw objw refw { forceProxy := false } ww reqw req2 t1 t2 t3 _
      resw errw _ hbw1 hsw hbw2 rfl
  by_cases ht : tw = GET
  · subst ht
    obtain ⟨h2, hurl⟩ := BuildRequest_GET_forced lib wrb objw refw reqw hreqw
    obtain ⟨u1, u2⟩ := BuildURL_GET wrb (objTypeOf objw) refw (returnFieldsOf objw)
    refine ⟨_, h2, hround _ h2, fun h => absurd rfl h, fun _ => ⟨rfl, rfl, rfl, ?_, ?_⟩⟩
    · rw [hurl, u1]
    · exact u2
  · have h2 : wrb.BuildRequest lib tw objw refw { forceProxy := true } = Except.ok reqw := by
      rw [BuildRequest_not_GET lib wrb tw objw refw { forceProxy := true }
        { forceProxy := false } ht, hreqw]
    exact ⟨reqw, h2, hround reqw h2, fun _ => rfl, fun h => absurd h ht⟩

/-- Witness for C2: a create over the fixed-request builder, and a GET of a network over the
WAPI builder, each with a sender that fails the first send. -/
theorem makeRequest_retry_rebuilds_with_forced_proxy_witness :
    ∃ req2 : Request,
      (WapiRequestBuilder.mk sampleHostConfig).BuildRequest lenientNetURL GET
          (some sampleNetwork) [] { forceProxy := true } = Except.ok req2 ∧
        req2.URL = ("https://172.22.18.66:443/wapi/v2.2/network?_proxy_search=GM" ++
          "&_return_fields=extattrs%2Cnetwork%2Cnetwork_view").toList := by
  obtain ⟨req2, h2, _, _, hget⟩ :=
    (makeRequest_retry_rebuilds_with_forced_proxy scriptedConnector CREATE none []
      { forceProxy := false } (scriptedWorld (failThen "\"r\"".toList)) "req".toList _ _ none
      (Error.other "connection refused".toList) rfl rfl
      wapiScriptedConnector lenientNetURL { HostConfig := sampleHostConfig } GET
      (some sampleNetwork) [] (wapiScriptedWorld (failThen "[]".toList)) _ _ _ _ none
      (Error.other "connection refused".toList) rfl rfl rfl rfl).2.2
  exact ⟨req2, h2, (hget rfl).2.2.2.2.trans (by decide)⟩

/-- C2, as stated, fails when the rebuild fails: the first send returns an error, the build
with forceProxy=true returns an error, and the round ends with the error of that build after
the one send; no second send is made. -/
theorem makeRequest_failed_rebuild_single_send :
    proxyRefusingConnector.makeRequest CREATE none [] { forceProxy := false }
        { state := (), trace := [] } =
      ((none, some (Error.other "cannot build request".toList)),
        { state := ()
          trace :=
            [Event.build CREATE none [] { forceProxy := false } (Except.ok "req".toList),
              Event.send "req".toList (none, some (Error.other "connection refused".toList)),
              Event.build CREATE none [] { forceProxy := true }
                (Except.error (Error.other "cannot build request".toList))] }) ∧
    sends (proxyRefusingConnector.makeRequest CREATE none [] { forceProxy := false }
        { state := (), trace := [] }).2.trace = ["req".toList] := by
  refine ⟨rfl, by decide⟩

/-! ## Get: decoding the first response -/

/-- C11: GetObject, when the first send succeeds with a body that is valid JSON other than an
empty array, makes exactly one build and one send, with forceProxy=false, and its outcome is
the decoding of that body into the caller-supplied result; so it returns no error when the
body fits the result's shape, that is when the decoding reports none. -/
theorem GetObject_decodes_first_body {σ Req ρ : Type} (c : Connector σ Req)
    (obj : Option IBObject) (ref : Str) (dec : Decoder ρ) (res : ρ) (w : World σ Req)
    (req1 : Req) (s1 s2 : σ) (resp : Bytes) (j : JVal)
    (hb1 : c.RequestBuilder.BuildRequest GET obj ref { forceProxy := false } w.state =
      (Except.ok req1, s1))
    (hs1 : c.Requestor.SendRequest req1 s1 = ((resp, none), s2))
    (hp : parseJSON resp.toStr = some j) (hj : j.isEmptyArray = false) :
    c.GetObject obj ref dec res w =
        (dec j res,
          { state := s2
            trace := w.trace ++
              [Event.build GET obj ref { forceProxy := false } (Except.ok req1),
                Event.send req1 (resp, none)] }) ∧
      Unmarshal dec resp res = dec j res ∧
      ((dec j res).2 = none → (c.GetObject obj ref dec res w).1.2 = none) := by
  have hm := makeRequest_send_ok c GET obj ref { forceProxy := false } w req1 s1 s2 resp hb1 hs1
  have hu : Unmarshal dec resp res = dec j res := by simp [Unmarshal, hp]
  have hg := GetObject_of_body c obj ref dec res w _ resp j hp hj hm
  rw [hu] at hg
  refine ⟨hg, hu, fun hfit => ?_⟩
  rw [hg]
  exact hfit

/-- Witness for C11: the scripted sender answers a get with a populated array. -/
theorem GetObject_decodes_first_body_witness :
    scriptedConnector.GetObject none [] (decodeSlice [] decodeString) []
        (scriptedWorld [(some "[\"a\",\"b\"]".toList, none)]) =
      ((["a".toList, "b".toList], none),
        { state := []
          trace :=
            [Event.build GET none [] { forceProxy := false } (Except.ok "req".toList),
              Event.send "req".toList (some "[\"a\",\"b\"]".toList, none)] }) :=
  ((GetObject_decodes_first_body scriptedConnector none [] (decodeSlice [] decodeString) []
    (scriptedWorld [(some "[\"a\",\"b\"]".toList, none)]) "req".toList _ _
    (some "[\"a\",\"b\"]".toList) (JVal.arr [JVal.str "a".toList, JVal.str "b".toList])
    rfl rfl rfl rfl).1).trans (by rfl)

/-! ## The table of HTTP methods -/

/-- C20: `toMethod` maps CREATE to POST, GET to GET, DELETE to DELETE and UPDATE to PUT, four
distinct methods, and returns the empty string for every other RequestType value. -/
theorem toMethod_table (r : RequestType)
    (hr : r ≠ CREATE ∧ r ≠ GET ∧ r ≠ DELETE ∧ r ≠ UPDATE) :
    CREATE.toMethod = "POST".toList ∧ GET.toMethod = "GET".toList ∧
      DELETE.toMethod = "DELETE".toList ∧ UPDATE.toMethod = "PUT".toList ∧
      [CREATE.toMethod, GET.toMethod, DELETE.toMethod, UPDATE.toMethod].Nodup ∧
      r.toMethod = [] := by
  refine ⟨rfl, rfl, rfl, rfl, by decide, ?_⟩
  simp [RequestType.toMethod, hr.1, hr.2.1, hr.2.2.1, hr.2.2.2]

/-- Witness for C20: the RequestType values 4 and -1 are none of the four operations. -/
theorem toMethod_table_witness :
    (RequestType.mk 4).toMethod = [] ∧ (RequestType.mk (-1)).toMethod = [] :=
  ⟨(toMethod_table ⟨4⟩ (by decide)).2.2.2.2.2, (toMethod_table ⟨-1⟩ (by decide)).2.2.2.2.2⟩

/-! ## The body of the request builder -/

/-- C15: for every object that serializes, BuildBody returns exactly the object's JSON
whenever the operation is not Get (so for Create, Update and Delete), whatever search filter
the object has, and also when the operation is Get and the search filter is empty; for an
operation other than Get the body does not depend on the search filter at all. -/
theorem BuildBody_is_object_json (wrb : WapiRequestBuilder) (t : RequestType) (obj : IBObject)
    (objJSON : Str) (hm : obj.MarshalJSON = Except.ok objJSON)
    (h : t ≠ GET ∨ obj.EaSearch.len = 0) :
    wrb.BuildBody t obj = some objJSON ∧
      (t ≠ GET → ∀ ea : EASearch, wrb.BuildBody t { obj with EaSearch := ea } = some objJSON) := by
  constructor
  · rcases h with h | h
    · simp [WapiRequestBuilder.BuildBody, hm, h]
    · simp [WapiRequestBuilder.BuildBody, hm, h]
  · intro ht ea
    simp [WapiRequestBuilder.BuildBody, hm, ht]

/-- Witness for C15: a create of an object that has a search filter. -/
theorem BuildBody_is_object_json_witness :
    (WapiRequestBuilder.mk sampleHostConfig).BuildBody CREATE sampleNetworkSearch =
      some "\x7b\"network_view\":\"v\",\"network\":\"c\"\x7d".toList :=
  (BuildBody_is_object_json ⟨sampleHostConfig⟩ CREATE sampleNetworkSearch _ rfl
    (Or.inl (by decide))).1

/-- C16: for a Get of an object with a non-empty search filter, when object and filter
serialize (to JSON that is not empty, as always), BuildBody returns the object's JSON with its
final byte removed, followed by a comma, followed by the filter's JSON with its first byte
removed; so the base `{"network_view":"v","network":"c"}` and the filter `{"*k":"x"}` give
`{"network_view":"v","network":"c","*k":"x"}`. -/
theorem BuildBody_splices_filter (wrb : WapiRequestBuilder) (obj : IBObject)
    (objJSON eaSearchJSON : Str) (hm : obj.MarshalJSON = Except.ok objJSON)
    (he : obj.EaSearch.MarshalJSON = Except.ok eaSearchJSON) (hlen : obj.EaSearch.len > 0)
    (hj : objJSON ≠ []) (hne : eaSearchJSON ≠ []) :
    wrb.BuildBody GET obj = some (objJSON.dropLast ++ [','] ++ eaSearchJSON.tail) ∧
      objJSON.dropLast ++ [objJSON.getLast hj] = objJSON ∧
      eaSearchJSON.head hne :: eaSearchJSON.tail = eaSearchJSON ∧
      wrb.BuildBody GET sampleNetworkSearch =
        some "\x7b\"network_view\":\"v\",\"network\":\"c\",\"*k\":\"x\"\x7d".toList := by
  refine ⟨?_, List.dropLast_append_getLast hj, List.head_cons_tail _ hne, rfl⟩
  simp [WapiRequestBuilder.BuildBody, hm, he, hlen]

/-- Witness for C16: the sample search. -/
theorem BuildBody_splices_filter_witness :
    (WapiRequestBuilder.mk sampleHostConfig).BuildBody GET sampleNetworkSearch =
      some ("\x7b\"network_view\":\"v\",\"network\":\"c\"\x7d".toList.dropLast ++ [','] ++
        "\x7b\"*k\":\"x\"\x7d".toList.tail) :=
  (BuildBody_splices_filter ⟨sampleHostConfig⟩ sampleNetworkSearch _ _ rfl rfl (by decide)
    (by decide) (by decide)).1

/-- C17 fails on the code for an object without members: the object's JSON `{}` and the
filter's JSON `{"*k":"x"}` are both flat JSON objects, and the body that BuildBody makes for a
Get is `{,"*k":"x"}`, which is not JSON; whereas with a base of two members the body is the
JSON object of the members of both, in order. -/
theorem BuildBody_empty_object_not_json :
    parseJSON "\x7b\x7d".toList = some (JVal.obj []) ∧
    parseJSON "\x7b\"*k\":\"x\"\x7d".toList =
      some (JVal.obj [("*k".toList, JVal.str "x".toList)]) ∧
    (WapiRequestBuilder.mk sampleHostConfig).BuildBody GET sampleFilterOnlySearch =
      some "\x7b,\"*k\":\"x\"\x7d".toList ∧
    parseJSON "\x7b,\"*k\":\"x\"\x7d".toList = none ∧
    parseJSON ((WapiRequestBuilder.mk sampleHostConfig).BuildBody GET
        sampleNetworkSearch).toStr =
      some (JVal.obj [("network_view".toList, JVal.str "v".toList),
        ("network".toList, JVal.str "c".toList), ("*k".toList, JVal.str "x".toList)]) := by
  refine ⟨rfl, rfl, by decide, rfl, rfl⟩

/-! ## The parts of a built URL and of a built request -/


/-- A character that needs no escaping is escaped to itself. -/
theorem escapeChar_of_needsNoEscape (mode : Encoding) (c : Char)
    (h : needsNoEscape mode c = true) : escapeChar mode c = [c] := by
  simp only [needsNoEscape, Bool.and_eq_true, decide_eq_true_eq, Bool.not_eq_true'] at h
  simp [escapeChar, h.1, h.2]

/-- Text of characters that need no escaping is escaped to itself. -/
theorem escape_of_needsNoEscape (mode : Encoding) (s : Str)
    (h : ∀ c ∈ s, needsNoEscape mode c = true) : escape s mode = s := by
  induction s with
  | nil => rfl
  | cons c cs ih =>
    have hc := escapeChar_of_needsNoEscape mode c (h c (List.mem_cons_self _ _))
    have ih' := ih (fun x hx => h x (List.mem_cons_of_mem _ hx))
    simp only [escape, List.flatMap_cons] at ih' ⊢
    rw [hc, ih']
    rfl

/-- Text of characters that need no escaping is escaped to itself, with the Boolean test. -/
theorem escape_of_all (mode : Encoding) (s : Str)
    (h : s.all (needsNoEscape mode) = true) : escape s mode = s :=
  escape_of_needsNoEscape mode s (fun c hc => List.all_eq_true.mp h c hc)

/-- A test that holds of a concatenation holds of its first part. -/
theorem all_of_append_left {a b : Str} {f : Char → Bool} (h : (a ++ b).all f = true) :
    a.all f = true := by
  rw [List.all_append, Bool.and_eq_true] at h
  exact h.1

/-- A test that holds of a concatenation holds of its second part. -/
theorem all_of_append_right {a b : Str} {f : Char → Bool} (h : (a ++ b).all f = true) :
    b.all f = true := by
  rw [List.all_append, Bool.and_eq_true] at h
  exact h.2

/-- The text of an https URL without query whose host is not empty and whose path needs no
escaping and does not start with a slash. -/
theorem URL_String_https (host path : Str) (hh : host ≠ []) (hstar : path ≠ ['*'])
    (he : escape path Encoding.encodePath = path) (hp : path ≠ [])
    (hhead : path.head? ≠ some '/') :
    URL.String { Scheme := "https".toList, Host := host, Path := path, RawQuery := [] } =
      "https://".toList ++ escape host Encoding.encodeHost ++ ['/'] ++ path := by
  have hs : "https".toList ≠ [] := by decide
  unfold URL.String URL.EscapedPath
  simp only [if_neg hstar, he]
  simp [hh, hp, hhead]

/-- The URL without query, for a host configuration, object type and ref that need no
escaping. -/
theorem urlWithoutQuery_eq (wrb : WapiRequestBuilder) (objType ref : Str)
    (hhost : ∀ c ∈ wrb.HostConfig.Host ++ wrb.HostConfig.Port,
      needsNoEscape Encoding.encodeHost c = true)
    (hpath : ∀ c ∈ wrb.HostConfig.Version ++ objType ++ ref,
      needsNoEscape Encoding.encodePath c = true) :
    wrb.urlWithoutQuery objType ref =
      "https://".toList ++ wrb.HostConfig.Host ++ [':'] ++ wrb.HostConfig.Port ++
        "/wapi/v".toList ++ wrb.HostConfig.Version ++ ['/'] ++
        (if ref ≠ [] then ref else objType) := by
  have hc : CREATE ≠ GET := by decide
  have hhost' := List.all_eq_true.mpr hhost
  have hpath' := List.all_eq_true.mpr hpath
  have hHo := all_of_append_left hhost'
  have hPo := all_of_append_right hhost'
  have hV := all_of_append_left (all_of_append_left hpath')
  have hO := all_of_append_right (all_of_append_left hpath')
  have hR := all_of_append_right hpath'
  have hH : escape (wrb.HostConfig.Host ++ [':'] ++ wrb.HostConfig.Port) Encoding.encodeHost =
      wrb.HostConfig.Host ++ [':'] ++ wrb.HostConfig.Port := by
    apply escape_of_all
    repeat' (first | exact hHo | exact hPo | apply all_append_of | decide)
  have hP : ∀ seg : Str, seg.all (needsNoEscape Encoding.encodePath) = true →
      escape ("wapi".toList ++ ['/'] ++ (('v' :: wrb.HostConfig.Version) ++ ['/'] ++ seg))
        Encoding.encodePath =
      "wapi".toList ++ ['/'] ++ (('v' :: wrb.HostConfig.Version) ++ ['/'] ++ seg) := by
    intro seg hs
    apply escape_of_all
    have hv : ('v' :: wrb.HostConfig.Version).all (needsNoEscape Encoding.encodePath) = true := by
      rw [List.all_cons, hV]; decide
    repeat' (first | exact hv | exact hs | apply all_append_of | decide)
  unfold WapiRequestBuilder.urlWithoutQuery WapiRequestBuilder.BuildURL
  simp only [if_neg hc]
  by_cases hr : ref.length > 0
  · have hr' : ref ≠ [] := by intro h; subst h; simp at hr
    simp only [if_pos hr, if_pos hr']
    have hj : Join (["wapi".toList, 'v' :: wrb.HostConfig.Version] ++ [ref]) ['/'] =
        "wapi".toList ++ ['/'] ++ (('v' :: wrb.HostConfig.Version) ++ ['/'] ++ ref) := rfl
    rw [hj, URL_String_https _ _ (by simp) (by simp) (hP ref hR) (by simp) (by simp), hH]
    simp
  · have hr' : ¬ ref ≠ [] := by
      intro h
      exact hr (List.length_pos.mpr h)
    simp only [if_neg hr, if_neg hr']
    have hj : Join (["wapi".toList, 'v' :: wrb.HostConfig.Version] ++ [objType]) ['/'] =
        "wapi".toList ++ ['/'] ++ (('v' :: wrb.HostConfig.Version) ++ ['/'] ++ objType) := rfl
    rw [hj, URL_String_https _ _ (by simp) (by simp) (hP objType hO) (by simp) (by simp), hH]
    simp

/-- The query of a Get without forceProxy. -/
theorem getQuery_false (rf : List Str) :
    getQuery false rf = if rf.length > 0 then returnFieldsParam rf else [] := by
  by_cases h : rf.length > 0
  · simp only [getQuery, if_pos h]; rfl
  · simp only [getQuery, if_neg h]; rfl

/-- The query of a Get with forceProxy. -/
theorem getQuery_true (rf : List Str) :
    getQuery true rf =
      "_proxy_search=GM".toList ++ (if rf.length > 0 then '&' :: returnFieldsParam rf else []) := by
  by_cases h : rf.length > 0
  · simp only [getQuery, if_pos h]; rfl
  · simp only [getQuery, if_neg h]; rfl

/-- The `_return_fields` parameter is never empty text. -/
theorem returnFieldsParam_ne_nil (rf : List Str) : returnFieldsParam rf ≠ [] := by
  simp [returnFieldsParam]

/-- The URL of a Get is the URL without query, followed, when the query is not empty, by a
question mark and the query. -/
theorem BuildURL_GET_query (wrb : WapiRequestBuilder) (objType ref : Str) (rf : List Str)
    (qp : QueryParams) :
    wrb.BuildURL GET objType ref rf qp =
      wrb.urlWithoutQuery objType ref ++
        (if getQuery qp.forceProxy rf = [] then [] else '?' :: getQuery qp.forceProxy rf) := by
  obtain ⟨h1, h2⟩ := BuildURL_GET wrb objType ref rf
  have hne := returnFieldsParam_ne_nil rf
  cases qp with
  | mk fp =>
    cases fp with
    | false =>
      rw [h1, getQuery_false]
      by_cases hrf : rf.length > 0
      · simp [hrf, hne]
      · simp [hrf]
    | true =>
      rw [h2, getQuery_true]
      by_cases hrf : rf.length > 0
      · simp [hrf]
      · simp [hrf]

/-- Cutting a URL of plain characters with an optional query at the first question mark. -/
theorem cutAt_url (base q : Str) (hb : base.all isPlainURLChar = true) :
    cutAt '?' (base ++ (if q = [] then [] else '?' :: q)) = (base, q) := by
  by_cases hq : q = []
  · subst hq
    simp only [if_true, List.append_nil]
    exact cutAt_of_absent '?' base (plain_ne_question hb)
  · rw [if_neg hq]
    exact cutAt_append '?' base q (plain_ne_question hb)

/-- Whether a built URL parses is the check of scheme, authority and path of the URL without
query, for every operation. -/
theorem BuildURL_parse (lib : NetURL) (wrb : WapiRequestBuilder) (t : RequestType)
    (objType ref : Str) (rf : List Str) (qp : QueryParams) :
    urlParseError lib (wrb.BuildURL t objType ref rf qp) =
      lib.hierError (wrb.urlWithoutQuery objType ref) := by
  by_cases ht : t = GET
  · subst ht
    exact BuildURL_GET_parse lib wrb objType ref rf qp
  · rw [BuildURL_not_GET wrb t objType ref rf qp ht]
    exact urlParseError_plain lib _ (urlWithoutQuery_plain wrb objType ref)

/-- The method that `http.NewRequest` uses for an operation is a valid method. -/
theorem toMethod_valid (t : RequestType) :
    validMethod (if t.toMethod = [] then "GET".toList else t.toMethod) = true := by
  unfold RequestType.toMethod
  split_ifs <;> first | decide | simp_all

/-- What BuildRequest returns, for every operation, object, ref and query options: the error of
the URL check, or the request made of method, URL, the two headers and the body. -/
theorem BuildRequest_eq (lib : NetURL) (wrb : WapiRequestBuilder) (t : RequestType)
    (obj : Option IBObject) (ref : Str) (qp : QueryParams) :
    wrb.BuildRequest lib t obj ref qp =
      match lib.hierError (wrb.urlWithoutQuery (objTypeOf obj) ref) with
      | some e => Except.error e
      | none =>
        Except.ok
          { Method := if t.toMethod = [] then "GET".toList else t.toMethod
            URL := wrb.BuildURL t (objTypeOf obj) ref (returnFieldsOf obj) qp
            Header := wrb.headers
            Body := (wrb.bodyOf t obj).toStr } := by
  have hv := toMethod_valid t
  cases obj with
  | none =>
    simp only [WapiRequestBuilder.BuildRequest, NewRequest, hv, BuildURL_parse, objTypeOf,
      returnFieldsOf, WapiRequestBuilder.bodyOf]
    cases lib.hierError (wrb.urlWithoutQuery [] ref) with
    | some e => simp
    | none => simp [Request.SetBasicAuth, WapiRequestBuilder.headers, Values.Set]
  | some o =>
    simp only [WapiRequestBuilder.BuildRequest, NewRequest, hv, BuildURL_parse, objTypeOf,
      returnFieldsOf, WapiRequestBuilder.bodyOf]
    cases lib.hierError (wrb.urlWithoutQuery o.ObjectType ref) with
    | some e => simp
    | none => simp [Request.SetBasicAuth, WapiRequestBuilder.headers, Values.Set]

/-! ## The URL of the request builder -/

/-- C12: for every operation and all host, port, version, objType and ref made of characters
that need no URL escaping, BuildURL returns a URL whose part before any question mark is
exactly "https://" + host + ":" + port + "/wapi/v" + version + "/" + seg, where seg is ref
when ref is non-empty and objType otherwise. -/
theorem BuildURL_before_query (wrb : WapiRequestBuilder) (t : RequestType) (objType ref : Str)
    (returnFields : List Str) (queryParams : QueryParams)
    (hhost : ∀ c ∈ wrb.HostConfig.Host ++ wrb.HostConfig.Port,
      needsNoEscape Encoding.encodeHost c = true)
    (hpath : ∀ c ∈ wrb.HostConfig.Version ++ objType ++ ref,
      needsNoEscape Encoding.encodePath c = true) :
    (cutAt '?' (wrb.BuildURL t objType ref returnFields queryParams)).1 =
      "https://".toList ++ wrb.HostConfig.Host ++ [':'] ++ wrb.HostConfig.Port ++
        "/wapi/v".toList ++ wrb.HostConfig.Version ++ ['/'] ++
        (if ref ≠ [] then ref else objType) := by
  rw [← urlWithoutQuery_eq wrb objType ref hhost hpath]
  by_cases ht : t = GET
  · subst ht
    rw [BuildURL_GET_query, cutAt_url _ _ (urlWithoutQuery_plain wrb objType ref)]
  · rw [BuildURL_not_GET wrb t objType ref returnFields queryParams ht,
      cutAt_of_absent '?' _ (plain_ne_question (urlWithoutQuery_plain wrb objType ref))]

/-- Witness for C12: the delete URL of the tests. -/
theorem BuildURL_before_query_witness :
    (cutAt '?' ((WapiRequestBuilder.mk sampleHostConfig).BuildURL DELETE []
        "fixedaddress/ZG5zLmJpbmRfY25h:12.0.10.1/external".toList [] { forceProxy := true })).1 =
      ("https://172.22.18.66:443/wapi/v2.2/" ++
        "fixedaddress/ZG5zLmJpbmRfY25h:12.0.10.1/external").toList :=
  (BuildURL_before_query ⟨sampleHostConfig⟩ DELETE []
    "fixedaddress/ZG5zLmJpbmRfY25h:12.0.10.1/external".toList [] { forceProxy := true }
    (by decide) (by decide)).trans (by decide)

/-- C13: for every operation other than Get, every returnFields list and both values of
forceProxy, the URL returned by BuildURL carries no query string: it has no question mark, so
the part after a question mark is empty and contains neither `_return_fields` nor
`_proxy_search`; and the URL equals the one built with empty returnFields and
forceProxy=false. -/
theorem BuildURL_no_query_unless_GET (wrb : WapiRequestBuilder) (t : RequestType)
    (objType ref : Str) (returnFields : List Str) (queryParams : QueryParams) (ht : t ≠ GET) :
    wrb.BuildURL t objType ref returnFields queryParams =
        wrb.BuildURL t objType ref [] { forceProxy := false } ∧
      (wrb.BuildURL t objType ref returnFields queryParams).all (fun c => c != '?') = true ∧
      queryOf (wrb.BuildURL t objType ref returnFields queryParams) = [] ∧
      ¬ "_return_fields".toList <:+: queryOf (wrb.BuildURL t objType ref returnFields queryParams) ∧
      ¬ "_proxy_search".toList <:+: queryOf (wrb.BuildURL t objType ref returnFields queryParams) := by
  have hp := urlWithoutQuery_plain wrb objType ref
  have hq : queryOf (wrb.BuildURL t objType ref returnFields queryParams) = [] := by
    rw [queryOf, BuildURL_not_GET wrb t objType ref returnFields queryParams ht,
      cutAt_of_absent '?' _ (plain_ne_question hp)]
  refine ⟨?_, ?_, hq, ?_, ?_⟩
  · rw [BuildURL_not_GET wrb t objType ref returnFields queryParams ht,
      BuildURL_not_GET wrb t objType ref [] { forceProxy := false } ht]
  · rw [BuildURL_not_GET wrb t objType ref returnFields queryParams ht]
    rw [List.all_eq_true]
    intro x hx
    simpa using plain_ne_question hp x hx
  · rw [hq]
    intro h
    have := List.IsInfix.length_le h
    simp at this
  · rw [hq]
    intro h
    have := List.IsInfix.length_le h
    simp at this

/-- Witness for C13: the create URL of the tests, with return fields and forceProxy set. -/
theorem BuildURL_no_query_unless_GET_witness :
    (WapiRequestBuilder.mk sampleHostConfig).BuildURL CREATE "networkview".toList []
        ["extattrs".toList] { forceProxy := true } =
      "https://172.22.18.66:443/wapi/v2.2/networkview".toList :=
  (BuildURL_no_query_unless_GET ⟨sampleHostConfig⟩ CREATE "networkview".toList []
    ["extattrs".toList] { forceProxy := true } (by decide)).1.trans (by decide)

/-- C14: for a Get, the URL returned by BuildURL is the URL without query followed, when the
query is not empty, by a question mark and the query, and the query is exactly:
`_proxy_search=GM` if and only if forceProxy is true, followed by `_return_fields=` plus the
query-escaped comma-joined returnFields if and only if returnFields is non-empty, the two
joined by `&` in that order; when forceProxy is false and returnFields is empty the URL has no
query string at all. -/
theorem BuildURL_GET_query_string (wrb : WapiRequestBuilder) (objType ref : Str)
    (returnFields : List Str) (queryParams : QueryParams) :
    wrb.BuildURL GET objType ref returnFields queryParams =
        wrb.urlWithoutQuery objType ref ++
          (if getQuery queryParams.forceProxy returnFields = [] then []
            else '?' :: getQuery queryParams.forceProxy returnFields) ∧
      cutAt '?' (wrb.BuildURL GET objType ref returnFields queryParams) =
        (wrb.urlWithoutQuery objType ref, getQuery queryParams.forceProxy returnFields) ∧
      getQuery false returnFields =
        (if returnFields.length > 0 then
          "_return_fields=".toList ++ QueryEscape (Join returnFields [','])
        else []) ∧
      getQuery true returnFields =
        (if returnFields.length > 0 then
          "_proxy_search=GM&_return_fields=".toList ++ QueryEscape (Join returnFields [','])
        else "_proxy_search=GM".toList) ∧
      wrb.BuildURL GET objType ref [] { forceProxy := false } = wrb.urlWithoutQuery objType ref ∧
      (wrb.BuildURL GET objType ref [] { forceProxy := false }).all (fun c => c != '?') = true := by
  have hp := urlWithoutQuery_plain wrb objType ref
  have hq := BuildURL_GET_query wrb objType ref returnFields queryParams
  have h0 : wrb.BuildURL GET objType ref [] { forceProxy := false } =
      wrb.urlWithoutQuery objType ref := by
    rw [BuildURL_GET_query]
    simp [getQuery_false]
  refine ⟨hq, ?_, ?_, ?_, h0, ?_⟩
  · rw [hq, cutAt_url _ _ hp]
  · rw [getQuery_false]; rfl
  · rw [getQuery_true]
    by_cases h : returnFields.length > 0
    · rw [if_pos h, if_pos h]; rfl
    · rw [if_neg h, if_neg h]; simp
  · rw [h0, List.all_eq_true]
    intro x hx
    simpa using plain_ne_question hp x hx

/-! ## The request of the request builder -/

/-- After a successful build the round sends the built request: the record of the round starts
with that build and the send of its request. -/
theorem makeRequest_trace_prefix {σ Req : Type} (c : Connector σ Req) (t : RequestType)
    (obj : Option IBObject) (ref : Str) (qp : QueryParams) (w : World σ Req)
    (req : Req) (s1 : σ)
    (hb : c.RequestBuilder.BuildRequest t obj ref qp w.state = (Except.ok req, s1)) :
    ∃ rest, (c.makeRequest t obj ref qp w).2.trace =
      w.trace ++ Event.build t obj ref qp (Except.ok req) ::
        Event.send req (c.Requestor.SendRequest req s1).1 :: rest := by
  rcases hs : c.Requestor.SendRequest req s1 with ⟨⟨res, err⟩, s2⟩
  cases err with
  | none =>
    rw [makeRequest_send_ok c t obj ref qp w req s1 s2 res hb hs]
    exact ⟨[], rfl⟩
  | some err =>
    rcases hb2 : c.RequestBuilder.BuildRequest t obj ref { qp with forceProxy := true } s2
      with ⟨r2, s3⟩
    cases r2 with
    | error e =>
      rw [makeRequest_rebuild_error c t obj ref qp w req s1 s2 s3 res err e hb hs hb2]
      exact ⟨_, rfl⟩
    | ok req2 =>
      rcases hs2 : c.Requestor.SendRequest req2 s3 with ⟨r, s4⟩
      rw [makeRequest_retry c t obj ref qp w req req2 s1 s2 s3 s4 res err r hb hs hb2 hs2]
      exact ⟨_, rfl⟩

/-- C18: for every valid operation whose URL the URL library accepts, BuildRequest returns a
request whose method is the HTTP method of the operation, whose URL is BuildURL of the
operation, the objType and returnFields of the object (both empty without object), the ref and
the query options, whose body is BuildBody of the operation and the object (empty without
object), and whose headers are Content-Type `application/json` and the basic-auth header of
the HostConfig username and password; a Delete without object has method DELETE, an empty body
and the URL without query, which ends in the ref when nothing needs escaping. -/
theorem BuildRequest_parts (lib : NetURL) (wrb : WapiRequestBuilder) (t : RequestType)
    (obj : Option IBObject) (ref : Str) (qp : QueryParams)
    (ht : t = CREATE ∨ t = GET ∨ t = DELETE ∨ t = UPDATE)
    (hurl : lib.hierError (wrb.urlWithoutQuery (objTypeOf obj) ref) = none) :
    ∃ req, wrb.BuildRequest lib t obj ref qp = Except.ok req ∧
      req.Method = t.toMethod ∧
      req.URL = wrb.BuildURL t (objTypeOf obj) ref (returnFieldsOf obj) qp ∧
      req.Body = (wrb.bodyOf t obj).toStr ∧
      req.Header =
        [("Content-Type".toList, ["application/json".toList]),
          ("Authorization".toList,
            ["Basic ".toList ++
              base64 ((wrb.HostConfig.Username ++ [':'] ++ wrb.HostConfig.Password).flatMap
                utf8Bytes)])] ∧
      (obj = none → req.URL = wrb.BuildURL t [] ref [] qp ∧ req.Body = []) ∧
      (∀ o, obj = some o →
        req.URL = wrb.BuildURL t o.ObjectType ref o.ReturnFields qp ∧
          req.Body = (wrb.BuildBody t o).toStr) ∧
      (t = DELETE → obj = none →
        req.Method = "DELETE".toList ∧ req.Body = [] ∧
          req.URL = wrb.urlWithoutQuery [] ref ∧
          ((∀ c ∈ wrb.HostConfig.Host ++ wrb.HostConfig.Port,
              needsNoEscape Encoding.encodeHost c = true) →
            (∀ c ∈ wrb.HostConfig.Version ++ ref,
              needsNoEscape Encoding.encodePath c = true) →
            ref ≠ [] →
            req.URL = "https://".toList ++ wrb.HostConfig.Host ++ [':'] ++
              wrb.HostConfig.Port ++ "/wapi/v".toList ++ wrb.HostConfig.Version ++ ['/'] ++
              ref)) := by
  have hne : t.toMethod ≠ [] := by
    rcases ht with h | h | h | h <;> subst h <;> decide
  refine ⟨Request.mk (if t.toMethod = [] then "GET".toList else t.toMethod)
    (wrb.BuildURL t (objTypeOf obj) ref (returnFieldsOf obj) qp) wrb.headers
    (wrb.bodyOf t obj).toStr, ?_, ?_⟩
  · rw [BuildRequest_eq, hurl]
  · refine ⟨if_neg hne, rfl, rfl, rfl, ?_, ?_, ?_⟩
    · intro h; subst h; exact ⟨rfl, rfl⟩
    · intro o h; subst h; exact ⟨rfl, rfl⟩
    · intro h1 h2
      subst h1; subst h2
      refine ⟨rfl, rfl, BuildURL_not_GET wrb DELETE [] ref [] qp (by decide), ?_⟩
      intro hhost hpath hr
      show wrb.BuildURL DELETE [] ref [] qp = _
      rw [BuildURL_not_GET wrb DELETE [] ref [] qp (by decide),
        urlWithoutQuery_eq wrb [] ref hhost (by simpa using hpath), if_pos hr]

/-- Witness for C18: the create request of the tests, and the delete request of the
scenario. -/
theorem BuildRequest_parts_witness :
    (∃ req, (WapiRequestBuilder.mk sampleHostConfig).BuildRequest lenientNetURL CREATE
        (some sampleNetwork) [] { forceProxy := false } = Except.ok req ∧
      req.Method = "POST".toList ∧
      req.URL = "https://172.22.18.66:443/wapi/v2.2/network".toList ∧
      req.Body = "\x7b\"network_view\":\"private-view\"\x7d".toList ∧
      req.Header =
        [("Content-Type".toList, ["application/json".toList]),
          ("Authorization".toList, ["Basic bXluYW1lOm15c2VjcmV0ZSE=".toList])]) ∧
    (∃ req, (WapiRequestBuilder.mk sampleHostConfig).BuildRequest lenientNetURL DELETE
        none "fixedaddress/xyz:12.0.10.1/external".toList { forceProxy := false } =
          Except.ok req ∧
      req.Method = "DELETE".toList ∧
      req.URL =
        "https://172.22.18.66:443/wapi/v2.2/fixedaddress/xyz:12.0.10.1/external".toList ∧
      req.Body = []) := by
  constructor
  · obtain ⟨req, h, hm, hu, hb, hh, _⟩ :=
      BuildRequest_parts lenientNetURL ⟨sampleHostConfig⟩ CREATE (some sampleNetwork) []
        { forceProxy := false } (Or.inl rfl) rfl
    exact ⟨req, h, hm.trans (by decide), hu.trans (by decide), hb.trans (by decide),
      hh.trans (by decide)⟩
  · obtain ⟨req, h, _, _, _, _, _, _, hd⟩ :=
      BuildRequest_parts lenientNetURL ⟨sampleHostConfig⟩ DELETE none
        "fixedaddress/xyz:12.0.10.1/external".toList
        { forceProxy := false } (Or.inr (Or.inr (Or.inl rfl))) rfl
    obtain ⟨hm, hb, _, hu⟩ := hd rfl rfl
    exact ⟨req, h, hm, (hu (by decide) (by decide) (by decide)).trans (by decide), hb⟩

/-! ## An object that cannot be serialized -/

/-- C19, as the code has it: when the domain object cannot be serialized to JSON, BuildBody
returns a nil body and the failure is not surfaced. BuildRequest returns a request with an
empty body when the URL library accepts the URL, and an error of BuildRequest is always the
error of the URL; a connector over this builder sends the request with the empty body, and
when that send succeeds its result is the result of the round, without error. -/
theorem BuildRequest_marshal_failure_not_surfaced {σ : Type} (lib : NetURL)
    (wrb : WapiRequestBuilder) (c : Connector σ Request) (t : RequestType) (o : IBObject)
    (ref : Str) (qp : QueryParams) (w : World σ Request) (s1 : σ) (e : Error)
    (hm : o.MarshalJSON = Except.error e)
    (hurl : lib.hierError (wrb.urlWithoutQuery o.ObjectType ref) = none)
    (hbw : c.RequestBuilder.BuildRequest t (some o) ref qp w.state =
      (wrb.BuildRequest lib t (some o) ref qp, s1)) :
    wrb.BuildBody t o = none ∧
      (∀ (lib2 : NetURL) (e2 : Error),
        wrb.BuildRequest lib2 t (some o) ref qp = Except.error e2 →
          lib2.hierError (wrb.urlWithoutQuery o.ObjectType ref) = some e2) ∧
      ∃ req, wrb.BuildRequest lib t (some o) ref qp = Except.ok req ∧
        req.Body = [] ∧
        (∃ rest, (c.makeRequest t (some o) ref qp w).2.trace =
          w.trace ++ Event.build t (some o) ref qp (Except.ok req) ::
            Event.send req (c.Requestor.SendRequest req s1).1 :: rest) ∧
        ((c.Requestor.SendRequest req s1).1.2 = none →
          (c.makeRequest t (some o) ref qp w).1 = (c.Requestor.SendRequest req s1).1) := by
  have hbody : wrb.BuildBody t o = none := by
    simp [WapiRequestBuilder.BuildBody, hm]
  refine ⟨hbody, ?_, ?_⟩
  · intro lib2 e2 h
    rw [BuildRequest_eq] at h
    simp only [objTypeOf] at h
    cases hh : lib2.hierError (wrb.urlWithoutQuery o.ObjectType ref) with
    | none => rw [hh] at h; cases h
    | some e3 => rw [hh] at h; cases h; rfl
  · have hreq : wrb.BuildRequest lib t (some o) ref qp =
        Except.ok (Request.mk (if t.toMethod = [] then "GET".toList else t.toMethod)
          (wrb.BuildURL t o.ObjectType ref o.ReturnFields qp) wrb.headers []) := by
      rw [BuildRequest_eq]
      simp only [objTypeOf, returnFieldsOf, WapiRequestBuilder.bodyOf, hurl, hbody]
      rfl
    rw [hreq] at hbw
    refine ⟨_, hreq, rfl, makeRequest_trace_prefix c t (some o) ref qp w _ s1 hbw, ?_⟩
    intro hs
    rcases hsend : c.Requestor.SendRequest
      (Request.mk (if t.toMethod = [] then "GET".toList else t.toMethod)
          (wrb.BuildURL t o.ObjectType ref o.ReturnFields qp) wrb.headers []) s1
      with ⟨⟨res, err⟩, s2⟩
    rw [hsend] at hs
    simp only at hs
    subst hs
    rw [makeRequest_send_ok c t (some o) ref qp w _ s1 s2 res hbw hsend]

/-- Witness for C19: an object that cannot be serialized, handed to the connector over the
WAPI builder for an update. -/
theorem BuildRequest_marshal_failure_not_surfaced_witness :
    (WapiRequestBuilder.mk sampleHostConfig).BuildBody UPDATE sampleUnserializable = none ∧
      ∃ req, (WapiRequestBuilder.mk sampleHostConfig).BuildRequest lenientNetURL UPDATE
          (some sampleUnserializable) "network/ZG5z:10.0.0.0/24/default".toList
          { forceProxy := false } = Except.ok req ∧
        req.Body = [] ∧
        sends (wapiScriptedConnector.makeRequest UPDATE (some sampleUnserializable)
          "network/ZG5z:10.0.0.0/24/default".toList { forceProxy := false }
          (wapiScriptedWorld [(some "\"network/ZG5z:10.0.0.0/24/default\"".toList, none)])).2.trace
          = [req] := by
  obtain ⟨hb, _, req, hr, hbody, _, hres⟩ :=
    BuildRequest_marshal_failure_not_surfaced lenientNetURL ⟨sampleHostConfig⟩
      wapiScriptedConnector UPDATE sampleUnserializable
      "network/ZG5z:10.0.0.0/24/default".toList { forceProxy := false }
      (wapiScriptedWorld [(some "\"network/ZG5z:10.0.0.0/24/default\"".toList, none)])
      (⟨sampleHostConfig⟩, [(some "\"network/ZG5z:10.0.0.0/24/default\"".toList, none)])
      (Error.other "json: unsupported value".toList) rfl rfl rfl
  refine ⟨hb, req, hr, hbody, ?_⟩
  have hq : (WapiRequestBuilder.mk sampleHostConfig).BuildRequest lenientNetURL UPDATE
      (some sampleUnserializable) "network/ZG5z:10.0.0.0/24/default".toList
      { forceProxy := false } =
      Except.ok (Request.mk "PUT".toList
        "https://172.22.18.66:443/wapi/v2.2/network/ZG5z:10.0.0.0/24/default".toList
        (WapiRequestBuilder.mk sampleHostConfig).headers []) := by decide
  rw [hq] at hr
  cases hr
  decide

/-- Counterexample to C19 as stated: for an object that cannot be serialized, BuildRequest
returns a request, with an empty body, and no error; the round of the connector sends that
request and returns the body of the response without error. -/
theorem BuildRequest_unserializable_is_sent :
    sampleUnserializable.MarshalJSON = Except.error (Error.other "json: unsupported value".toList) ∧
      (WapiRequestBuilder.mk sampleHostConfig).BuildRequest lenientNetURL CREATE
          (some sampleUnserializable) [] { forceProxy := false } =
        Except.ok (Request.mk "POST".toList "https://172.22.18.66:443/wapi/v2.2/network".toList
          [("Content-Type".toList, ["application/json".toList]),
            ("Authorization".toList, ["Basic bXluYW1lOm15c2VjcmV0ZSE=".toList])] []) ∧
      (wapiScriptedConnector.makeRequest CREATE (some sampleUnserializable) []
          { forceProxy := false }
          (wapiScriptedWorld [(some "\"network/ZG5z:10.0.0.0/24/default\"".toList, none)])).1 =
        (some "\"network/ZG5z:10.0.0.0/24/default\"".toList, none) ∧
      sends (wapiScriptedConnector.makeRequest CREATE (some sampleUnserializable) []
          { forceProxy := false }
          (wapiScriptedWorld [(some "\"network/ZG5z:10.0.0.0/24/default\"".toList, none)])).2.trace =
        [Request.mk "POST".toList "https://172.22.18.66:443/wapi/v2.2/network".toList
          [("Content-Type".toList, ["application/json".toList]),
            ("Authorization".toList, ["Basic bXluYW1lOm15c2VjcmV0ZSE=".toList])] []] := by
  refine ⟨rfl, ?_, ?_, ?_⟩ <;> decide

/-! ## The error of a refused response -/

/-- The message of the error made from a response, in its parts. -/
theorem getHTTPResponseError_eq (resp : Response) :
    getHTTPResponseError resp =
      Error.other ("WAPI request error: ".toList ++ (formatInt resp.StatusCode ++
        ("('".toList ++ (resp.Status ++ ("')\nContents:\n".toList ++
          (resp.Body.data ++ "\n".toList)))))) := by
  simp [getHTTPResponseError, ReadAll, Bytes.toStr]

/-- C23: for every response that SendRequest classifies as a failure by status, the result is
a nil body and an error whose message is `WAPI request error: ` followed by the status code in
decimal, the status text between `('` and `')`, a line `Contents:` and all of the response
body that could be read; so the message contains the status code, the status text and the
body content. -/
theorem SendRequest_failure_message {ν : Type} (net : Network ν) (whr : WapiHTTPRequestor)
    (req : Request) (n : ν) (resp : Response)
    (hdo : (net.Do whr.client req n).1 = Except.ok resp) (hst : ¬ statusAccepted resp req) :
    ∃ msg, (whr.SendRequest net req n).1 = (none, some (Error.other msg)) ∧
      msg = "WAPI request error: ".toList ++ formatInt resp.StatusCode ++ "('".toList ++
        resp.Status ++ "')\nContents:\n".toList ++ resp.Body.data ++ "\n".toList ∧
      formatInt resp.StatusCode <:+: msg ∧ resp.Status <:+: msg ∧ resp.Body.data <:+: msg := by
  refine ⟨_, ?_, rfl, ?_, ?_, ?_⟩
  · rw [SendRequest_of_refused net whr req n resp hdo hst, getHTTPResponseError_eq]
    simp only [List.append_assoc]
  · exact ⟨"WAPI request error: ".toList,
      "('".toList ++ (resp.Status ++ ("')\nContents:\n".toList ++
        (resp.Body.data ++ "\n".toList))), by simp only [List.append_assoc]⟩
  · exact ⟨"WAPI request error: ".toList ++ formatInt resp.StatusCode ++ "('".toList,
      "')\nContents:\n".toList ++ (resp.Body.data ++ "\n".toList),
      by simp only [List.append_assoc]⟩
  · exact ⟨"WAPI request error: ".toList ++ formatInt resp.StatusCode ++ "('".toList ++
      resp.Status ++ "')\nContents:\n".toList, "\n".toList, by simp only [List.append_assoc]⟩

/-- Witness for C23: a 401 response to a GET request. -/
theorem SendRequest_failure_message_witness :
    ¬ statusAccepted unauthorizedResponse sampleGetRequest ∧
      (sampleRequestor.SendRequest (fixedNetwork (Except.ok unauthorizedResponse))
          sampleGetRequest ()).1 =
        (none, some (Error.other
          ("WAPI request error: 401('401 Authorization Required')\nContents:\n" ++
            "\x7b\"Error\":\"AdmConProtoError: bad credentials\"\x7d\n").toList)) := by
  have hst : ¬ statusAccepted unauthorizedResponse sampleGetRequest := by
    unfold statusAccepted; decide
  obtain ⟨msg, h, hm, _⟩ :=
    SendRequest_failure_message (fixedNetwork (Except.ok unauthorizedResponse)) sampleRequestor
      sampleGetRequest () unauthorizedResponse rfl hst
  refine ⟨hst, ?_⟩
  rw [h, hm]
  decide

/-! ## The transport configuration and the TLS settings of the sender -/

/-- The configuration for `false` in any case of letters. -/
theorem NewTransportConfig_false (env : CertEnv) (sslVerify : Str) (t p : Int)
    (h : ToLower sslVerify = "false".toList) :
    NewTransportConfig env sslVerify t p =
      { SslVerify := false, certPool := none, HTTPRequestTimeout := t,
        HTTPPoolConnections := p } := by
  simp [NewTransportConfig, h]

/-- The configuration for `true` in any case of letters. -/
theorem NewTransportConfig_true (env : CertEnv) (sslVerify : Str) (t p : Int)
    (h : ToLower sslVerify = "true".toList) :
    NewTransportConfig env sslVerify t p =
      { SslVerify := true, certPool := none, HTTPRequestTimeout := t,
        HTTPPoolConnections := p } := by
  have h2 : ¬ "false".toList = ToLower sslVerify := by rw [h]; decide
  simp [NewTransportConfig, h, h2]

/-- The configuration for a CA file that loads. -/
theorem NewTransportConfig_bundle (env : CertEnv) (sslVerify : Str) (t p : Int)
    (hf : ToLower sslVerify ≠ "false".toList) (ht : ToLower sslVerify ≠ "true".toList)
    (cert : Str) (hr : env.ReadFile sslVerify = Except.ok cert)
    (hc : env.certsFromPEM cert ≠ []) :
    NewTransportConfig env sslVerify t p =
      { SslVerify := true, certPool := some (env.certsFromPEM cert), HTTPRequestTimeout := t,
        HTTPPoolConnections := p } := by
  have h1 : ¬ "false".toList = ToLower sslVerify := fun h => hf h.symm
  have h2 : ¬ "true".toList = ToLower sslVerify := fun h => ht h.symm
  have h3 : (env.certsFromPEM cert).isEmpty = false := by
    cases hh : env.certsFromPEM cert with
    | nil => exact absurd hh hc
    | cons a l => rfl
  simp only [NewTransportConfig, if_neg h1, if_neg h2, hr, AppendCertsFromPEM, h3,
    Bool.not_false, List.nil_append]

/-- The configuration for a CA file that does not load: all zero. -/
theorem NewTransportConfig_no_bundle (env : CertEnv) (sslVerify : Str) (t p : Int)
    (hf : ToLower sslVerify ≠ "false".toList) (ht : ToLower sslVerify ≠ "true".toList)
    (hb : bundleLoads env sslVerify = false) :
    NewTransportConfig env sslVerify t p =
      { SslVerify := false, certPool := none, HTTPRequestTimeout := 0,
        HTTPPoolConnections := 0 } := by
  have h1 : ¬ "false".toList = ToLower sslVerify := fun h => hf h.symm
  have h2 : ¬ "true".toList = ToLower sslVerify := fun h => ht h.symm
  unfold bundleLoads at hb
  cases hr : env.ReadFile sslVerify with
  | error e => simp only [NewTransportConfig, if_neg h1, if_neg h2, hr]
  | ok cert =>
    rw [hr] at hb
    simp only [Bool.not_eq_false'] at hb
    simp only [NewTransportConfig, if_neg h1, if_neg h2, hr, AppendCertsFromPEM, hb,
      Bool.not_true]

/-- A CA file that loads, with what was read from it. -/
theorem bundleLoads_iff (env : CertEnv) (sslVerify : Str) :
    bundleLoads env sslVerify = true ↔
      ∃ cert, env.ReadFile sslVerify = Except.ok cert ∧ env.certsFromPEM cert ≠ [] := by
  unfold bundleLoads
  cases hr : env.ReadFile sslVerify with
  | error e => simp
  | ok cert =>
    cases hh : env.certsFromPEM cert <;> simp [hh]

/-- C26: when sslVerify is neither `true` nor `false` in any case of letters and the named CA
file cannot be read or holds no PEM certificate, NewTransportConfig returns the all-zero
configuration whatever its other arguments are: SslVerify is false, there is no cert pool, and
timeout and pool size are 0; for `true`, `false` or a bundle that loads, timeout and pool size
equal the arguments; and a cert pool that is set implies that SslVerify is true. -/
theorem NewTransportConfig_zero_on_bad_bundle (env : CertEnv) (sslVerify : Str) (t p : Int) :
    (ToLower sslVerify ≠ "false".toList → ToLower sslVerify ≠ "true".toList →
      ((∃ e, env.ReadFile sslVerify = Except.error e) ∨
        (∃ cert, env.ReadFile sslVerify = Except.ok cert ∧ env.certsFromPEM cert = [])) →
      NewTransportConfig env sslVerify t p =
        { SslVerify := false, certPool := none, HTTPRequestTimeout := 0,
          HTTPPoolConnections := 0 }) ∧
    ((ToLower sslVerify = "false".toList ∨ ToLower sslVerify = "true".toList ∨
        ∃ cert, env.ReadFile sslVerify = Except.ok cert ∧ env.certsFromPEM cert ≠ []) →
      (NewTransportConfig env sslVerify t p).HTTPRequestTimeout = t ∧
        (NewTransportConfig env sslVerify t p).HTTPPoolConnections = p) ∧
    ((NewTransportConfig env sslVerify t p).certPool ≠ none →
      (NewTransportConfig env sslVerify t p).SslVerify = true) ∧
    NewTransportConfig sampleCertEnv "/etc/ssl/missing.pem".toList 120 100 =
      { SslVerify := false, certPool := none, HTTPRequestTimeout := 0,
        HTTPPoolConnections := 0 } ∧
    NewTransportConfig sampleCertEnv "/etc/ssl/empty.pem".toList 120 100 =
      { SslVerify := false, certPool := none, HTTPRequestTimeout := 0,
        HTTPPoolConnections := 0 } ∧
    NewTransportConfig sampleCertEnv "/etc/ssl/ca.pem".toList 120 100 =
      { SslVerify := true, certPool := some ["ca".toList], HTTPRequestTimeout := 120,
        HTTPPoolConnections := 100 } ∧
    NewTransportConfig sampleCertEnv "False".toList 120 100 =
      { SslVerify := false, certPool := none, HTTPRequestTimeout := 120,
        HTTPPoolConnections := 100 } := by
  refine ⟨?_, ?_, ?_, by decide, by decide, by decide, by decide⟩
  · intro hf ht hbad
    apply NewTransportConfig_no_bundle env sslVerify t p hf ht
    rcases hbad with ⟨e, he⟩ | ⟨cert, hr, hc⟩
    · simp [bundleLoads, he]
    · simp [bundleLoads, hr, hc]
  · rintro (h | h | ⟨cert, hr, hc⟩)
    · rw [NewTransportConfig_false env sslVerify t p h]; exact ⟨rfl, rfl⟩
    · rw [NewTransportConfig_true env sslVerify t p h]; exact ⟨rfl, rfl⟩
    · by_cases hf : ToLower sslVerify = "false".toList
      · rw [NewTransportConfig_false env sslVerify t p hf]; exact ⟨rfl, rfl⟩
      · by_cases ht : ToLower sslVerify = "true".toList
        · rw [NewTransportConfig_true env sslVerify t p ht]; exact ⟨rfl, rfl⟩
        · rw [NewTransportConfig_bundle env sslVerify t p hf ht cert hr hc]; exact ⟨rfl, rfl⟩
  · intro hp
    by_cases hf : ToLower sslVerify = "false".toList
    · rw [NewTransportConfig_false env sslVerify t p hf] at hp; exact absurd rfl hp
    · by_cases ht : ToLower sslVerify = "true".toList
      · rw [NewTransportConfig_true env sslVerify t p ht]
      · cases hb : bundleLoads env sslVerify with
        | false =>
          rw [NewTransportConfig_no_bundle env sslVerify t p hf ht hb] at hp
          exact absurd rfl hp
        | true =>
          obtain ⟨cert, hr, hc⟩ := (bundleLoads_iff env sslVerify).mp hb
          rw [NewTransportConfig_bundle env sslVerify t p hf ht cert hr hc]

/-- C22 on the code: the sender initialised from NewTransportConfig has certificate
verification disabled exactly when sslVerify is `false` in any case of letters, or is neither
`true` nor `false` and names a CA file that does not load. So for the CA-bundle path
`/etc/ssl/missing.pem`, a file that cannot be read, verification is disabled although the
verify mode is not off. -/
theorem Init_skips_verification_for_bad_bundle :
    (∀ (env : CertEnv) (whr : WapiHTTPRequestor) (sslVerify : Str) (t p : Int),
      (whr.Init (NewTransportConfig env sslVerify t p)).client.InsecureSkipVerify = true ↔
        (ToLower sslVerify = "false".toList ∨
          (ToLower sslVerify ≠ "true".toList ∧ bundleLoads env sslVerify = false))) ∧
    ToLower "/etc/ssl/missing.pem".toList ≠ "false".toList ∧
    sampleCertEnv.ReadFile "/etc/ssl/missing.pem".toList =
      Except.error (Error.other
        "open /etc/ssl/missing.pem: no such file or directory".toList) ∧
    (WapiHTTPRequestor.Init sampleRequestor (NewTransportConfig sampleCertEnv
      "/etc/ssl/missing.pem".toList 120 100)).client.InsecureSkipVerify = true ∧
    (WapiHTTPRequestor.Init sampleRequestor (NewTransportConfig sampleCertEnv
      "/etc/ssl/ca.pem".toList 120 100)).client.InsecureSkipVerify = false := by
  refine ⟨?_, by decide, by decide, by decide, by decide⟩
  intro env whr sslVerify t p
  by_cases hf : ToLower sslVerify = "false".toList
  · rw [NewTransportConfig_false env sslVerify t p hf]
    exact ⟨fun _ => Or.inl hf, fun _ => rfl⟩
  · by_cases ht : ToLower sslVerify = "true".toList
    · rw [NewTransportConfig_true env sslVerify t p ht]
      refine ⟨fun h => ?_, fun h => ?_⟩
      · exact absurd h (by simp [WapiHTTPRequestor.Init])
      · rcases h with h | h
        · exact absurd h hf
        · exact absurd ht h.1
    · cases hb : bundleLoads env sslVerify with
      | false =>
        rw [NewTransportConfig_no_bundle env sslVerify t p hf ht hb]
        exact ⟨fun _ => Or.inr ⟨ht, rfl⟩, fun _ => rfl⟩
      | true =>
        obtain ⟨cert, hr, hc⟩ := (bundleLoads_iff env sslVerify).mp hb
        rw [NewTransportConfig_bundle env sslVerify t p hf ht cert hr hc]
        refine ⟨fun h => ?_, fun h => ?_⟩
        · exact absurd h (by simp [WapiHTTPRequestor.Init])
        · rcases h with h | h
          · exact absurd h hf
          · exact absurd h.2 (by simp)

/-! ## Construction of the connector -/

/-- C21, as the code has it: NewConnector initialises the builder with the host configuration
and then the requestor with the transport configuration, runs the check on the connector so
wired, and returns the error of the check exactly when the check returns one; the connector it
returns is the wired connector whether or not the check failed. The check is by default a Get
of the user-profile object with empty ref; the WAPI builder then holds the host configuration
and the WAPI sender the client made from the transport configuration. -/
theorem NewConnector_returns_connector_and_check_error {σ Req : Type}
    (validate : Connector σ Req → World σ Req → Option Error × World σ Req)
    (hc : HostConfig) (tc : TransportConfig) (rb : HTTPRequestBuilder σ Req)
    (rq : HTTPRequestor σ Req) (w : World σ Req) :
    NewConnector validate hc tc rb rq w =
        ((some (Connector.mk hc tc rb rq),
            (validate (Connector.mk hc tc rb rq)
              (World.mk (rq.Init tc (rb.Init hc w.state)) w.trace)).1),
          (validate (Connector.mk hc tc rb rq)
            (World.mk (rq.Init tc (rb.Init hc w.state)) w.trace)).2) ∧
      (∀ e : Option Error, (NewConnector validate hc tc rb rq w).1.2 = e ↔
        (validate (Connector.mk hc tc rb rq)
          (World.mk (rq.Init tc (rb.Init hc w.state)) w.trace)).1 = e) ∧
      (NewConnector validate hc tc rb rq w).1.1 = some (Connector.mk hc tc rb rq) ∧
      (∀ (ρ : Type) (userprofile : IBObject) (dec : Decoder ρ) (response : ρ)
        (c : Connector σ Req) (w2 : World σ Req),
        validateConnector userprofile dec response c w2 =
          ((c.GetObject (some userprofile) [] dec response w2).1.2,
            (c.GetObject (some userprofile) [] dec response w2).2)) ∧
      (∀ (ν : Type) (lib : NetURL) (net : Network ν) (wrb : WapiRequestBuilder)
        (whr : WapiHTTPRequestor) (n : ν),
        (wapiRequestor net).Init tc ((wapiBuilder lib).Init hc (wrb, whr, n)) =
          (WapiRequestBuilder.mk hc, WapiHTTPRequestor.Init whr tc, n)) := by
  refine ⟨rfl, fun e => Iff.rfl, rfl, ?_, ?_⟩
  · intro ρ userprofile dec response c w2
    rfl
  · intro ν lib net wrb whr n
    rfl

/-- C21, as stated, fails: the sender fails both sends of the check, so the construction
fails with the error of the check, and still NewConnector hands back the wired connector,
which serves a later call. -/
theorem NewConnector_failed_check_returns_connector :
    (NewConnector (validateConnector sampleUserProfile (decodeSlice JVal.null decodeAny) [])
        sampleHostConfig sampleTransportConfig (FakeRequestBuilder "req".toList)
        ScriptedRequestor (scriptedWorld (failTwiceThen "\"network/abc\"".toList))).1.2 =
      some (Error.other "connection refused".toList) ∧
    (NewConnector (validateConnector sampleUserProfile (decodeSlice JVal.null decodeAny) [])
        sampleHostConfig sampleTransportConfig (FakeRequestBuilder "req".toList)
        ScriptedRequestor (scriptedWorld (failTwiceThen "\"network/abc\"".toList))).1.1 =
      some scriptedConnector ∧
    (scriptedConnector.DeleteObject "network/abc".toList
      (NewConnector (validateConnector sampleUserProfile (decodeSlice JVal.null decodeAny) [])
        sampleHostConfig sampleTransportConfig (FakeRequestBuilder "req".toList)
        ScriptedRequestor (scriptedWorld (failTwiceThen "\"network/abc\"".toList))).2).1 =
      ("network/abc".toList, none) := by
  refine ⟨by decide, rfl, by decide⟩

/-! ## The sends of a call: how many, and when with a forced proxy -/

/-- What the check of `forcedJustified` means: a send with forceProxy=true has a send before
it of which the trigger holds. -/
theorem forcedJustified_spec (trigger : Bytes × Option Error → Bool) :
    ∀ (l : List (Bool × (Bytes × Option Error))) (seen : Bool),
      forcedJustified trigger seen l = true →
      ∀ (pre : List (Bool × (Bytes × Option Error))) (r : Bytes × Option Error)
        (post : List (Bool × (Bytes × Option Error))),
        l = pre ++ (true, r) :: post → seen = true ∨ ∃ x ∈ pre, trigger x.2 = true := by
  intro l
  induction l with
  | nil =>
    intro seen _ pre r post h
    exact absurd h (by simp)
  | cons a l ih =>
    intro seen hj pre r post h
    obtain ⟨fp, ra⟩ := a
    simp only [forcedJustified, Bool.and_eq_true, Bool.or_eq_true, Bool.not_eq_true'] at hj
    cases pre with
    | nil =>
      simp only [List.nil_append, List.cons.injEq, Prod.mk.injEq] at h
      rcases hj.1 with hfp | hseen
      · rw [h.1.1] at hfp; exact absurd hfp (by decide)
      · exact Or.inl hseen
    | cons b pre =>
      simp only [List.cons_append, List.cons.injEq] at h
      obtain ⟨hb, hl⟩ := h
      rcases ih (seen || trigger ra) hj.2 pre r post hl with hs | ⟨x, hx, hxt⟩
      · simp only [Bool.or_eq_true] at hs
        rcases hs with hs | hs
        · exact Or.inl hs
        · exact Or.inr ⟨b, List.mem_cons_self _ _, by rw [← hb]; exact hs⟩
      · exact Or.inr ⟨x, List.mem_cons_of_mem _ hx, hxt⟩

/-- The four ways a round can go, with what it adds to the record: a failed build; a build and
a successful send; a build, a failed send and a failed rebuild; a build, a failed send, a
rebuild with forceProxy=true and a second send. -/
theorem makeRequest_cases {σ Req : Type} (c : Connector σ Req) (t : RequestType)
    (obj : Option IBObject) (ref : Str) (qp : QueryParams) (w : World σ Req) :
    (∃ e s1, c.makeRequest t obj ref qp w =
      ((none, some e), World.mk s1 (w.trace ++ [Event.build t obj ref qp (Except.error e)]))) ∨
    (∃ req res s2, c.makeRequest t obj ref qp w =
      ((res, none), World.mk s2 (w.trace ++
        [Event.build t obj ref qp (Except.ok req), Event.send req (res, none)]))) ∨
    (∃ req res err e s3, c.makeRequest t obj ref qp w =
      ((res, some e), World.mk s3 (w.trace ++
        [Event.build t obj ref qp (Except.ok req), Event.send req (res, some err),
          Event.build t obj ref { qp with forceProxy := true } (Except.error e)]))) ∨
    (∃ req req2 res err r2 s4, c.makeRequest t obj ref qp w =
      (r2, World.mk s4 (w.trace ++
        [Event.build t obj ref qp (Except.ok req), Event.send req (res, some err),
          Event.build t obj ref { qp with forceProxy := true } (Except.ok req2),
          Event.send req2 r2]))) := by
  rcases hb : c.RequestBuilder.BuildRequest t obj ref qp w.state with ⟨b1, s1⟩
  cases b1 with
  | error e => exact Or.inl ⟨e, s1, makeRequest_build_error c t obj ref qp w e s1 hb⟩
  | ok req =>
    rcases hs : c.Requestor.SendRequest req s1 with ⟨⟨res, err⟩, s2⟩
    cases err with
    | none =>
      exact Or.inr (Or.inl ⟨req, res, s2, makeRequest_send_ok c t obj ref qp w req s1 s2 res hb hs⟩)
    | some err =>
      rcases hb2 : c.RequestBuilder.BuildRequest t obj ref { qp with forceProxy := true } s2
        with ⟨b2, s3⟩
      cases b2 with
      | error e =>
        exact Or.inr (Or.inr (Or.inl ⟨req, res, err, e, s3,
          makeRequest_rebuild_error c t obj ref qp w req s1 s2 s3 res err e hb hs hb2⟩))
      | ok req2 =>
        rcases hs2 : c.Requestor.SendRequest req2 s3 with ⟨r2, s4⟩
        exact Or.inr (Or.inr (Or.inr ⟨req, req2, res, err, r2, s4,
          makeRequest_retry c t obj ref qp w req req2 s1 s2 s3 s4 res err r2 hb hs hb2 hs2⟩))

/-- The sends of a record that follows another: the sends of the first, then those of the
second. -/
theorem sendsWithProxy_append {Req : Type} (a b : List (Event Req)) :
    ∀ fp : Bool, ∃ fp2 : Bool,
      sendsWithProxy fp (a ++ b) = sendsWithProxy fp a ++ sendsWithProxy fp2 b := by
  induction a with
  | nil => intro fp; exact ⟨fp, rfl⟩
  | cons e a ih =>
    intro fp
    cases e with
    | build t obj ref qp r =>
      obtain ⟨fp2, h⟩ := ih qp.forceProxy
      exact ⟨fp2, by show sendsWithProxy qp.forceProxy (a ++ b) = _; rw [h]; rfl⟩
    | send req r =>
      obtain ⟨fp2, h⟩ := ih fp
      exact ⟨fp2, by show (fp, r) :: sendsWithProxy fp (a ++ b) = _; rw [h]; rfl⟩

/-- The sends of a record that follows another, in number. -/
theorem sends_append {Req : Type} (a b : List (Event Req)) :
    sends (a ++ b) = sends a ++ sends b := by
  induction a with
  | nil => rfl
  | cons e a ih =>
    cases e with
    | build t obj ref qp r => show sends (a ++ b) = _; exact ih
    | send req r => show req :: sends (a ++ b) = _; rw [ih]; rfl

/-- The check of `forcedJustified` on two lists of sends in a row, the first of which holds a
send of which the trigger holds. -/
theorem forcedJustified_append (trigger : Bytes × Option Error → Bool)
    (l2 : List (Bool × (Bytes × Option Error)))
    (h2 : forcedJustified trigger true l2 = true) :
    ∀ (l1 : List (Bool × (Bytes × Option Error))) (seen : Bool),
      forcedJustified trigger seen l1 = true →
      (seen = true ∨ ∃ x ∈ l1, trigger x.2 = true) →
      forcedJustified trigger seen (l1 ++ l2) = true := by
  intro l1
  induction l1 with
  | nil =>
    intro seen _ hx
    rcases hx with hs | ⟨x, hx, _⟩
    · rw [hs]; exact h2
    · exact absurd hx (List.not_mem_nil x)
  | cons a l1 ih =>
    intro seen h1 hx
    obtain ⟨fp, r⟩ := a
    simp only [forcedJustified, Bool.and_eq_true] at h1
    simp only [List.cons_append, forcedJustified, Bool.and_eq_true]
    refine ⟨h1.1, ih (seen || trigger r) h1.2 ?_⟩
    rcases hx with hs | ⟨x, hx, hxt⟩
    · exact Or.inl (by simp [hs])
    · rcases List.mem_cons.mp hx with hxa | hxl
      · rw [hxa] at hxt
        exact Or.inl (by simp only [Bool.or_eq_true]; exact Or.inr hxt)
      · exact Or.inr ⟨x, hxl, hxt⟩

/-- What a round adds to the record has at most two sends; the list of its sends does not
depend on what came before the record; it passes the check of `forcedJustified` for every
trigger that holds of failed sends, provided that the round starts without forced proxy or
after a send of which the trigger holds; and the result of a round without error is the
result of one of its sends. -/
theorem makeRequest_sends {σ Req : Type} (c : Connector σ Req) (t : RequestType)
    (obj : Option IBObject) (ref : Str) (qp : QueryParams) (w : World σ Req)
    (trigger : Bytes × Option Error → Bool) (seen fp : Bool)
    (htr : ∀ r, sendFailed r = true → trigger r = true)
    (hstart : qp.forceProxy = false ∨ seen = true) :
    ∃ ext, (c.makeRequest t obj ref qp w).2.trace = w.trace ++ ext ∧
      (sends ext).length ≤ 2 ∧
      (∀ fp2, sendsWithProxy fp2 ext = sendsWithProxy fp ext) ∧
      forcedJustified trigger seen (sendsWithProxy fp ext) = true ∧
      ((c.makeRequest t obj ref qp w).1.2 = none →
        ∃ x ∈ sendsWithProxy fp ext, x.2 = (c.makeRequest t obj ref qp w).1) := by
  have hq : (!qp.forceProxy || seen) = true := by
    rcases hstart with h | h
    · simp [h]
    · simp [h]
  rcases makeRequest_cases c t obj ref qp w with
    ⟨e, s1, h⟩ | ⟨req, res, s2, h⟩ | ⟨req, res, err, e, s3, h⟩ | ⟨req, req2, res, err, r2, s4, h⟩
  · exact ⟨_, by rw [h], by simp [sends], fun fp2 => by simp [sendsWithProxy],
      by simp [sendsWithProxy, forcedJustified], by rw [h]; simp⟩
  · exact ⟨_, by rw [h], by simp [sends], fun fp2 => by simp [sendsWithProxy],
      by simp [sendsWithProxy, forcedJustified, hq], by rw [h]; simp [sendsWithProxy]⟩
  · exact ⟨_, by rw [h], by simp [sends], fun fp2 => by simp [sendsWithProxy],
      by simp [sendsWithProxy, forcedJustified, hq], by rw [h]; simp⟩
  · have ht : trigger (res, some err) = true := htr _ rfl
    exact ⟨_, by rw [h], by simp [sends], fun fp2 => by simp [sendsWithProxy],
      by simp [sendsWithProxy, forcedJustified, hq, ht], by rw [h]; simp [sendsWithProxy]⟩

/-- CreateObject changes the world by its one round. -/
theorem CreateObject_world {σ Req : Type} (c : Connector σ Req) (obj : Option IBObject)
    (w : World σ Req) :
    (c.CreateObject obj w).2 = (c.makeRequest CREATE obj [] { forceProxy := false } w).2 := by
  rcases h : c.makeRequest CREATE obj [] { forceProxy := false } w with ⟨⟨resp, err⟩, w1⟩
  cases err with
  | some e => rw [CreateObject_of_error c obj w w1 resp e h]
  | none =>
    by_cases hl : resp.len = 0
    · rw [CreateObject_of_empty c obj w w1 resp hl h]
    · rw [CreateObject_of_body c obj w w1 resp hl h]

/-- UpdateObject changes the world by its one round. -/
theorem UpdateObject_world {σ Req : Type} (c : Connector σ Req) (obj : Option IBObject)
    (ref : Str) (w : World σ Req) :
    (c.UpdateObject obj ref w).2 = (c.makeRequest UPDATE obj ref { forceProxy := false } w).2 := by
  rcases h : c.makeRequest UPDATE obj ref { forceProxy := false } w with ⟨⟨resp, err⟩, w1⟩
  cases err with
  | some e => rw [UpdateObject_of_error c obj ref w w1 resp e h]
  | none => rw [UpdateObject_of_body c obj ref w w1 resp h]

/-- DeleteObject changes the world by its one round. -/
theorem DeleteObject_world {σ Req : Type} (c : Connector σ Req) (ref : Str)
    (w : World σ Req) :
    (c.DeleteObject ref w).2 = (c.makeRequest DELETE none ref { forceProxy := false } w).2 := by
  rcases h : c.makeRequest DELETE none ref { forceProxy := false } w with ⟨⟨resp, err⟩, w1⟩
  cases err with
  | some e => rw [DeleteObject_of_error c ref w w1 resp e h]
  | none => rw [DeleteObject_of_body c ref w w1 resp h]

/-- GetObject changes the world by its first round, or by a second round as well, which
starts with forceProxy=true after a first round that returned an empty JSON array without
error. -/
theorem GetObject_world {σ Req ρ : Type} (c : Connector σ Req) (obj : Option IBObject)
    (ref : Str) (dec : Decoder ρ) (res : ρ) (w : World σ Req) :
    (c.GetObject obj ref dec res w).2 =
        (c.makeRequest GET obj ref { forceProxy := false } w).2 ∨
      ((c.makeRequest GET obj ref { forceProxy := false } w).1.2 = none ∧
        emptyArrayBody (c.makeRequest GET obj ref { forceProxy := false } w).1.1 = true ∧
        (c.GetObject obj ref dec res w).2 =
          (c.makeRequest GET obj ref { forceProxy := true }
            (c.makeRequest GET obj ref { forceProxy := false } w).2).2) := by
  rcases h : c.makeRequest GET obj ref { forceProxy := false } w with ⟨⟨resp, err⟩, w1⟩
  cases err with
  | some e => exact Or.inl (by rw [GetObject_of_error c obj ref dec res w w1 resp e h])
  | none =>
    cases hp : parseJSON resp.toStr with
    | none => exact Or.inl (by rw [GetObject_of_syntax_error c obj ref dec res w w1 resp hp h])
    | some j =>
      cases hj : j.isEmptyArray with
      | false => exact Or.inl (by rw [GetObject_of_body c obj ref dec res w w1 resp j hp hj h])
      | true =>
        refine Or.inr ⟨rfl, by simp [emptyArrayBody, hp, hj], ?_⟩
        rw [GetObject_of_empty_array c obj ref dec res w w1 _ resp j _ hp hj h
          Prod.mk.eta.symm]

/-- C27: whatever builder and sender do, a single CreateObject, UpdateObject, DeleteObject or
Logout call makes at most two sends, and a single GetObject call makes at most two rounds, each
of at most two sends, so at most four sends, a number that is reached; in the record of the
call, every send with forceProxy=true comes after an earlier send of the same call that
failed or, in a Get, returned an empty JSON array. -/
theorem calls_send_bounds {σ Req ρ : Type} (c : Connector σ Req) (obj : Option IBObject)
    (ref : Str) (dec : Decoder ρ) (res : ρ) (w : World σ Req) :
    (∀ w1 : World σ Req,
      (w1 = (c.CreateObject obj w).2 ∨ w1 = (c.UpdateObject obj ref w).2 ∨
        w1 = (c.DeleteObject ref w).2 ∨ w1 = (c.Logout w).2) →
      ∃ ext, w1.trace = w.trace ++ ext ∧ (sends ext).length ≤ 2 ∧
        ∀ pre r post, sendsWithProxy false ext = pre ++ (true, r) :: post →
          ∃ x ∈ pre, sendFailed x.2 = true) ∧
    ((c.GetObject obj ref dec res w).2 =
        (c.makeRequest GET obj ref { forceProxy := false } w).2 ∨
      (c.GetObject obj ref dec res w).2 =
        (c.makeRequest GET obj ref { forceProxy := true }
          (c.makeRequest GET obj ref { forceProxy := false } w).2).2) ∧
    (∀ (t : RequestType) (o : Option IBObject) (r : Str) (qp : QueryParams)
      (w0 : World σ Req),
      ∃ ext, (c.makeRequest t o r qp w0).2.trace = w0.trace ++ ext ∧ (sends ext).length ≤ 2) ∧
    (∃ ext, (c.GetObject obj ref dec res w).2.trace = w.trace ++ ext ∧
      (sends ext).length ≤ 4 ∧
      ∀ pre r post, sendsWithProxy false ext = pre ++ (true, r) :: post →
        ∃ x ∈ pre, sendFailed x.2 = true ∨ emptyArrayBody x.2.1 = true) ∧
    (sends (scriptedConnector.GetObject none [] (decodeSlice [] decodeString) []
      (scriptedWorld
        [(none, some (Error.other "connection refused".toList)), (some "[]".toList, none),
          (none, some (Error.other "connection refused".toList)),
          (some "[\"a\"]".toList, none)])).2.trace).length = 4 := by
  have hone : ∀ (t : RequestType) (o : Option IBObject) (r : Str) (w1 : World σ Req),
      w1 = (c.makeRequest t o r { forceProxy := false } w).2 →
      ∃ ext, w1.trace = w.trace ++ ext ∧ (sends ext).length ≤ 2 ∧
        ∀ pre r post, sendsWithProxy false ext = pre ++ (true, r) :: post →
          ∃ x ∈ pre, sendFailed x.2 = true := by
    intro t o r w1 hw1
    obtain ⟨ext, h1, h2, _, hj, _⟩ :=
      makeRequest_sends c t o r { forceProxy := false } w sendFailed false false
        (fun _ h => h) (Or.inl rfl)
    refine ⟨ext, by rw [hw1, h1], h2, fun pre r post hsplit => ?_⟩
    rcases forcedJustified_spec sendFailed _ false hj pre r post hsplit with hf | hx
    · exact absurd hf (by decide)
    · exact hx
  have htrig : ∀ r, sendFailed r = true → sendFailedOrEmpty r = true := by
    intro r h
    unfold sendFailed at h
    simp [sendFailedOrEmpty, h]
  have hof : ∀ x : Bool × (Bytes × Option Error), sendFailedOrEmpty x.2 = true →
      sendFailed x.2 = true ∨ emptyArrayBody x.2.1 = true := by
    intro x h
    simpa [sendFailedOrEmpty, sendFailed] using h
  refine ⟨?_, ?_, ?_, ?_, by decide⟩
  · rintro w1 (h | h | h | h)
    · exact hone CREATE obj [] w1 (h.trans (CreateObject_world c obj w))
    · exact hone UPDATE obj ref w1 (h.trans (UpdateObject_world c obj ref w))
    · exact hone DELETE none ref w1 (h.trans (DeleteObject_world c ref w))
    · exact hone CREATE none "logout".toList w1 h
  · rcases GetObject_world c obj ref dec res w with h | ⟨_, _, h⟩
    · exact Or.inl h
    · exact Or.inr h
  · intro t o r qp w0
    obtain ⟨ext, h1, h2, _⟩ :=
      makeRequest_sends c t o r qp w0 (fun _ => true) true false (fun _ _ => rfl) (Or.inr rfl)
    exact ⟨ext, h1, h2⟩
  · obtain ⟨ext1, h1, hl1, _, hj1, hres1⟩ :=
      makeRequest_sends c GET obj ref { forceProxy := false } w sendFailedOrEmpty false false
        htrig (Or.inl rfl)
    rcases GetObject_world c obj ref dec res w with h | ⟨hnone, hempty, h⟩
    · refine ⟨ext1, by rw [h, h1], Nat.le_trans hl1 (by decide), fun pre r post hsplit => ?_⟩
      rcases forcedJustified_spec sendFailedOrEmpty _ false hj1 pre r post hsplit with hf | hx
      · exact absurd hf (by decide)
      · obtain ⟨x, hx, hxt⟩ := hx
        exact ⟨x, hx, hof x hxt⟩
    · obtain ⟨ext2, h2, hl2, hind2, hj2, _⟩ :=
        makeRequest_sends c GET obj ref { forceProxy := true }
          (c.makeRequest GET obj ref { forceProxy := false } w).2 sendFailedOrEmpty true false
          htrig (Or.inr rfl)
      obtain ⟨x1, hx1, hx1r⟩ := hres1 hnone
      have hx1t : sendFailedOrEmpty x1.2 = true := by
        rw [hx1r]
        simp [sendFailedOrEmpty, hempty]
      obtain ⟨fp2, happ⟩ := sendsWithProxy_append ext1 ext2 false
      rw [hind2 fp2] at happ
      have hj : forcedJustified sendFailedOrEmpty false
          (sendsWithProxy false (ext1 ++ ext2)) = true := by
        rw [happ]
        exact forcedJustified_append sendFailedOrEmpty _ hj2 _ false hj1
          (Or.inr ⟨x1, hx1, hx1t⟩)
      refine ⟨ext1 ++ ext2, by rw [h, h2, h1, List.append_assoc], ?_,
        fun pre r post hsplit => ?_⟩
      · rw [sends_append, List.length_append]
        omega
      · rcases forcedJustified_spec sendFailedOrEmpty _ false hj pre r post hsplit with hf | hx
        · exact absurd hf (by decide)
        · obtain ⟨x, hx, hxt⟩ := hx
          exact ⟨x, hx, hof x hxt⟩

/-! ## The object manager: cloud attributes -/

/-- Writing the entries of a list with one entry per key over a map, one by one: a key of the
list gets the value of the list, every other key keeps its value. -/
theorem lookup_foldl_insert (k : Str) :
    ∀ (l : List (Sigma fun _ : Str => EAValue)) (_ : l.NodupKeys) (eas : EA),
      (l.foldl (fun (d : EA) s => d.insert s.1 s.2) eas).lookup k =
        match l.dlookup k with
        | some v => some v
        | none => eas.lookup k := by
  intro l
  induction l with
  | nil => intro _ eas; rfl
  | cons e l ih =>
    intro hnd eas
    obtain ⟨a, b⟩ := e
    have hnd2 := List.nodupKeys_cons.mp hnd
    rw [List.foldl_cons, ih hnd2.2 (eas.insert a b)]
    by_cases hk : k = a
    · subst hk
      have hnone : l.dlookup k = none := List.dlookup_eq_none.mpr hnd2.1
      rw [hnone, List.dlookup_cons_eq]
      exact AList.lookup_insert eas
    · rw [List.dlookup_cons_ne l _ hk, AList.lookup_insert_ne hk]

/-- The value that `extendEA` gives a key: that of `ea` if `ea` has the key, else that of the
basic attributes. -/
theorem lookup_extendEA {τ : Type} (objMgr : ObjectManager τ) (ea : EA) (k : Str) :
    (objMgr.extendEA ea).lookup k =
      match ea.lookup k with
      | some v => some v
      | none => (objMgr.getBasicEA true).lookup k :=
  lookup_foldl_insert k ea.entries ea.nodupKeys (objMgr.getBasicEA true)

/-- C25: when OmitCloudAttrs is true, getBasicEA returns an empty EA and extendEA(ea) holds
exactly the entries of the caller; when it is false, getBasicEA returns exactly the three keys
`Cloud API Owned` (the given flag), `CMP Type` (the cmpType of the manager) and `Tenant ID`
(its tenantID), and extendEA(ea) holds those three, with the flag true, and the entries of the
caller, the value of the caller winning on a key that both have. -/
theorem cloud_attributes {τ : Type} (objMgr : ObjectManager τ) (cloudAPIOwned : Bool)
    (ea : EA) :
    (objMgr.OmitCloudAttrs = true →
      objMgr.getBasicEA cloudAPIOwned = ∅ ∧
        (∀ k, (objMgr.extendEA ea).lookup k = ea.lookup k) ∧
        (∀ k, k ∈ objMgr.extendEA ea ↔ k ∈ ea)) ∧
    (objMgr.OmitCloudAttrs = false →
      (∀ k, k ∈ objMgr.getBasicEA cloudAPIOwned ↔
        (k = "Cloud API Owned".toList ∨ k = "CMP Type".toList ∨ k = "Tenant ID".toList)) ∧
      (objMgr.getBasicEA cloudAPIOwned).lookup "Cloud API Owned".toList =
        some (EAValue.flag cloudAPIOwned) ∧
      (objMgr.getBasicEA cloudAPIOwned).lookup "CMP Type".toList =
        some (EAValue.str objMgr.cmpType) ∧
      (objMgr.getBasicEA cloudAPIOwned).lookup "Tenant ID".toList =
        some (EAValue.str objMgr.tenantID) ∧
      (∀ k v, ea.lookup k = some v → (objMgr.extendEA ea).lookup k = some v) ∧
      (∀ k, ea.lookup k = none →
        (objMgr.extendEA ea).lookup k = (objMgr.getBasicEA true).lookup k) ∧
      (∀ k, k ∈ objMgr.extendEA ea ↔
        (k ∈ ea ∨ k = "Cloud API Owned".toList ∨ k = "CMP Type".toList ∨
          k = "Tenant ID".toList))) := by
  have hmem : ∀ k, k ∈ objMgr.extendEA ea ↔ (k ∈ ea ∨ k ∈ objMgr.getBasicEA true) := by
    intro k
    rw [← AList.lookup_isSome, ← AList.lookup_isSome, ← AList.lookup_isSome,
      lookup_extendEA]
    cases ea.lookup k <;> simp
  constructor
  · intro homit
    have hb : ∀ b, objMgr.getBasicEA b = ∅ := by
      intro b
      simp [ObjectManager.getBasicEA, homit]
    refine ⟨hb cloudAPIOwned, fun k => ?_, fun k => ?_⟩
    · rw [lookup_extendEA, hb true, AList.lookup_empty]
      cases ea.lookup k <;> rfl
    · rw [hmem, hb true]
      simp [AList.not_mem_empty]
  · intro homit
    have hb : ∀ b, objMgr.getBasicEA b =
        (((∅ : EA).insert "Cloud API Owned".toList (EAValue.flag b)).insert
          "CMP Type".toList (EAValue.str objMgr.cmpType)).insert
          "Tenant ID".toList (EAValue.str objMgr.tenantID) := by
      intro b
      simp [ObjectManager.getBasicEA, homit]
    have hkeys : ∀ b k, k ∈ objMgr.getBasicEA b ↔
        (k = "Cloud API Owned".toList ∨ k = "CMP Type".toList ∨ k = "Tenant ID".toList) := by
      intro b k
      rw [hb, AList.mem_insert, AList.mem_insert, AList.mem_insert]
      constructor
      · rintro (h | h | h | h)
        · exact Or.inr (Or.inr h)
        · exact Or.inr (Or.inl h)
        · exact Or.inl h
        · exact absurd h (AList.not_mem_empty k)
      · rintro (h | h | h)
        · exact Or.inr (Or.inr (Or.inl h))
        · exact Or.inr (Or.inl h)
        · exact Or.inl h
    refine ⟨hkeys cloudAPIOwned, ?_, ?_, ?_, ?_, ?_, ?_⟩
    · rw [hb, AList.lookup_insert_ne (by decide), AList.lookup_insert_ne (by decide),
        AList.lookup_insert]
    · rw [hb, AList.lookup_insert_ne (by decide), AList.lookup_insert]
    · rw [hb, AList.lookup_insert]
    · intro k v hk
      rw [lookup_extendEA, hk]
    · intro k hk
      rw [lookup_extendEA, hk]
    · intro k
      rw [hmem, hkeys true]

/-- Witness for C25 on the sample manager, with a key that both have: the `CMP Type` of the
caller wins, the other two basic attributes stay. -/
theorem cloud_attributes_witness :
    (sampleObjectManager.extendEA
        ((∅ : EA).insert "CMP Type".toList (EAValue.str "OpenStack".toList))).lookup
          "CMP Type".toList = some (EAValue.str "OpenStack".toList) ∧
      (sampleObjectManager.extendEA
        ((∅ : EA).insert "CMP Type".toList (EAValue.str "OpenStack".toList))).lookup
          "Tenant ID".toList = some (EAValue.str "tenant-1".toList) ∧
      (sampleObjectManager.getBasicEA false).lookup "Cloud API Owned".toList =
        some (EAValue.flag false) := by
  obtain ⟨_, hflag, _, _, hcaller, hbasic, _⟩ :=
    (cloud_attributes sampleObjectManager false
      ((∅ : EA).insert "CMP Type".toList (EAValue.str "OpenStack".toList))).2 rfl
  refine ⟨hcaller _ _ (by decide), ?_, hflag⟩
  rw [hbasic _ (by decide)]
  decide

/-! ## The object manager: fixed addresses -/

/-- The values that `validateMatchClient` accepts are the five of the list. -/
theorem validateMatchClient_iff (value : Str) :
    validateMatchClient value = true ↔ value ∈ matchClientValues := by
  unfold validateMatchClient
  rw [List.any_eq_true]
  constructor
  · rintro ⟨x, hx, hd⟩
    rw [← of_decide_eq_true hd]
    exact hx
  · intro h
    exact ⟨value, h, decide_eq_true rfl⟩

/-- C24: UpdateFixedAddress validates match_client. For a matchClient that is non-empty and not
one of `MAC_ADDRESS`, `CLIENT_ID`, `RESERVED`, `CIRCUIT_ID`, `REMOTE_ID` it returns a nil result
and an error and leaves the connector alone: state and record of calls are unchanged. For an
empty matchClient or one of the five it calls UpdateObject exactly once, with the given ref,
and returns the object sent, its ref replaced by the one returned, with the error of that
call. -/
theorem UpdateFixedAddress_validates_match_client {τ : Type}
    (NewFixedAddress : FixedAddress → FixedAddress) (objMgr : ObjectManager τ)
    (fixedAddrRef matchClient macAddress vmID vmName : Str) (w : Calls τ) :
    matchClientValues = ["MAC_ADDRESS".toList, "CLIENT_ID".toList, "RESERVED".toList,
      "CIRCUIT_ID".toList, "REMOTE_ID".toList] ∧
    (matchClient ≠ [] → matchClient ∉ matchClientValues →
      (objMgr.UpdateFixedAddress NewFixedAddress fixedAddrRef matchClient macAddress vmID
          vmName w).1.1 = none ∧
        (objMgr.UpdateFixedAddress NewFixedAddress fixedAddrRef matchClient macAddress vmID
          vmName w).1.2 = some (Error.other ("wrong value for match_client passed ".toList ++
            matchClient ++ " \n ".toList)) ∧
        (objMgr.UpdateFixedAddress NewFixedAddress fixedAddrRef matchClient macAddress vmID
          vmName w).2 = w) ∧
    ((matchClient = [] ∨ matchClient ∈ matchClientValues) →
      ∃ u : FixedAddress,
        (matchClient ≠ [] → u.MatchClient = matchClient) ∧
        (objMgr.UpdateFixedAddress NewFixedAddress fixedAddrRef matchClient macAddress vmID
            vmName w).2 =
          Calls.mk (objMgr.connector.UpdateObject (Object.fixedAddress u) fixedAddrRef w.state).2
            (w.calls ++ [Call.update (Object.fixedAddress u) fixedAddrRef]) ∧
        (objMgr.UpdateFixedAddress NewFixedAddress fixedAddrRef matchClient macAddress vmID
            vmName w).1 =
          (some { u with
              Ref := (objMgr.connector.UpdateObject (Object.fixedAddress u) fixedAddrRef
                w.state).1.1 },
            (objMgr.connector.UpdateObject (Object.fixedAddress u) fixedAddrRef
              w.state).1.2)) := by
  refine ⟨rfl, ?_, ?_⟩
  · intro hne hnot
    have hv : validateMatchClient matchClient = false := by
      cases h : validateMatchClient matchClient with
      | false => rfl
      | true => exact absurd ((validateMatchClient_iff matchClient).mp h) hnot
    simp only [ObjectManager.UpdateFixedAddress, if_pos hne, hv]
    exact ⟨rfl, rfl, rfl⟩
  · intro hok
    by_cases hne : matchClient = []
    · simp only [ObjectManager.UpdateFixedAddress, hne]
      exact ⟨_, fun h => absurd rfl h, rfl, rfl⟩
    · have hv : validateMatchClient matchClient = true := by
        rcases hok with h | h
        · exact absurd h hne
        · exact (validateMatchClient_iff matchClient).mpr h
      simp only [ObjectManager.UpdateFixedAddress, if_pos hne, hv]
      exact ⟨_, fun _ => rfl, rfl, rfl⟩

/-- Witness for C24 on the connector double: the match_client `BOGUS` is refused without a
call, and `RESERVED` leads to one update with the ref. -/
theorem UpdateFixedAddress_validates_match_client_witness :
    ((sampleObjectManager.UpdateFixedAddress sampleNewFixedAddress "fixedaddress/abc".toList
        "BOGUS".toList [] [] [] (Calls.mk [] [])).1 =
      (none, some (Error.other "wrong value for match_client passed BOGUS \n ".toList)) ∧
      (sampleObjectManager.UpdateFixedAddress sampleNewFixedAddress "fixedaddress/abc".toList
        "BOGUS".toList [] [] [] (Calls.mk [] [])).2.calls = []) ∧
    ∃ u : FixedAddress, u.MatchClient = "RESERVED".toList ∧
      (sampleObjectManager.UpdateFixedAddress sampleNewFixedAddress "fixedaddress/abc".toList
        "RESERVED".toList [] [] [] (Calls.mk [] [])).2.calls =
      [Call.update (Object.fixedAddress u) "fixedaddress/abc".toList] := by
  constructor
  · obtain ⟨h1, h2, h3⟩ :=
      (UpdateFixedAddress_validates_match_client sampleNewFixedAddress sampleObjectManager
        "fixedaddress/abc".toList "BOGUS".toList [] [] [] (Calls.mk [] [])).2.1
        (by decide) (by decide)
    exact ⟨Prod.ext h1 h2, by rw [h3]⟩
  · obtain ⟨u, hu, hw, _⟩ :=
      (UpdateFixedAddress_validates_match_client sampleNewFixedAddress sampleObjectManager
        "fixedaddress/abc".toList "RESERVED".toList [] [] [] (Calls.mk [] [])).2.2
        (Or.inr (by decide))
    exact ⟨u, hu (by decide), by rw [hw]; rfl⟩

/-- Instances of C24 on the connector double: a wrong match_client is refused without a call,
an empty one and `RESERVED` lead to one update with the ref. -/
theorem UpdateFixedAddress_samples :
    (sampleObjectManager.UpdateFixedAddress sampleNewFixedAddress "fixedaddress/abc".toList
        "BOGUS".toList [] [] [] (Calls.mk [] [])).1 =
      (none, some (Error.other "wrong value for match_client passed BOGUS \n ".toList)) ∧
    (sampleObjectManager.UpdateFixedAddress sampleNewFixedAddress "fixedaddress/abc".toList
        "BOGUS".toList [] [] [] (Calls.mk [] [])).2.calls = [] ∧
    ((sampleObjectManager.UpdateFixedAddress sampleNewFixedAddress "fixedaddress/abc".toList
        "RESERVED".toList [] [] [] (Calls.mk [] [])).2.calls.map
      (fun call => match call with
        | Call.update _ ref => some ref
        | _ => none)) = [some "fixedaddress/abc".toList] ∧
    ((sampleObjectManager.UpdateFixedAddress sampleNewFixedAddress "fixedaddress/abc".toList
        [] "00:11:22:33:44:55".toList [] [] (Calls.mk [] [])).2.calls.map
      (fun call => match call with
        | Call.update _ ref => some ref
        | _ => none)) = [some "fixedaddress/abc".toList] := by
  refine ⟨by decide, by decide, by decide, by decide⟩

/-! ## The object manager: releasing an address -/

/-- GetFixedAddress in terms of the one get it makes: a lookup that fails or finds nothing
yields no address and the error of the lookup, and a lookup that finds some yields the first
and no error. -/
theorem GetFixedAddress_eq {τ : Type} (NewFixedAddress : FixedAddress → FixedAddress)
    (decFixedAddress : Decoder FixedAddress) (objMgr : ObjectManager τ)
    (netview cidr ipAddr macAddr : Str) (w : Calls τ) :
    ∃ obj : Object,
      (objMgr.GetFixedAddress NewFixedAddress decFixedAddress netview cidr ipAddr macAddr w).2 =
          Calls.mk
            (objMgr.connector.GetObject obj [] (decodeSlice {} decFixedAddress) [] w.state).2
            (w.calls ++ [Call.get obj []]) ∧
        (objMgr.GetFixedAddress NewFixedAddress decFixedAddress netview cidr ipAddr macAddr
            w).1 =
          (match (objMgr.connector.GetObject obj [] (decodeSlice {} decFixedAddress) []
              w.state).1 with
            | (_, some e) => (none, some e)
            | ([], none) => (none, none)
            | (fa :: _, none) => (some fa, none)) := by
  refine ⟨Object.fixedAddress
    (if macAddr ≠ [] then
      { NewFixedAddress { NetviewName := netview, Cidr := cidr, IPAddress := ipAddr } with
        Mac := macAddr }
    else NewFixedAddress { NetviewName := netview, Cidr := cidr, IPAddress := ipAddr }), ?_⟩
  simp only [ObjectManager.GetFixedAddress, ObjectManager.callGet]
  generalize objMgr.connector.GetObject _ [] (decodeSlice {} decFixedAddress) [] w.state = r
  obtain ⟨⟨res, err⟩, s⟩ := r
  cases err with
  | some e => simp
  | none =>
    cases res with
    | nil => simp
    | cons fa rest => simp

/-- ReleaseIP after a lookup that yields no address. -/
theorem ReleaseIP_of_none {τ : Type} (NewFixedAddress : FixedAddress → FixedAddress)
    (decFixedAddress : Decoder FixedAddress) (objMgr : ObjectManager τ)
    (netview cidr ipAddr macAddr : Str) (w : Calls τ)
    (h : (objMgr.GetFixedAddress NewFixedAddress decFixedAddress netview cidr ipAddr macAddr
      w).1.1 = none) :
    objMgr.ReleaseIP NewFixedAddress decFixedAddress netview cidr ipAddr macAddr w =
      (([], none),
        (objMgr.GetFixedAddress NewFixedAddress decFixedAddress netview cidr ipAddr macAddr
          w).2) := by
  unfold ObjectManager.ReleaseIP
  generalize objMgr.GetFixedAddress NewFixedAddress decFixedAddress netview cidr ipAddr macAddr
    w = g at h ⊢
  obtain ⟨⟨fa, err⟩, w1⟩ := g
  simp only at h
  subst h
  rfl

/-- ReleaseIP after a lookup that yields an address. -/
theorem ReleaseIP_of_some {τ : Type} (NewFixedAddress : FixedAddress → FixedAddress)
    (decFixedAddress : Decoder FixedAddress) (objMgr : ObjectManager τ)
    (netview cidr ipAddr macAddr : Str) (w : Calls τ) (fixAddress : FixedAddress)
    (h : (objMgr.GetFixedAddress NewFixedAddress decFixedAddress netview cidr ipAddr macAddr
      w).1.1 = some fixAddress) :
    objMgr.ReleaseIP NewFixedAddress decFixedAddress netview cidr ipAddr macAddr w =
      objMgr.callDelete fixAddress.Ref
        (objMgr.GetFixedAddress NewFixedAddress decFixedAddress netview cidr ipAddr macAddr
          w).2 := by
  unfold ObjectManager.ReleaseIP
  generalize objMgr.GetFixedAddress NewFixedAddress decFixedAddress netview cidr ipAddr macAddr
    w = g at h ⊢
  obtain ⟨⟨fa, err⟩, w1⟩ := g
  simp only at h
  subst h
  rfl

/-- C28: ReleaseIP discards the error of the lookup. Whenever GetFixedAddress yields no fixed
address, which is when the get returned an error or an empty result, ReleaseIP returns the
empty ref and no error and the only call made is the get of the lookup; otherwise it returns
exactly the result of DeleteObject on the ref of the first object found, and the calls made
are that get and that delete. -/
theorem ReleaseIP_discards_lookup_error {τ : Type}
    (NewFixedAddress : FixedAddress → FixedAddress) (decFixedAddress : Decoder FixedAddress)
    (objMgr : ObjectManager τ) (netview cidr ipAddr macAddr : Str) (w : Calls τ) :
    ∃ obj : Object,
      ((objMgr.GetFixedAddress NewFixedAddress decFixedAddress netview cidr ipAddr macAddr
          w).1.1 = none ↔
        ((objMgr.connector.GetObject obj [] (decodeSlice {} decFixedAddress) []
            w.state).1.2 ≠ none ∨
          (objMgr.connector.GetObject obj [] (decodeSlice {} decFixedAddress) []
            w.state).1.1 = [])) ∧
      ((objMgr.GetFixedAddress NewFixedAddress decFixedAddress netview cidr ipAddr macAddr
          w).1.1 = none →
        (objMgr.GetFixedAddress NewFixedAddress decFixedAddress netview cidr ipAddr macAddr
            w).1.2 =
          (objMgr.connector.GetObject obj [] (decodeSlice {} decFixedAddress) []
            w.state).1.2 ∧
        (objMgr.ReleaseIP NewFixedAddress decFixedAddress netview cidr ipAddr macAddr w).1 =
          ([], none) ∧
        (objMgr.ReleaseIP NewFixedAddress decFixedAddress netview cidr ipAddr macAddr w).2 =
          Calls.mk
            (objMgr.connector.GetObject obj [] (decodeSlice {} decFixedAddress) [] w.state).2
            (w.calls ++ [Call.get obj []])) ∧
      (∀ fixAddress : FixedAddress,
        (objMgr.GetFixedAddress NewFixedAddress decFixedAddress netview cidr ipAddr macAddr
          w).1.1 = some fixAddress →
        (objMgr.connector.GetObject obj [] (decodeSlice {} decFixedAddress) []
          w.state).1.1.head? = some fixAddress ∧
        (objMgr.ReleaseIP NewFixedAddress decFixedAddress netview cidr ipAddr macAddr w).1 =
          (objMgr.connector.DeleteObject fixAddress.Ref
            (objMgr.connector.GetObject obj [] (decodeSlice {} decFixedAddress) []
              w.state).2).1 ∧
        (objMgr.ReleaseIP NewFixedAddress decFixedAddress netview cidr ipAddr macAddr
            w).2.calls =
          w.calls ++ [Call.get obj [], Call.delete fixAddress.Ref]) := by
  obtain ⟨obj, hw, hr⟩ :=
    GetFixedAddress_eq NewFixedAddress decFixedAddress objMgr netview cidr ipAddr macAddr w
  refine ⟨obj, ?_, ?_, ?_⟩
  · rw [hr]
    generalize (objMgr.connector.GetObject obj [] (decodeSlice {} decFixedAddress) []
      w.state).1 = r
    obtain ⟨res, err⟩ := r
    cases err with
    | some e => simp
    | none => cases res <;> simp
  · intro h
    rw [ReleaseIP_of_none NewFixedAddress decFixedAddress objMgr netview cidr ipAddr macAddr w
      h, hw]
    refine ⟨?_, rfl, rfl⟩
    rw [hr] at h ⊢
    generalize (objMgr.connector.GetObject obj [] (decodeSlice {} decFixedAddress) []
      w.state).1 = r at h ⊢
    obtain ⟨res, err⟩ := r
    cases err with
    | some e => cases res <;> rfl
    | none =>
      cases res with
      | nil => rfl
      | cons fa rest => simp at h
  · intro fixAddress h
    rw [ReleaseIP_of_some NewFixedAddress decFixedAddress objMgr netview cidr ipAddr macAddr w
      fixAddress h, hw]
    refine ⟨?_, rfl, ?_⟩
    · rw [hr] at h
      generalize (objMgr.connector.GetObject obj [] (decodeSlice {} decFixedAddress) []
        w.state).1 = r at h ⊢
      obtain ⟨res, err⟩ := r
      cases err with
      | some e => simp at h
      | none =>
        cases res with
        | nil => simp at h
        | cons fa rest => simpa using h
    · simp [ObjectManager.callDelete]

/-- Witness for C28 on the connector double: a lookup that finds nothing ends in the empty
ref, no error and the one get; a lookup that finds an address ends in the delete of its
ref. -/
theorem ReleaseIP_discards_lookup_error_witness :
    ((sampleObjectManager.ReleaseIP sampleNewFixedAddress sampleDecodeFixedAddress
        "default".toList "10.0.0.0/24".toList "10.0.0.5".toList []
        (Calls.mk ["[]".toList] [])).1 = ([], none) ∧
      ∃ obj, (sampleObjectManager.ReleaseIP sampleNewFixedAddress sampleDecodeFixedAddress
        "default".toList "10.0.0.0/24".toList "10.0.0.5".toList []
        (Calls.mk ["[]".toList] [])).2.calls = [Call.get obj []]) ∧
    ((sampleObjectManager.ReleaseIP sampleNewFixedAddress sampleDecodeFixedAddress
        "default".toList "10.0.0.0/24".toList "10.0.0.5".toList []
        (Calls.mk ["[\x7b\"_ref\":\"fixedaddress/abc:10.0.0.5/default\"\x7d]".toList] [])).1 =
      ("fixedaddress/abc:10.0.0.5/default".toList, none) ∧
      ∃ obj, (sampleObjectManager.ReleaseIP sampleNewFixedAddress sampleDecodeFixedAddress
        "default".toList "10.0.0.0/24".toList "10.0.0.5".toList []
        (Calls.mk ["[\x7b\"_ref\":\"fixedaddress/abc:10.0.0.5/default\"\x7d]".toList]
          [])).2.calls =
        [Call.get obj [], Call.delete "fixedaddress/abc:10.0.0.5/default".toList]) := by
  constructor
  · obtain ⟨obj, _, hnone, _⟩ :=
      ReleaseIP_discards_lookup_error sampleNewFixedAddress sampleDecodeFixedAddress
        sampleObjectManager "default".toList "10.0.0.0/24".toList "10.0.0.5".toList []
        (Calls.mk ["[]".toList] [])
    obtain ⟨_, h1, h2⟩ := hnone (by decide)
    exact ⟨h1, obj, by rw [h2]; rfl⟩
  · obtain ⟨obj, _, _, hsome⟩ :=
      ReleaseIP_discards_lookup_error sampleNewFixedAddress sampleDecodeFixedAddress
        sampleObjectManager "default".toList "10.0.0.0/24".toList "10.0.0.5".toList []
        (Calls.mk ["[\x7b\"_ref\":\"fixedaddress/abc:10.0.0.5/default\"\x7d]".toList] [])
    obtain ⟨_, h1, h2⟩ := hsome { Ref := "fixedaddress/abc:10.0.0.5/default".toList } (by rfl)
    exact ⟨by decide, obj, by rw [h2]; rfl⟩

/-- Instances of C28 on the connector double: a lookup that fails and a lookup that finds
nothing end in the empty ref, no error and no delete; a lookup that finds an address ends in
the delete of its ref. -/
theorem ReleaseIP_samples :
    (sampleObjectManager.ReleaseIP sampleNewFixedAddress sampleDecodeFixedAddress
        "default".toList "10.0.0.0/24".toList "10.0.0.5".toList [] (Calls.mk [] [])).1 =
      ([], none) ∧
    (sampleObjectManager.GetFixedAddress sampleNewFixedAddress sampleDecodeFixedAddress
        "default".toList "10.0.0.0/24".toList "10.0.0.5".toList [] (Calls.mk [] [])).1 =
      (none, some (Error.other "script exhausted".toList)) ∧
    (sampleObjectManager.ReleaseIP sampleNewFixedAddress sampleDecodeFixedAddress
        "default".toList "10.0.0.0/24".toList "10.0.0.5".toList []
        (Calls.mk ["[]".toList] [])).1 = ([], none) ∧
    (sampleObjectManager.ReleaseIP sampleNewFixedAddress sampleDecodeFixedAddress
        "default".toList "10.0.0.0/24".toList "10.0.0.5".toList []
        (Calls.mk ["[\x7b\"_ref\":\"fixedaddress/abc:10.0.0.5/default\"\x7d]".toList] [])).1 =
      ("fixedaddress/abc:10.0.0.5/default".toList, none) ∧
    ((sampleObjectManager.ReleaseIP sampleNewFixedAddress sampleDecodeFixedAddress
        "default".toList "10.0.0.0/24".toList "10.0.0.5".toList []
        (Calls.mk ["[\x7b\"_ref\":\"fixedaddress/abc:10.0.0.5/default\"\x7d]".toList]
          [])).2.calls.map
      (fun call => match call with
        | Call.delete ref => some ref
        | _ => none)) = [none, some "fixedaddress/abc:10.0.0.5/default".toList] := by
  refine ⟨by decide, by decide, by decide, by decide, by decide⟩

/-! ## The object manager: deleting a network -/

/-- C29: DeleteNetwork calls DeleteObject(ref) of the connector if and only if
BuildNetworkFromRef(ref) parses the ref as a network ref and the network view parsed from it
equals the netview argument, and then returns the result of that call; in every other case it
returns the empty ref and no error and leaves the connector alone. For the ref
`network/ZG5zLm5ldHdvcmskODkuMC4wLjAvMjQvMjU:89.0.0.0/24/global_view` the parsed Cidr is
`89.0.0.0/24` and the parsed view is `global_view`. -/
theorem DeleteNetwork_iff_ref_of_view {τ : Type} (objMgr : ObjectManager τ)
    (ref netview : Str) (w : Calls τ) :
    ((∃ n, BuildNetworkFromRef ref = some n ∧ n.NetviewName = netview) →
      objMgr.DeleteNetwork ref netview w =
        ((objMgr.connector.DeleteObject ref w.state).1,
          Calls.mk (objMgr.connector.DeleteObject ref w.state).2
            (w.calls ++ [Call.delete ref]))) ∧
    ((¬ ∃ n, BuildNetworkFromRef ref = some n ∧ n.NetviewName = netview) →
      objMgr.DeleteNetwork ref netview w = (([], none), w)) ∧
    ((objMgr.DeleteNetwork ref netview w).2.calls = w.calls ++ [Call.delete ref] ↔
      ∃ n, BuildNetworkFromRef ref = some n ∧ n.NetviewName = netview) ∧
    ((objMgr.DeleteNetwork ref netview w).2.calls = w.calls ∨
      (objMgr.DeleteNetwork ref netview w).2.calls = w.calls ++ [Call.delete ref]) ∧
    BuildNetworkFromRef
        "network/ZG5zLm5ldHdvcmskODkuMC4wLjAvMjQvMjU:89.0.0.0/24/global_view".toList =
      some
        { Ref := "network/ZG5zLm5ldHdvcmskODkuMC4wLjAvMjQvMjU:89.0.0.0/24/global_view".toList
          NetviewName := "global_view".toList
          Cidr := "89.0.0.0/24".toList } := by
  have hyes : (∃ n, BuildNetworkFromRef ref = some n ∧ n.NetviewName = netview) →
      objMgr.DeleteNetwork ref netview w =
        ((objMgr.connector.DeleteObject ref w.state).1,
          Calls.mk (objMgr.connector.DeleteObject ref w.state).2
            (w.calls ++ [Call.delete ref])) := by
    rintro ⟨n, hn, hv⟩
    simp only [ObjectManager.DeleteNetwork, hn, if_pos hv]
    rfl
  have hno : (¬ ∃ n, BuildNetworkFromRef ref = some n ∧ n.NetviewName = netview) →
      objMgr.DeleteNetwork ref netview w = (([], none), w) := by
    intro h
    cases hn : BuildNetworkFromRef ref with
    | none => simp only [ObjectManager.DeleteNetwork, hn]
    | some n =>
      have hv : ¬ n.NetviewName = netview := fun hv => h ⟨n, hn, hv⟩
      simp only [ObjectManager.DeleteNetwork, hn, if_neg hv]
  refine ⟨hyes, hno, ?_, ?_, rfl⟩
  · constructor
    · intro hc
      by_contra h
      rw [hno h] at hc
      have hlen := congrArg List.length hc
      simp at hlen
    · intro h
      rw [hyes h]
  · by_cases h : ∃ n, BuildNetworkFromRef ref = some n ∧ n.NetviewName = netview
    · exact Or.inr (by rw [hyes h])
    · exact Or.inl (by rw [hno h])

/-- Witness for C29 on the connector double: the network of the view is deleted, the network
of another view is left alone. -/
theorem DeleteNetwork_iff_ref_of_view_witness :
    (sampleObjectManager.DeleteNetwork
        "network/ZG5zLm5ldHdvcmskODkuMC4wLjAvMjQvMjU:89.0.0.0/24/global_view".toList
        "global_view".toList (Calls.mk [] [])) =
      (("network/ZG5zLm5ldHdvcmskODkuMC4wLjAvMjQvMjU:89.0.0.0/24/global_view".toList, none),
        Calls.mk []
          [Call.delete
            "network/ZG5zLm5ldHdvcmskODkuMC4wLjAvMjQvMjU:89.0.0.0/24/global_view".toList]) ∧
    (sampleObjectManager.DeleteNetwork
        "network/ZG5zLm5ldHdvcmskODkuMC4wLjAvMjQvMjU:89.0.0.0/24/global_view".toList
        "local_view".toList (Calls.mk [] [])) = (([], none), Calls.mk [] []) :=
  ⟨(DeleteNetwork_iff_ref_of_view sampleObjectManager
      "network/ZG5zLm5ldHdvcmskODkuMC4wLjAvMjQvMjU:89.0.0.0/24/global_view".toList
      "global_view".toList (Calls.mk [] [])).1 ⟨_, rfl, rfl⟩,
    (DeleteNetwork_iff_ref_of_view sampleObjectManager
      "network/ZG5zLm5ldHdvcmskODkuMC4wLjAvMjQvMjU:89.0.0.0/24/global_view".toList
      "local_view".toList (Calls.mk [] [])).2.1
      (by rintro ⟨n, hn, hv⟩; cases hn; exact absurd hv (by decide))⟩

/-- Instances of C29 on the connector double: the network of the view is deleted, the
network of another view and a ref that is no network ref are left alone. -/
theorem DeleteNetwork_samples :
    (sampleObjectManager.DeleteNetwork
        "network/ZG5zLm5ldHdvcmskODkuMC4wLjAvMjQvMjU:89.0.0.0/24/global_view".toList
        "global_view".toList (Calls.mk [] [])).1 =
      ("network/ZG5zLm5ldHdvcmskODkuMC4wLjAvMjQvMjU:89.0.0.0/24/global_view".toList, none) ∧
    (sampleObjectManager.DeleteNetwork
        "network/ZG5zLm5ldHdvcmskODkuMC4wLjAvMjQvMjU:89.0.0.0/24/global_view".toList
        "global_view".toList (Calls.mk [] [])).2.calls =
      [Call.delete
        "network/ZG5zLm5ldHdvcmskODkuMC4wLjAvMjQvMjU:89.0.0.0/24/global_view".toList] ∧
    (sampleObjectManager.DeleteNetwork
        "network/ZG5zLm5ldHdvcmskODkuMC4wLjAvMjQvMjU:89.0.0.0/24/global_view".toList
        "local_view".toList (Calls.mk [] [])).2.calls = [] ∧
    BuildNetworkFromRef "networkview/ZG5zLm5ldHdvcmtfdmlldyQyMw:global_view/false".toList =
      none ∧
    (sampleObjectManager.DeleteNetwork
        "networkview/ZG5zLm5ldHdvcmtfdmlldyQyMw:global_view/false".toList
        "global_view".toList (Calls.mk [] [])).2.calls = [] := by
  refine ⟨by decide, by rfl, by rfl, by rfl, by rfl⟩

end Ibclient
